import Mathlib

/-!
# Splash: calibration widget (`GuiGlobalView`)

A shallow embedding of `src/src/widget_global_view.cpp`.  The widget's
members keep their C++ names.  Every function of the widget becomes a
function `World → World`, where a `World` is the widget together with the
part of the scene it talks to and the chronological record of the calls it
made on it.

Conventions:
* a camera (`shared_ptr<Camera>`) is identified by a natural number, which
  stands both for the pointer and for the object's (unique) name;
* `float` and `double` are rationals, so rounding and NaN are outside the
  model;
* `Values` is a list of `Value`s; reading past the end, undefined in C++,
  yields `Value.int 0` here.
-/

namespace Splash

/-- One `Value` of a `Values` container: an integer or a floating-point number. -/
inductive Value where
  | int (i : Int)
  | real (q : ℚ)
deriving DecidableEq, Repr

/-- The conversion `Value::as<float>()`. -/
def Value.asFloat : Value → ℚ
  | .int i => (i : ℚ)
  | .real q => q

abbrev Values := List Value

/-- Indexing `v[i]` of a `Values`. -/
def Values.nth (v : Values) (i : Nat) : Value := v.getD i (Value.int 0)

/-- Identity (and name) of a camera object. -/
abbrev CameraPtr := Nat

/-- The struct `CameraParameters` stored in `_previousCameraParameters`. -/
structure CameraParameters where
  eye : Values
  target : Values
  up : Values
  fov : Values
  principalPoint : Values
deriving DecidableEq, Repr

/-- A call made by the widget on the scene. -/
inductive Call where
  /-- The message `setObject(name, attr, args)` sent to the world. -/
  | setObject (name : CameraPtr) (attr : String) (args : Values)
  /-- The message `setObjectsOfType(type, attr, args)` sent to the world. -/
  | setObjectsOfType (type : String) (attr : String) (args : Values)
  /-- The direct call `cam->setAttribute(attr, args)` on a local camera object. -/
  | setAttribute (cam : CameraPtr) (attr : String) (args : Values)
  /-- The direct call `cam->moveCalibrationPoint(dx, dy)` on a local camera object. -/
  | moveCalibrationPoint (cam : CameraPtr) (dx dy : ℚ)
deriving DecidableEq, Repr

/-- The members of `GuiGlobalView` (with the function-local statics of
`processMouseEvents` and `render`). -/
structure GuiGlobalView where
  _camera : CameraPtr
  _guiCamera : CameraPtr
  _previousCameraParameters : List CameraParameters := []
  _camerasHidden : Bool := false
  _camerasColorized : Bool := false
  _camerasColorizedPreviousValue : Bool := false
  _hideCameras : Bool := false
  _showCalibrationPoints : Bool := true
  _joystickCaptured : Bool := false
  _joyAxes : List ℚ := []
  _joyButtons : List Int := []
  _joyButtonsPrevious : List Int := []
  _noMove : Bool := false
  _camWidth : ℚ := 0
  _camHeight : ℚ := 0
  _newTarget : Values := []
  _newTargetDistance : ℚ := 1
  _previousPointAdded : Values := []
  viewCaptured : Bool := false
  showAllCamerasPoints : Bool := false

/-- The widget, the scene around it and the calls made so far.
`cameras` is the result of `getObjectsOfType("camera")`, in registration
order; `getAttribute c a` is what `c->getAttribute(a, ·)` returns; `sent`
is the record of calls, oldest first; the three `pick` fields are the
picking methods of the camera objects. -/
structure World where
  view : GuiGlobalView
  cameras : List CameraPtr
  getAttribute : CameraPtr → String → Values
  sent : List Call := []
  /-- The camera method `pickCalibrationPoint(x, y)`. -/
  pickCalibrationPoint : CameraPtr → ℚ → ℚ → Values := fun _ _ _ => []
  /-- The camera method `pickVertexOrCalibrationPoint(x, y)`. -/
  pickVertexOrCalibrationPoint : CameraPtr → ℚ → ℚ → Values := fun _ _ _ => []
  /-- The camera method `pickFragment(x, y, fragDepth)`: the point and the depth written to `fragDepth`. -/
  pickFragment : CameraPtr → ℚ → ℚ → Values × ℚ := fun _ _ _ => ([], 0)

/-- Record one call. -/
def World.emit (w : World) (c : Call) : World :=
  { w with sent := w.sent ++ [c] }

/-- The call `setObject(name, attr, args)`. -/
def setObject (name : CameraPtr) (attr : String) (args : Values) (w : World) : World :=
  w.emit (Call.setObject name attr args)

/-- The snapshot read at the start of `doCalibration`. -/
def currentParameters (w : World) : CameraParameters :=
  { eye := w.getAttribute w.view._camera "eye",
    target := w.getAttribute w.view._camera "target",
    up := w.getAttribute w.view._camera "up",
    fov := w.getAttribute w.view._camera "fov",
    principalPoint := w.getAttribute w.view._camera "principalPoint" }

/-- The function `GuiGlobalView::propagateCalibration`. -/
def propagateCalibration (w : World) : World :=
  ["eye", "target", "up", "fov", "principalPoint"].foldl
    (fun acc p => setObject acc.view._camera p (acc.getAttribute acc.view._camera p) acc) w

/-- The function `GuiGlobalView::doCalibration`.  The camera's own
`doCalibration` (the solve) is `solve`, an arbitrary change of the selected
camera's attributes. -/
def doCalibration (solve : (String → Values) → (String → Values)) (w : World) : World :=
  let params := currentParameters w
  let w1 : World :=
    { w with view := { w.view with
        _previousCameraParameters := w.view._previousCameraParameters ++ [params] } }
  let w2 : World :=
    { w1 with getAttribute := fun c =>
        if c = w1.view._camera then solve (w1.getAttribute c) else w1.getAttribute c }
  propagateCalibration w2

/-- The function `GuiGlobalView::revertCalibration`. -/
def revertCalibration (w : World) : World :=
  match w.view._previousCameraParameters.getLast? with
  | none => w
  | some params =>
    let w1 : World :=
      if w.view._previousCameraParameters.length > 1 then
        { w with view := { w.view with
            _previousCameraParameters := w.view._previousCameraParameters.dropLast } }
      else w
    let cam := w1.view._camera
    let w2 := setObject cam "eye" [params.eye.nth 0, params.eye.nth 1, params.eye.nth 2] w1
    let w3 := setObject cam "target" [params.target.nth 0, params.target.nth 1, params.target.nth 2] w2
    let w4 := setObject cam "up" [params.up.nth 0, params.up.nth 1, params.up.nth 2] w3
    let w5 := setObject cam "fov" [params.fov.nth 0] w4
    setObject cam "principalPoint" [params.principalPoint.nth 0, params.principalPoint.nth 1] w5

/-- The function `GuiGlobalView::showAllCalibrationPoints`.  The enum
`Camera::CalibrationPointsVisibility` is declared outside these sources: its
values are integers and `switchVisibility` is the value of the enumerator of
that name. -/
def showAllCalibrationPoints (switchVisibility : Int) (showPoints : Int) (w : World) : World :=
  let w1 : World :=
    if showPoints = switchVisibility then
      { w with view := { w.view with _showCalibrationPoints := !w.view._showCalibrationPoints } }
    else w
  setObject w1.view._camera "showAllCalibrationPoints" [Value.int showPoints] w1

/-- The loop of `nextCamera` over `cameras`, started at the index whose
suffix is the list given: at the first `cameras[i] == _camera` the result is
`_guiCamera` when `i` is the last index and `cameras[i + 1]` otherwise; when
no entry matches, `_camera` is kept. -/
def nextCameraScan (_camera _guiCamera : CameraPtr) : List CameraPtr → CameraPtr
  | [] => _camera
  | c :: rest =>
    if c = _camera then
      match rest with
      | [] => _guiCamera
      | d :: _ => d
    else nextCameraScan _camera _guiCamera rest

/-- The selection made by the `if` / `else if` / `else` chain of `nextCamera`:
the overview camera when no camera is registered, the first registered
camera when the overview camera is selected, the result of the loop
otherwise. -/
def nextSelection (cameras : List CameraPtr) (_camera _guiCamera : CameraPtr) : CameraPtr :=
  match cameras with
  | [] => _guiCamera
  | first :: _ =>
    if _camera = _guiCamera then first
    else nextCameraScan _camera _guiCamera cameras

/-- The function `GuiGlobalView::nextCamera`. -/
def nextCamera (w : World) : World :=
  let cameras := w.cameras
  let w1 : World :=
    { w with view := { w.view with
        _previousCameraParameters := [], _camerasHidden := false, _camerasColorized := false } }
  let w2 := cameras.foldl (fun acc cam => setObject cam "hide" [Value.int 0] acc) w1
  let w3 := setObject w2.view._camera "frame" [Value.int 0] w2
  let w4 := setObject w3.view._camera "displayCalibration" [Value.int 0] w3
  let w5 : World := { w4 with view := { w4.view with
    _camera := nextSelection cameras w4.view._camera w4.view._guiCamera } }
  if w5.view._camera ≠ w5.view._guiCamera then
    setObject w5.view._camera "displayCalibration" [Value.int 1]
      (setObject w5.view._camera "frame" [Value.int 1] w5)
  else w5

/-- The result of `GuiGlobalView::getCameras`: the overview camera, then the
registered cameras. -/
def getCameras (w : World) : List CameraPtr := w.view._guiCamera :: w.cameras

/-- The body run by `render` when the image button of `camera` in the camera
list is pressed; `keyCtrl` is `io.KeyCtrl`. -/
def cameraButtonPressed (switchVisibility : Int) (keyCtrl : Bool) (camera : CameraPtr)
    (w : World) : World :=
  if keyCtrl then
    setObject camera "hide" [Value.int (-1)] w
  else
    let cameras := getCameras w
    let w1 : World :=
      { w with view := { w.view with
          _previousCameraParameters := [], _camerasHidden := false, _camerasColorized := false } }
    let w2 := cameras.foldl (fun acc cam => setObject cam "hide" [Value.int 0] acc) w1
    let w3 := setObject w2.view._camera "frame" [Value.int 0] w2
    let w4 := setObject w3.view._camera "displayCalibration" [Value.int 0] w3
    let w5 : World := { w4 with view := { w4.view with _camera := camera } }
    let w6 := setObject w5.view._camera "frame" [Value.int 1] w5
    let w7 := setObject w6.view._camera "displayCalibration" [Value.int 1] w6
    showAllCalibrationPoints switchVisibility (if w7.view._showCalibrationPoints then 1 else 0) w7

/-- The function `GuiGlobalView::colorizeCameraWireframes`. -/
def colorizeCameraWireframes (colorize : Bool) (w : World) : World :=
  if (w.view._camera = w.view._guiCamera ∧ colorize = true)
      ∨ colorize = w.view._camerasColorizedPreviousValue then w
  else
    let w1 : World := { w with view := { w.view with _camerasColorizedPreviousValue := colorize } }
    if colorize then
      setObject w1.view._camera "colorWireframe"
        [Value.real 0, Value.real 1, Value.real 0, Value.real 1]
        (w1.emit (Call.setObjectsOfType "camera" "colorWireframe"
          [Value.real 1, Value.real 0, Value.real 1, Value.real 1]))
    else
      w1.emit (Call.setObjectsOfType "camera" "colorWireframe"
        [Value.real 1, Value.real 1, Value.real 1, Value.real 1])

/-- The function `GuiGlobalView::hideOtherCameras`. -/
def hideOtherCameras (hide : Bool) (w : World) : World :=
  if hide = w.view._camerasHidden then w
  else
    let w1 := w.cameras.foldl
      (fun acc cam =>
        if cam ≠ acc.view._camera then
          setObject cam "hide" [Value.int (if hide then 1 else 0)] acc
        else acc) w
    { w1 with view := { w1.view with _camerasHidden := hide } }

/-- The `std::min` of two floats: `(b < a) ? b : a`. -/
def stdMin (a b : ℚ) : ℚ := if b < a then b else a

/-- The `std::max` of two floats: `(a < b) ? b : a`. -/
def stdMax (a b : ℚ) : ℚ := if a < b then b else a

/-- The part of `ImGuiIO` and of the ImGui item state read by
`processMouseEvents`. -/
structure MouseInput where
  MousePos : ℚ × ℚ := (0, 0)
  CursorScreenPos : ℚ × ℚ := (0, 0)
  MouseDown0 : Bool := false
  MouseClicked0 : Bool := false
  MouseClicked1 : Bool := false
  MouseWheel : ℚ := 0
  MouseDownDuration1 : ℚ := -1
  MouseDelta : ℚ × ℚ := (0, 0)
  KeyCtrl : Bool := false
  KeyShift : Bool := false
  IsItemHoveredRect : Bool := false
  IsItemHovered : Bool := false

/-- The view-relative mouse position computed at the top of
`processMouseEvents`. -/
def mousePos (io : MouseInput) (w : World) : ℚ × ℚ :=
  ((io.MousePos.1 - io.CursorScreenPos.1) / w.view._camWidth,
   -(io.MousePos.2 - io.CursorScreenPos.2) / w.view._camHeight)

/-- The block `if (io.MouseDown[0])` of `processMouseEvents` (vertex
selection), which ends the function. -/
def mouseLeftButton (io : MouseInput) (w : World) : World :=
  let p := mousePos io w
  if w.view._camera = w.view._guiCamera then w
  else if io.KeyCtrl ∧ io.MouseClicked0 then
    let position := w.pickCalibrationPoint w.view._camera p.1 p.2
    if position.length = 3 then
      setObject w.view._camera "removeCalibrationPoint"
        [position.nth 0, position.nth 1, position.nth 2] w
    else w
  else if io.KeyShift then
    setObject w.view._camera "setCalibrationPoint"
      [Value.real (p.1 * 2 - 1), Value.real (p.2 * 2 - 1)] w
  else if io.MouseClicked0 then
    let position := w.pickVertexOrCalibrationPoint w.view._camera p.1 p.2
    if position.length = 3 then
      let w1 := setObject w.view._camera "addCalibrationPoint"
        [position.nth 0, position.nth 1, position.nth 2] w
      { w1 with view := { w1.view with _previousPointAdded := position } }
    else
      setObject w.view._camera "deselectCalibrationPoint" [] w
  else w

/-- The block `if (io.MouseClicked[1])` of `processMouseEvents`. -/
def mouseRightClick (io : MouseInput) (w : World) : World :=
  if io.MouseClicked1 then
    let p := mousePos io w
    let picked := w.pickFragment w.view._camera p.1 p.2
    let fragDepth := picked.2
    { w with view := { w.view with
        _newTarget := picked.1,
        _newTargetDistance := if fragDepth = 0 then 1 else -fragDepth * (1 / 10) } }
  else w

/-- The block `if (io.MouseWheel != 0)` of `processMouseEvents`. -/
def mouseWheel (io : MouseInput) (w : World) : World :=
  if io.MouseWheel ≠ 0 then
    let fov := w.getAttribute w.view._camera "fov"
    let camFov := (fov.nth 0).asFloat
    let camFov := camFov + io.MouseWheel
    let camFov := stdMax 2 (stdMin 180 camFov)
    if w.view._camera ≠ w.view._guiCamera then
      setObject w.view._camera "fov" [Value.real camFov] w
    else
      w.emit (Call.setAttribute w.view._camera "fov" [Value.real camFov])
  else w

/-- The update of the static `viewCaptured` in `processMouseEvents`. -/
def mouseCapture (io : MouseInput) (w : World) : World :=
  if io.MouseDownDuration1 > 0 then
    if io.IsItemHovered then { w with view := { w.view with viewCaptured := true } } else w
  else if w.view.viewCaptured then
    { w with view := { w.view with viewCaptured := false } }
  else w

/-- The block `if (viewCaptured)` of `processMouseEvents` (view widget
controls). -/
def mouseViewControls (io : MouseInput) (w : World) : World :=
  let cam := w.view._camera
  let target := w.view._newTarget
  if w.view.viewCaptured then
    if !io.KeyCtrl ∧ !io.KeyShift then
      let dx := io.MouseDelta.1
      let dy := io.MouseDelta.2
      let w1 := setObject cam "up" [Value.real 0, Value.real 0, Value.real 1] w
      let aroundPoint : Values :=
        [Value.real (dx / 100), Value.real (dy / 100), Value.int 0,
         Value.real (target.nth 0).asFloat, Value.real (target.nth 1).asFloat,
         Value.real (target.nth 2).asFloat]
      let aroundTarget : Values := [Value.real (dx / 100), Value.real (dy / 100), Value.int 0]
      if cam ≠ w.view._guiCamera then
        if target.length = 3 then setObject cam "rotateAroundPoint" aroundPoint w1
        else setObject cam "rotateAroundTarget" aroundTarget w1
      else
        if target.length = 3 then w1.emit (Call.setAttribute cam "rotateAroundPoint" aroundPoint)
        else w1.emit (Call.setAttribute cam "rotateAroundTarget" aroundTarget)
    else if io.KeyShift ∧ !io.KeyCtrl then
      let dx := io.MouseDelta.1 * w.view._newTargetDistance
      let dy := io.MouseDelta.2 * w.view._newTargetDistance
      if cam ≠ w.view._guiCamera then
        setObject cam "pan" [Value.real (-dx / 100), Value.real (dy / 100), Value.real 0] w
      else
        w.emit (Call.setAttribute cam "pan" [Value.real (-dx / 100), Value.real (dy / 100), Value.int 0])
    else if !io.KeyShift ∧ io.KeyCtrl then
      let dy := io.MouseDelta.2 * w.view._newTargetDistance / 100
      if cam ≠ w.view._guiCamera then setObject cam "forward" [Value.real dy] w
      else w.emit (Call.setAttribute cam "forward" [Value.real dy])
    else w
  else w

/-- The function `GuiGlobalView::processMouseEvents`. -/
def processMouseEvents (io : MouseInput) (w : World) : World :=
  if io.IsItemHoveredRect ∧ io.MouseDown0 then
    mouseLeftButton io w
  else
    let w1 := if io.IsItemHoveredRect then mouseWheel io (mouseRightClick io w) else w
    mouseViewControls io (mouseCapture io w1)

/-- Modelled from the spec: the delivery of a call to the camera object it
addresses (camera.cpp and the world's message dispatch are not in these
sources).  Per the spec's `setAttribute(objectName, attributeName, values)`
and `setPose(partial)`, an attribute set on a camera is what a later
`getAttribute` of that attribute on that camera returns. -/
def deliver (c : Call) (getAttribute : CameraPtr → String → Values) :
    CameraPtr → String → Values :=
  match c with
  | Call.setObject name attr args =>
    fun cam a => if cam = name ∧ a = attr then args else getAttribute cam a
  | Call.setAttribute name attr args =>
    fun cam a => if cam = name ∧ a = attr then args else getAttribute cam a
  | Call.setObjectsOfType _ _ _ => getAttribute
  | Call.moveCalibrationPoint _ _ _ => getAttribute

/-- A sequence of calibration actions on the selected camera. -/
inductive CalibrationAction where
  | calibrate
  | revert
deriving DecidableEq, Repr

/-- Run a sequence of `doCalibration` and `revertCalibration` calls. -/
def runCalibrationActions (solve : (String → Values) → (String → Values)) :
    List CalibrationAction → World → World
  | [], w => w
  | CalibrationAction.calibrate :: rest, w =>
    runCalibrationActions solve rest (doCalibration solve w)
  | CalibrationAction.revert :: rest, w =>
    runCalibrationActions solve rest (revertCalibration w)

/-- The attribute name carried by a call (for a method call, the name of the
method). -/
def Call.attr : Call → String
  | Call.setObject _ a _ => a
  | Call.setObjectsOfType _ a _ => a
  | Call.setAttribute _ a _ => a
  | Call.moveCalibrationPoint _ _ _ => "moveCalibrationPoint"

/-- The calls recorded by `after` that were not yet recorded by `before`. -/
def emitted (before after : World) : List Call := after.sent.drop before.sent.length

/-- One tick of `processMouseEvents` followed by the delivery, in order, of
the calls it made. -/
def mouseTick (io : MouseInput) (w : World) : World :=
  let w1 := processMouseEvents io w
  { w1 with getAttribute := (emitted w w1).foldl (fun g c => deliver c g) w.getAttribute }

/-- A sequence of ticks of `processMouseEvents`, each delivered. -/
def mouseTicks (ios : List MouseInput) (w : World) : World :=
  ios.foldl (fun acc io => mouseTick io acc) w

/-- A tick on which the wheel handler runs: the view is hovered, the left
button is up and the wheel moved. -/
def MouseInput.WheelDriven (io : MouseInput) : Prop :=
  io.IsItemHoveredRect = true ∧ io.MouseDown0 = false ∧ io.MouseWheel ≠ 0

instance (io : MouseInput) : Decidable io.WheelDriven := by
  unfold MouseInput.WheelDriven; infer_instance

/-- The value `fov[0].as<float>()` read by the wheel handler from the
selected camera. -/
def currentFov (w : World) : ℚ := ((w.getAttribute w.view._camera "fov").nth 0).asFloat

/-- The two ways in which `processMouseEvents` sets attribute `attr` of the
selected camera: `setObject` for a registered camera, a direct
`setAttribute` for the overview camera. -/
def setOnSelected (w : World) (attr : String) (args : Values) : Call :=
  if w.view._camera ≠ w.view._guiCamera then Call.setObject w.view._camera attr args
  else Call.setAttribute w.view._camera attr args

/-- The `displayCalibration` calls among `calls`, in order. -/
def displayCalibrationCalls (calls : List Call) : List Call :=
  calls.filter (fun c => decide (c.attr = "displayCalibration"))

/-- The arguments carried by a call. -/
def Call.args : Call → Values
  | Call.setObject _ _ v => v
  | Call.setObjectsOfType _ _ v => v
  | Call.setAttribute _ _ v => v
  | Call.moveCalibrationPoint _ dx dy => [Value.real dx, Value.real dy]

/-- The number of calls among `calls` that set `displayCalibration` to `v`. -/
def countDisplayCalibration (v : Int) (calls : List Call) : Nat :=
  (calls.filter (fun c =>
    decide (c.attr = "displayCalibration" ∧ c.args = [Value.int v]))).length

/-- The arities of a pose snapshot: `eye`, `target` and `up` are 3D vectors,
`fov` is a scalar and `principalPoint` a 2D offset. -/
def CameraParameters.WellFormed (p : CameraParameters) : Prop :=
  p.eye.length = 3 ∧ p.target.length = 3 ∧ p.up.length = 3 ∧ p.fov.length = 1
    ∧ p.principalPoint.length = 2

instance (p : CameraParameters) : Decidable p.WellFormed := by
  unfold CameraParameters.WellFormed; infer_instance

/-- A small scene used to instantiate the theorems: overview camera `0`,
registered cameras `1`, `2`, `3`, every camera looking from `(1,2,3)` at the
origin with a field of view of 35 degrees. -/
def sampleAttributes : CameraPtr → String → Values := fun _ a =>
  if a = "eye" then [Value.real 1, Value.real 2, Value.real 3]
  else if a = "target" then [Value.real 0, Value.real 0, Value.real 0]
  else if a = "up" then [Value.real 0, Value.real 0, Value.real 1]
  else if a = "fov" then [Value.real 35]
  else if a = "principalPoint" then [Value.real (1 / 2), Value.real (1 / 2)]
  else []

/-- A pose snapshot with the arities of the data model. -/
def samplePose (f : ℚ) : CameraParameters :=
  { eye := [Value.real 1, Value.real 2, Value.real 3],
    target := [Value.real 0, Value.real 0, Value.real 0],
    up := [Value.real 0, Value.real 0, Value.real 1],
    fov := [Value.real f],
    principalPoint := [Value.real (1 / 2), Value.real (1 / 2)] }

/-- The sample scene with camera `sel` selected and the given history. -/
def sampleWorld (sel : CameraPtr) (history : List CameraParameters) : World :=
  { view := { _camera := sel, _guiCamera := 0, _previousCameraParameters := history },
    cameras := [1, 2, 3],
    getAttribute := sampleAttributes }

/-! ### Keyboard and joystick -/

/-- The parts of the camera class and of the widget's header that the
sources use but do not contain. -/
structure Externals where
  /-- The value of the enumerator
  `Camera::CalibrationPointsVisibility::switchVisibility`. -/
  switchVisibility : Int
  /-- The default argument of `showAllCalibrationPoints`, declared in the
  header. -/
  showPointsDefault : Int
  /-- The method `Camera::doCalibration`, as a change of the attributes of the
  camera. -/
  doCalibration : (String → Values) → (String → Values)
  /-- The method `Camera::moveCalibrationPoint(dx, dy)`, as a change of the
  attributes of the camera. -/
  moveCalibrationPoint : ℚ → ℚ → (String → Values) → (String → Values)

/-- The call `_camera->moveCalibrationPoint(dx, dy)` on the selected camera. -/
def moveCalibrationPoint (x : Externals) (dx dy : ℚ) (w : World) : World :=
  { w with
    getAttribute := fun c =>
      if c = w.view._camera then x.moveCalibrationPoint dx dy (w.getAttribute c)
      else w.getAttribute c,
    sent := w.sent ++ [Call.moveCalibrationPoint w.view._camera dx dy] }

/-- The function `GuiGlobalView::showAllCamerasCalibrationPoints`. -/
def showAllCamerasCalibrationPoints (w : World) : World :=
  if w.view._camera = w.view._guiCamera then
    w.emit (Call.setAttribute w.view._guiCamera "switchDisplayAllCalibration" [])
  else
    setObject w.view._camera "switchDisplayAllCalibration" [] w

/-- The part of `ImGuiIO` and of the ImGui item state read by
`processKeyEvents`; keys are indexed by their code. -/
structure KeyInput where
  KeysDown : Nat → Bool := fun _ => false
  KeysDownDuration : Nat → ℚ := fun _ => -1
  KeyCtrl : Bool := false
  KeyShift : Bool := false
  IsItemHoveredRect : Bool := false

/-- The test `io.KeysDown[k] && io.KeysDownDuration[k] == 0.0`. -/
def KeyInput.pressed (io : KeyInput) (k : Nat) : Bool :=
  io.KeysDown k && decide (io.KeysDownDuration k = 0)

/-- The value of `delta` in the arrow-key branch of `processKeyEvents`. -/
def keyDelta (io : KeyInput) : ℚ :=
  if io.KeyShift then 1 / 10
  else if io.KeyCtrl then 10
  else 1

/-- One `if (io.KeysDownDuration[key] == 0.0)` block of the arrow-key branch:
the nudge by `(dx, dy)` followed by `propagateCalibration`. -/
def arrowKey (x : Externals) (io : KeyInput) (key : Nat) (dx dy : ℚ) (w : World) : World :=
  if io.KeysDownDuration key = 0 then propagateCalibration (moveCalibrationPoint x dx dy w)
  else w

/-- The arrow-key branch (the final `else`) of `processKeyEvents`. -/
def arrowKeys (x : Externals) (io : KeyInput) (w : World) : World :=
  let delta := keyDelta io
  let w1 := arrowKey x io 262 delta 0 w
  let w2 := arrowKey x io 263 (-delta) 0 w1
  let w3 := arrowKey x io 264 0 (-delta) w2
  arrowKey x io 265 0 delta w3

/-- The function `GuiGlobalView::processKeyEvents`.  The key codes are those
of the characters `' '`, `'A'`, `'C'`, `'H'`, `'O'`, `'V'`, `'Z'`. -/
def processKeyEvents (x : Externals) (io : KeyInput) (w : World) : World :=
  if !io.IsItemHoveredRect then w
  else if io.pressed 32 then nextCamera w
  else if io.pressed 65 then showAllCalibrationPoints x.switchVisibility x.showPointsDefault w
  else if io.pressed 67 then doCalibration x.doCalibration w
  else if io.pressed 72 then
    { w with view := { w.view with _hideCameras := !w.view._camerasHidden } }
  else if io.pressed 79 then showAllCamerasCalibrationPoints w
  else if io.pressed 86 then
    { w with view := { w.view with _camerasColorized := !w.view._camerasColorized } }
  else if io.pressed 90 then
    if io.KeyCtrl then revertCalibration w else w
  else arrowKeys x io w

/-- Indexing `v[i]` of a vector of button states. -/
def buttonAt (v : List Int) (i : Nat) : Int := v.getD i 0

/-- The test `_joyButtons[i] == 1 && _joyButtons[i] != _joyButtonsPrevious[i]`. -/
def buttonEdge (w : World) (i : Nat) : Bool :=
  decide (buttonAt w.view._joyButtons i = 1)
    && decide (buttonAt w.view._joyButtons i ≠ buttonAt w.view._joyButtonsPrevious i)

/-- The value of the local `speed` of `processJoystickState` after the
buttons have been handled. -/
def joystickSpeed (w : World) : ℚ :=
  if w.view._joyButtons.length ≥ 4 then
    if buttonEdge w 0 then 1
    else if buttonEdge w 1 then 1
    else if buttonAt w.view._joyButtons 2 = 1 then 10
    else 1
  else 1

/-- The block `if (_joyButtons.size() >= 4)` of `processJoystickState`. -/
def joystickButtons4 (x : Externals) (w : World) : World :=
  if w.view._joyButtons.length ≥ 4 then
    if buttonEdge w 0 then setObject w.view._camera "selectPreviousCalibrationPoint" [] w
    else if buttonEdge w 1 then setObject w.view._camera "selectNextCalibrationPoint" [] w
    else if buttonAt w.view._joyButtons 2 = 1 then w
    else if buttonEdge w 3 then doCalibration x.doCalibration w
    else w
  else w

/-- The block `if (_joyButtons.size() >= 6)` of `processJoystickState`. -/
def joystickButtons6 (x : Externals) (w : World) : World :=
  if w.view._joyButtons.length ≥ 6 then
    if buttonEdge w 4 then showAllCalibrationPoints x.switchVisibility x.showPointsDefault w
    else if buttonEdge w 5 then
      { w with view := { w.view with _hideCameras := !w.view._camerasHidden } }
    else w
  else w

/-- The block `if (_joyAxes.size() >= 2)` of `processJoystickState`. -/
def joystickAxes (x : Externals) (w : World) : World :=
  if w.view._joyAxes.length ≥ 2 then
    let xValue := w.view._joyAxes.getD 0 0
    let yValue := -(w.view._joyAxes.getD 1 0)
    if xValue ≠ 0 ∨ yValue ≠ 0 then
      propagateCalibration (moveCalibrationPoint x 0 0 w)
    else w
  else w

/-- The assignment `_joyButtonsPrevious = _joyButtons` of
`processJoystickState`. -/
def joystickRemember (w : World) : World :=
  { w with view := { w.view with _joyButtonsPrevious := w.view._joyButtons } }

/-- The function `GuiGlobalView::processJoystickState`. -/
def processJoystickState (x : Externals) (w : World) : World :=
  let w1 := joystickButtons6 x (joystickButtons4 x w)
  let w2 := joystickRemember w1
  let w3 := joystickAxes x w2
  { w3 with view := { w3.view with _joyAxes := [], _joyButtons := [] } }

/-- The calls `moveCalibrationPoint` among `calls`, in order. -/
def moveCalls (calls : List Call) : List Call :=
  calls.filter (fun c => decide (c.attr = "moveCalibrationPoint"))

/-! ### Reception of the calls by the cameras -/

/-- Modelled from the spec: whether a call reaches the camera `cam` (the
dispatch of the messages by the world is not in these sources).  A call made
on a name or on an object reaches that camera; `setObjectsOfType(type, ...)`
reaches the cameras that `getObjectsOfType(type)` lists, that is the
registered cameras for the type `"camera"`. -/
def Call.reaches (cameras : List CameraPtr) (cam : CameraPtr) : Call → Bool
  | Call.setObject name _ _ => decide (name = cam)
  | Call.setObjectsOfType type _ _ => decide (type = "camera") && decide (cam ∈ cameras)
  | Call.setAttribute name _ _ => decide (name = cam)
  | Call.moveCalibrationPoint name _ _ => decide (name = cam)

/-- The arguments of the last call among `calls` that sets `attr` and reaches
the camera `cam`. -/
def lastReceived (cameras : List CameraPtr) (cam : CameraPtr) (attr : String)
    (calls : List Call) : Option Values :=
  ((calls.filter (fun c => c.reaches cameras cam && decide (c.attr = attr))).getLast?).map
    Call.args

/-- A command that may hide the overview camera or that colours its
wireframe: a `hide` with a value other than `0`, or a `colorWireframe`,
reaching the camera `gui`. -/
def Call.hidesOrColorizes (cameras : List CameraPtr) (gui : CameraPtr) (c : Call) : Prop :=
  c.reaches cameras gui = true
    ∧ ((c.attr = "hide" ∧ c.args ≠ [Value.int 0]) ∨ c.attr = "colorWireframe")

instance (cameras : List CameraPtr) (gui : CameraPtr) (c : Call) :
    Decidable (c.hidesOrColorizes cameras gui) := by
  unfold Call.hidesOrColorizes; infer_instance

/-- The operations of the widget on the selection and on the flags. -/
inductive WidgetOp where
  | nextCamera
  | cameraButton (camera : CameraPtr) (keyCtrl : Bool)
  | hideOtherCameras (hide : Bool)
  | colorizeCameraWireframes (colorize : Bool)
deriving DecidableEq, Repr

/-- Run one operation of the widget. -/
def runWidgetOp (switchVisibility : Int) : WidgetOp → World → World
  | WidgetOp.nextCamera, w => nextCamera w
  | WidgetOp.cameraButton camera keyCtrl, w => cameraButtonPressed switchVisibility keyCtrl camera w
  | WidgetOp.hideOtherCameras hide, w => hideOtherCameras hide w
  | WidgetOp.colorizeCameraWireframes colorize, w => colorizeCameraWireframes colorize w

/-- Run a sequence of operations of the widget. -/
def runWidgetOps (switchVisibility : Int) (ops : List WidgetOp) (w : World) : World :=
  ops.foldl (fun acc op => runWidgetOp switchVisibility op acc) w

/-- A sequence of ticks of `processMouseEvents`. -/
def runMouseEvents (ios : List MouseInput) (w : World) : World :=
  ios.foldl (fun acc io => processMouseEvents io acc) w

/-- Externals used to instantiate the theorems: `switchVisibility` is `-1`,
the calibration leaves the camera as it is and a nudge has no effect on the
pose. -/
def sampleExternals : Externals :=
  { switchVisibility := -1,
    showPointsDefault := -1,
    doCalibration := id,
    moveCalibrationPoint := fun _ _ => id }

/-- The sample scene with camera `1` selected and the given pending joystick
values. -/
def sampleJoystickWorld (axes : List ℚ) (buttons : List Int) : World :=
  { view := { _camera := 1, _guiCamera := 0, _joyAxes := axes, _joyButtons := buttons },
    cameras := [1, 2, 3],
    getAttribute := sampleAttributes }

/-- A tick of `processKeyEvents` with the view hovered, Shift held and the
right arrow (key 262) just pressed. -/
def sampleShiftRight : KeyInput :=
  { KeysDownDuration := fun k => if k = 262 then 0 else -1,
    KeyShift := true,
    IsItemHoveredRect := true }

/-- The sample scene with camera `1` selected, the view of width 800 and
height 600, and picking methods that hit the point `(1, 2, 3)` in the left
half of the view and nothing in the right half. -/
def samplePickWorld : World :=
  { view := { _camera := 1, _guiCamera := 0, _camWidth := 800, _camHeight := 600 },
    cameras := [1, 2, 3],
    getAttribute := sampleAttributes,
    pickCalibrationPoint := fun _ px _ =>
      if px < 1 / 2 then [Value.real 1, Value.real 2, Value.real 3] else [],
    pickVertexOrCalibrationPoint := fun _ px _ =>
      if px < 1 / 2 then [Value.real 1, Value.real 2, Value.real 3] else [] }

/-- A click of the left button on the hovered view at `(200, -150)` from the
cursor position, that is at `(1/4, 1/4)` of the sample view. -/
def sampleLeftClick (ctrl shift : Bool) : MouseInput :=
  { MousePos := (200, -150), MouseDown0 := true, MouseClicked0 := true,
    KeyCtrl := ctrl, KeyShift := shift, IsItemHoveredRect := true }

/-- A tick with the right button held since `duration`, the pointer over the
view or not, and a mouse movement of `(10, 20)`. -/
def sampleRightDrag (duration : ℚ) (hovered : Bool) (ctrl shift : Bool) : MouseInput :=
  { MouseDownDuration1 := duration, MouseDelta := (10, 20), KeyCtrl := ctrl, KeyShift := shift,
    IsItemHoveredRect := hovered, IsItemHovered := hovered }

/-- The sample scene with camera `1` selected and the view captured, the
stored distance being 3. -/
def sampleCapturedWorld : World :=
  { view := { _camera := 1, _guiCamera := 0, _newTargetDistance := 3, viewCaptured := true },
    cameras := [1, 2, 3],
    getAttribute := sampleAttributes }

/-- A tick that `processMouseEvents` does not end in its left-button block:
the left button is not down on the hovered view. -/
def MouseInput.ReachesCapture (io : MouseInput) : Prop :=
  ¬ (io.IsItemHoveredRect = true ∧ io.MouseDown0 = true)

instance (io : MouseInput) : Decidable io.ReachesCapture := by
  unfold MouseInput.ReachesCapture; infer_instance

/-! ### Shaders (`src/include/shaderSources.h`)

GLSL `float`s are rationals.  A matrix is given by its rows, so that
`mvp * v` is the usual product of a matrix and a column vector.  A division
by zero has no rational result: a non-zero number divided by zero is an
infinity and `0 / 0` is a NaN, and every comparison `<=` or `>=` with a NaN is
false.  A vector whose components are not finite is `none` in an `Option`;
the distances to the boundary, from which the geometry shader computes a
ratio, keep the infinities and the NaN apart (`XFloat`).  An `out` variable
that is not written is `none`, and what is read from it is a parameter. -/

structure Vec2 where
  x : ℚ
  y : ℚ
deriving DecidableEq, Repr

structure Vec3 where
  x : ℚ
  y : ℚ
  z : ℚ
deriving DecidableEq, Repr

structure Vec4 where
  x : ℚ
  y : ℚ
  z : ℚ
  w : ℚ
deriving DecidableEq, Repr

/-- A `mat4`, by rows. -/
structure Mat4 where
  r0 : Vec4
  r1 : Vec4
  r2 : Vec4
  r3 : Vec4
deriving DecidableEq, Repr

def Vec4.dot (a b : Vec4) : ℚ := a.x * b.x + a.y * b.y + a.z * b.z + a.w * b.w

/-- The product `m * v` of a matrix and a vector. -/
def Mat4.mulVec (m : Mat4) (v : Vec4) : Vec4 :=
  ⟨m.r0.dot v, m.r1.dot v, m.r2.dot v, m.r3.dot v⟩

/-- The swizzle `.xyz`. -/
def Vec4.xyz (v : Vec4) : Vec3 := ⟨v.x, v.y, v.z⟩

def Vec3.sub (a b : Vec3) : Vec3 := ⟨a.x - b.x, a.y - b.y, a.z - b.z⟩

/-- The GLSL `cross`. -/
def Vec3.cross (a b : Vec3) : Vec3 :=
  ⟨a.y * b.z - a.z * b.y, a.z * b.x - a.x * b.z, a.x * b.y - a.y * b.x⟩

/-- The identity matrix. -/
def Mat4.identity : Mat4 := ⟨⟨1, 0, 0, 0⟩, ⟨0, 1, 0, 0⟩, ⟨0, 0, 1, 0⟩, ⟨0, 0, 0, 1⟩⟩

/-- A float that may not be a finite number: a rational, `+∞`, `-∞` or a
NaN. -/
inductive XFloat where
  | fin (q : ℚ)
  | pinf
  | ninf
  | nan
deriving DecidableEq, Repr

/-- A `vec2` whose components may not be finite. -/
structure XVec2 where
  x : XFloat
  y : XFloat
deriving DecidableEq, Repr

/-- The GLSL `abs`. -/
def XFloat.abs : XFloat → XFloat
  | XFloat.fin q => XFloat.fin |q|
  | XFloat.pinf => XFloat.pinf
  | XFloat.ninf => XFloat.pinf
  | XFloat.nan => XFloat.nan

/-- The difference `a - b` of a float and a finite float. -/
def XFloat.sub : XFloat → ℚ → XFloat
  | XFloat.fin q, b => XFloat.fin (q - b)
  | XFloat.pinf, _ => XFloat.pinf
  | XFloat.ninf, _ => XFloat.ninf
  | XFloat.nan, _ => XFloat.nan

/-- The sum of two floats: `∞ + (-∞)` is a NaN. -/
def XFloat.add : XFloat → XFloat → XFloat
  | XFloat.fin a, XFloat.fin b => XFloat.fin (a + b)
  | XFloat.fin _, XFloat.pinf => XFloat.pinf
  | XFloat.fin _, XFloat.ninf => XFloat.ninf
  | XFloat.pinf, XFloat.fin _ => XFloat.pinf
  | XFloat.pinf, XFloat.pinf => XFloat.pinf
  | XFloat.ninf, XFloat.fin _ => XFloat.ninf
  | XFloat.ninf, XFloat.ninf => XFloat.ninf
  | XFloat.pinf, XFloat.ninf => XFloat.nan
  | XFloat.ninf, XFloat.pinf => XFloat.nan
  | XFloat.nan, _ => XFloat.nan
  | _, XFloat.nan => XFloat.nan

/-- The quotient of two floats: a non-zero number divided by zero is an
infinity, `0 / 0` and `∞ / ∞` are a NaN, a finite number divided by an
infinity is `0`. -/
def XFloat.div : XFloat → XFloat → XFloat
  | XFloat.fin a, XFloat.fin b =>
    if b = 0 then (if a = 0 then XFloat.nan else if a > 0 then XFloat.pinf else XFloat.ninf)
    else XFloat.fin (a / b)
  | XFloat.fin _, XFloat.pinf => XFloat.fin 0
  | XFloat.fin _, XFloat.ninf => XFloat.fin 0
  | XFloat.pinf, XFloat.fin b => if b ≥ 0 then XFloat.pinf else XFloat.ninf
  | XFloat.ninf, XFloat.fin b => if b ≥ 0 then XFloat.ninf else XFloat.pinf
  | XFloat.pinf, XFloat.pinf => XFloat.nan
  | XFloat.pinf, XFloat.ninf => XFloat.nan
  | XFloat.ninf, XFloat.pinf => XFloat.nan
  | XFloat.ninf, XFloat.ninf => XFloat.nan
  | XFloat.nan, _ => XFloat.nan
  | _, XFloat.nan => XFloat.nan

/-- The include `normalVector`: `normalize(cross(v - u, w - u))`.  The length
by which `normalize` divides is not a rational function: it is the parameter
`norm`.  The length of the zero vector is zero and the division is then
`0 / 0`: the normal is a NaN, which is `none`, as it is whenever the length is
zero. -/
def normalVector (norm : Vec3 → ℚ) (u v w : Vec3) : Option Vec3 :=
  let c := (v.sub u).cross (w.sub u)
  if c = ⟨0, 0, 0⟩ ∨ norm c = 0 then none
  else some ⟨c.x / norm c, c.y / norm c, c.z / norm c⟩

/-- What a length is for the tests of the shaders: zero on the zero vector
and positive on every other vector. -/
def IsLength (norm : Vec3 → ℚ) : Prop :=
  norm ⟨0, 0, 0⟩ = 0 ∧ ∀ v : Vec3, v ≠ ⟨0, 0, 0⟩ → 0 < norm v

/-- The call `normalVector(a.xyz, b.xyz, c.xyz)` on projected vertices.  When
the components of one of them are not finite, those of the differences, of
the cross product and its length are not finite either, and the quotient is a
NaN. -/
def normalOfProjected (norm : Vec3 → ℚ) (a b c : Option Vec4) : Option Vec3 :=
  match a, b, c with
  | some a, some b, some c => normalVector norm a.xyz b.xyz c.xyz
  | _, _, _ => none

/-- The comparison `n.z <= 0.0`, false when the normal is a NaN. -/
def zNonpos : Option Vec3 → Bool
  | some n => decide (n.z ≤ 0)
  | none => false

/-- What `projectAndCheckVisibility` returns and writes: the result; the new
value of the `inout` parameter `p`, `none` when its components are not finite;
and the `out` parameter `dist`, `none` when the function does not write it. -/
structure Projection where
  visible : Bool
  p : Option Vec4
  dist : Option XVec2
deriving DecidableEq, Repr

/-- The include `projectAndCheckVisibility`.  When `projected.w` is zero,
`projected /= projected.w` makes every component an infinity or a NaN:
`projected.z >= 0.0` holds when `projected.z` is `+∞`, that is when it was
positive before the division; `dist` is then written with the absolute values
of `projected.xy`, `isVisible.z` is false since `+∞ <= 1.0 + margin` is, and
the function returns false.  Otherwise `projected.z` is `-∞` or a NaN, and the
function returns false without writing `dist`.  The zero of the rationals is
the float `+0`. -/
def projectAndCheckVisibility (p : Vec4) (mvp : Mat4) (margin : ℚ) : Projection :=
  let q := mvp.mulVec ⟨p.x, p.y, p.z, 1⟩
  if q.w = 0 then
    if q.z > 0 then
      { visible := false,
        p := none,
        dist := some ⟨if q.x = 0 then XFloat.nan else XFloat.pinf,
          if q.y = 0 then XFloat.nan else XFloat.pinf⟩ }
    else
      { visible := false, p := none, dist := none }
  else
    let projected : Vec4 := ⟨q.x / q.w, q.y / q.w, q.z / q.w, q.w / q.w⟩
    if projected.z ≥ 0 then
      { visible := decide (|projected.x| ≤ 1 + margin) && decide (|projected.y| ≤ 1 + margin)
          && decide (|projected.z| ≤ 1 + margin),
        p := some projected,
        dist := some ⟨XFloat.fin |projected.x|, XFloat.fin |projected.y|⟩ }
    else
      { visible := false, p := some projected, dist := none }

/-- One dispatch of a compute shader with `groups` work groups of
`32 * 32` invocations: `main` is run for every `globalID` below
`groups * 32 * 32`.  The invocations of the shaders below write disjoint
entries, so running them one after the other is what the parallel run
gives. -/
def dispatch (groups : Nat) (main : Nat → (Nat → Vec4) → (Nat → Vec4))
    (annexe : Nat → Vec4) : Nat → Vec4 :=
  (List.range (groups * 32 * 32)).foldl (fun a globalID => main globalID a) annexe

/-- The `main` of `COMPUTE_SHADER_RESET_VISIBILITY` for one invocation. -/
def resetVisibility (_vertexNbr : Nat) (globalID : Nat) (annexe : Nat → Vec4) : Nat → Vec4 :=
  if globalID < _vertexNbr / 3 then
    (List.range 3).foldl
      (fun a idx => Function.update a (globalID * 3 + idx) ⟨0, 0, 0, 0⟩) annexe
  else annexe

/-- The value of `vertexVisible[idx]` in `COMPUTE_SHADER_COMPUTE_VISIBILITY`. -/
def vertexVisible (_mvp : Mat4) (vertex : Nat → Vec4) (globalID idx : Nat) : Bool :=
  (projectAndCheckVisibility (vertex (globalID * 3 + idx)) _mvp (5 / 1000)).visible

/-- The value of `screenVertex[idx]` in `COMPUTE_SHADER_COMPUTE_VISIBILITY`. -/
def screenVertex (_mvp : Mat4) (vertex : Nat → Vec4) (globalID idx : Nat) : Option Vec4 :=
  (projectAndCheckVisibility (vertex (globalID * 3 + idx)) _mvp (5 / 1000)).p

/-- The value of `allVerticesVisible` after the first loop. -/
def allVerticesVisible (_mvp : Mat4) (vertex : Nat → Vec4) (globalID : Nat) : Bool :=
  (List.range 3).foldl (fun all idx => if vertexVisible _mvp vertex globalID idx then all else false)
    true

/-- The value of `projectedNormal` in `COMPUTE_SHADER_COMPUTE_VISIBILITY`. -/
def projectedNormal (norm : Vec3 → ℚ) (_mvp : Mat4) (vertex : Nat → Vec4) (globalID : Nat) :
    Option Vec3 :=
  normalOfProjected norm (screenVertex _mvp vertex globalID 0)
    (screenVertex _mvp vertex globalID 1) (screenVertex _mvp vertex globalID 2)

/-- The `main` of `COMPUTE_SHADER_COMPUTE_VISIBILITY` for one invocation. -/
def computeVisibility (norm : Vec3 → ℚ) (_mvp : Mat4) (_vertexNbr : Nat) (vertex : Nat → Vec4)
    (globalID : Nat) (annexe : Nat → Vec4) : Nat → Vec4 :=
  if globalID < _vertexNbr / 3 then
    if allVerticesVisible _mvp vertex globalID = true
        ∧ zNonpos (projectedNormal norm _mvp vertex globalID) = true then
      (List.range 3).foldl
        (fun a idx =>
          let vertexId := globalID * 3 + idx
          let a1 := Function.update a vertexId { a vertexId with x := (a vertexId).x + 1 }
          if vertexVisible _mvp vertex globalID idx = false then
            Function.update a1 vertexId { a1 vertexId with y := (a1 vertexId).y + 1 }
          else a1) annexe
    else annexe
  else annexe

/-- The reset pass over the accumulator. -/
def resetPass (groups _vertexNbr : Nat) (annexe : Nat → Vec4) : Nat → Vec4 :=
  dispatch groups (resetVisibility _vertexNbr) annexe

/-- The visibility pass of one camera over the accumulator. -/
def cameraPass (norm : Vec3 → ℚ) (groups _vertexNbr : Nat) (vertex : Nat → Vec4) (_mvp : Mat4)
    (annexe : Nat → Vec4) : Nat → Vec4 :=
  dispatch groups (computeVisibility norm _mvp _vertexNbr vertex) annexe

/-- The passes of the cameras `mvps`, in order. -/
def cameraPasses (norm : Vec3 → ℚ) (groups _vertexNbr : Nat) (vertex : Nat → Vec4)
    (mvps : List Mat4) (annexe : Nat → Vec4) : Nat → Vec4 :=
  mvps.foldl (fun a mvp => cameraPass norm groups _vertexNbr vertex mvp a) annexe

/-- A full pass: the reset, then the passes of the cameras. -/
def fullPass (norm : Vec3 → ℚ) (groups _vertexNbr : Nat) (vertex : Nat → Vec4)
    (mvps : List Mat4) (annexe : Nat → Vec4) : Nat → Vec4 :=
  cameraPasses norm groups _vertexNbr vertex mvps (resetPass groups _vertexNbr annexe)

/-- Whether the triangle of index `t` is counted for the camera `mvp`: its
three vertices are visible under the margin `0.005` and the normal of the
projected triangle has `z ≤ 0`. -/
def triangleCounted (norm : Vec3 → ℚ) (vertex : Nat → Vec4) (t : Nat) (mvp : Mat4) : Bool :=
  vertexVisible mvp vertex t 0 && vertexVisible mvp vertex t 1 && vertexVisible mvp vertex t 2
    && zNonpos (projectedNormal norm mvp vertex t)

/-- One vertex of the interface blocks `geom_in` and `geom_out`. -/
structure GeomVertex where
  vertex : Vec4
  texcoord : Vec2
  normal : Vec4
  annexe : Vec4
deriving DecidableEq, Repr

/-- One slot of the arrays `vertices`, `texcoords` and `normals` of the
geometry shader, taken together. -/
structure CutPoint where
  vertex : Vec4
  texcoord : Vec2
  normal : Vec4
deriving DecidableEq, Repr

/-- The constant `cutTable` of `GEOMETRY_SHADER_FEEDBACK_DEFAULT`. -/
def cutTable : List Nat :=
  [0, 3, 4, 3, 1, 4, 1, 2, 4,
   0, 3, 4, 3, 1, 4, 4, 2, 0,
   0, 1, 3, 3, 4, 0, 3, 2, 4,
   0, 1, 3, 3, 4, 0, 3, 2, 4,
   0, 3, 4, 3, 1, 4, 4, 2, 0,
   0, 3, 4, 3, 1, 4, 1, 2, 4]

/-- The GLSL `sign`. -/
def sign (x : ℚ) : ℚ := if x > 0 then 1 else if x < 0 then -1 else 0

/-- The GLSL `sign` on a float that may not be finite; it is not specified on
a NaN. -/
def XFloat.sign : XFloat → Option ℚ
  | XFloat.fin q => some (Splash.sign q)
  | XFloat.pinf => some 1
  | XFloat.ninf => some (-1)
  | XFloat.nan => none

/-- The GLSL `mix(a, b, r)` on floats. -/
def mix (a b r : ℚ) : ℚ := a * (1 - r) + b * r

def Vec2.mix (a b : Vec2) (r : ℚ) : Vec2 := ⟨Splash.mix a.x b.x r, Splash.mix a.y b.y r⟩

def Vec4.mix (a b : Vec4) (r : ℚ) : Vec4 :=
  ⟨Splash.mix a.x b.x r, Splash.mix a.y b.y r, Splash.mix a.z b.z r, Splash.mix a.w b.w r⟩

/-- The three `mix` of the geometry shader, on position, texture coordinates
and normal. -/
def CutPoint.mix (a b : CutPoint) (r : ℚ) : CutPoint :=
  ⟨a.vertex.mix b.vertex r, a.texcoord.mix b.texcoord r, a.normal.mix b.normal r⟩

/-- The value of `side[i]` in the geometry shader. -/
def side (_mvp : Mat4) (geom_in : Nat → GeomVertex) (i : Nat) : Bool :=
  (projectAndCheckVisibility (geom_in i).vertex _mvp (0 + 1 / 1000)).visible

/-- The value of `distToBoundary[i]`: `dist - vec2(1.0)`, where `dist` is the
value written by `projectAndCheckVisibility` and, when it writes none, the
indeterminate value `undef i` of the local variable. -/
def distToBoundary (undef : Nat → XVec2) (_mvp : Mat4) (geom_in : Nat → GeomVertex) (i : Nat) :
    XVec2 :=
  let dist := ((projectAndCheckVisibility (geom_in i).vertex _mvp (0 + 1 / 1000)).dist).getD
    (undef i)
  ⟨dist.x.sub 1, dist.y.sub 1⟩

/-- The value of `verticesInside` after the first loop. -/
def verticesInside (_mvp : Mat4) (geom_in : Nat → GeomVertex) : Nat :=
  (List.range 3).foldl (fun n i => if side _mvp geom_in i then n + 1 else n) 0

/-- The value of `cutCase` after `cutCase -= 1`. -/
def cutCase (_mvp : Mat4) (geom_in : Nat → GeomVertex) : Int :=
  (List.range 3).foldl (fun c i => if side _mvp geom_in i then c + 2 ^ i else c) (0 : Int) - 1

/-- The value of `ratio` for the edge from `i` to `nextId`; it is a NaN when
the test of the signs is on a NaN. -/
def crossingRatio (undef : Nat → XVec2) (_mvp : Mat4) (geom_in : Nat → GeomVertex)
    (i nextId : Nat) : XFloat :=
  let di := distToBoundary undef _mvp geom_in i
  let dn := distToBoundary undef _mvp geom_in nextId
  match di.x.sign, dn.x.sign with
  | some si, some sn =>
    if si ≠ sn then di.x.abs.div (di.x.abs.add dn.x.abs)
    else di.y.abs.div (di.y.abs.add dn.y.abs)
  | _, _ => XFloat.nan

/-- The slot `i` of the arrays as filled from `geom_in`. -/
def inputPoint (geom_in : Nat → GeomVertex) (i : Nat) : CutPoint :=
  ⟨(geom_in i).vertex, (geom_in i).texcoord, (geom_in i).normal⟩

/-- The point written in slot `nextVertex` for the edge from `i` to its
successor: the `mix` of the two ends at `ratio`, which is `none`, not a point
of finite coordinates, when the ratio is not a finite number. -/
def newPoint (undef : Nat → XVec2) (_mvp : Mat4) (geom_in : Nat → GeomVertex) (i : Nat) :
    Option CutPoint :=
  match crossingRatio undef _mvp geom_in i ((i + 1) % 3) with
  | XFloat.fin ratio => some ((inputPoint geom_in i).mix (inputPoint geom_in ((i + 1) % 3)) ratio)
  | _ => none

/-- The written slots of the arrays `vertices`, `texcoords`, `normals` after
the loop that creates the additional points: the three inputs, then one
point per edge whose ends are on opposite sides. -/
def cutVertices (undef : Nat → XVec2) (_mvp : Mat4) (geom_in : Nat → GeomVertex) :
    List (Option CutPoint) :=
  (List.range 3).foldl
    (fun vertices i =>
      if side _mvp geom_in i ≠ side _mvp geom_in ((i + 1) % 3) then
        vertices ++ [newPoint undef _mvp geom_in i]
      else vertices)
    [some (inputPoint geom_in 0), some (inputPoint geom_in 1), some (inputPoint geom_in 2)]

/-- The value of `currentIndex` for the vertex `v` of the sub-triangle `t`. -/
def currentIndex (_mvp : Mat4) (geom_in : Nat → GeomVertex) (t v : Nat) : Nat :=
  cutTable.getD (cutCase _mvp geom_in * 9 + t * 3 + v).toNat 0

/-- The callback of `"joystick_0_buttons"` set by `captureJoystick`. -/
def joystickButtonsCallback (value : List Int) (w : World) : World :=
  { w with view := { w.view with _joyButtons := value } }

/-- The callback of `"joystick_0_axes"` set by `captureJoystick`: the pending
axes are resized to the size of `value`, new entries being `0`, and `value`
is added to them. -/
def joystickAxesCallback (value : List ℚ) (w : World) : World :=
  { w with view := { w.view with
      _joyAxes := (List.range value.length).map
        (fun i => w.view._joyAxes.getD i 0 + value.getD i 0) } }

/-- The indices `i` of the reads `_joyButtonsPrevious[i]` made by the block
`if (_joyButtons.size() >= 4)` of `processJoystickState`: the second operand
of each `&&` is evaluated when the first holds, and a test is evaluated when
those before it failed. -/
def previousReads4 (w : World) : List Nat :=
  if w.view._joyButtons.length ≥ 4 then
    (if buttonAt w.view._joyButtons 0 = 1 then [0] else [])
      ++ (if buttonEdge w 0 then []
          else (if buttonAt w.view._joyButtons 1 = 1 then [1] else [])
            ++ (if buttonEdge w 1 then []
                else if buttonAt w.view._joyButtons 2 = 1 then []
                else if buttonAt w.view._joyButtons 3 = 1 then [3] else []))
  else []

/-- The indices of the reads `_joyButtonsPrevious[i]` made by the block
`if (_joyButtons.size() >= 6)` of `processJoystickState`. -/
def previousReads6 (w : World) : List Nat :=
  if w.view._joyButtons.length ≥ 6 then
    (if buttonAt w.view._joyButtons 4 = 1 then [4] else [])
      ++ (if buttonEdge w 4 then []
          else if buttonAt w.view._joyButtons 5 = 1 then [5] else [])
  else []

/-- The indices of all the reads `_joyButtonsPrevious[i]` made by
`processJoystickState` in the state `w`. -/
def previousReads (x : Externals) (w : World) : List Nat :=
  previousReads4 w ++ previousReads6 (joystickButtons4 x w)

/-- An event of the joystick loop: a callback with its values, or a tick of
`processJoystickState`. -/
inductive JoystickEvent where
  | buttons (value : List Int)
  | axes (value : List ℚ)
  | tick
deriving DecidableEq, Repr

/-- Run one event of the joystick loop. -/
def runJoystickEvent (x : Externals) : JoystickEvent → World → World
  | JoystickEvent.buttons value, w => joystickButtonsCallback value w
  | JoystickEvent.axes value, w => joystickAxesCallback value w
  | JoystickEvent.tick, w => processJoystickState x w

/-- Run a sequence of events of the joystick loop. -/
def runJoystickEvents (x : Externals) (events : List JoystickEvent) (w : World) : World :=
  events.foldl (fun acc e => runJoystickEvent x e acc) w

/-- A triangle in the plane `z = 1/2` whose second vertex is outside the
frustum of the identity camera (`x = 2`) and whose projected normal has
`z < 0`. -/
def sampleTriangle : Nat → GeomVertex := fun i =>
  { vertex := if i = 0 then ⟨0, 0, 1 / 2, 1⟩ else if i = 1 then ⟨2, 0, 1 / 2, 1⟩
      else ⟨0, -1 / 2, 1 / 2, 1⟩,
    texcoord := ⟨0, 0⟩,
    normal := ⟨0, 0, 1, 0⟩,
    annexe := ⟨1, 0, 0, 0⟩ }

/-- The Euclidean length of a vector, for the vectors whose length is
rational. -/
def sampleNorm (v : Vec3) : ℚ := Rat.sqrt (v.x * v.x + v.y * v.y + v.z * v.z)

/-- A vertex buffer whose first triangle, `(0, 0, 1/2)`, `(1/2, 0, 1/2)`,
`(0, -1/2, 1/2)`, is inside the frustum of the identity camera, its projected
normal having `z < 0`; the other vertices are at `(5, 5, 5)`, outside. -/
def sampleMesh : Nat → Vec4 := fun i =>
  if i = 0 then ⟨0, 0, 1 / 2, 1⟩
  else if i = 1 then ⟨1 / 2, 0, 1 / 2, 1⟩
  else if i = 2 then ⟨0, -1 / 2, 1 / 2, 1⟩
  else ⟨5, 5, 5, 1⟩

/-- The camera that looks at the scene scaled by `1/2`. -/
def sampleHalfCamera : Mat4 := ⟨⟨1 / 2, 0, 0, 0⟩, ⟨0, 1 / 2, 0, 0⟩, ⟨0, 0, 1 / 2, 0⟩, ⟨0, 0, 0, 1⟩⟩

/-! ## Calibration history -/

theorem Values.three_of_length {v : Values} (h : v.length = 3) :
    [v.nth 0, v.nth 1, v.nth 2] = v := by
  match v, h with
  | [_, _, _], _ => rfl

theorem Values.two_of_length {v : Values} (h : v.length = 2) :
    [v.nth 0, v.nth 1] = v := by
  match v, h with
  | [_, _], _ => rfl

theorem Values.one_of_length {v : Values} (h : v.length = 1) :
    [v.nth 0] = v := by
  match v, h with
  | [_], _ => rfl

/-- What `revertCalibration` does on a history ending in `p`. -/
theorem revertCalibration_concat (w : World) (hist : List CameraParameters)
    (p : CameraParameters) (h : w.view._previousCameraParameters = hist ++ [p]) :
    revertCalibration w =
      { w with
        view := { w.view with
          _previousCameraParameters := if hist = [] then [p] else hist },
        sent := w.sent ++
          [Call.setObject w.view._camera "eye" [p.eye.nth 0, p.eye.nth 1, p.eye.nth 2],
           Call.setObject w.view._camera "target" [p.target.nth 0, p.target.nth 1, p.target.nth 2],
           Call.setObject w.view._camera "up" [p.up.nth 0, p.up.nth 1, p.up.nth 2],
           Call.setObject w.view._camera "fov" [p.fov.nth 0],
           Call.setObject w.view._camera "principalPoint"
             [p.principalPoint.nth 0, p.principalPoint.nth 1]] } := by
  unfold revertCalibration
  rw [h, List.getLast?_concat]
  cases hist with
  | nil =>
    have h1 : [p] = w.view._previousCameraParameters := by simp [h]
    simp [setObject, World.emit]
    rw [h1]
  | cons a t =>
    have h2 : (a :: (t ++ [p])).dropLast = a :: t := by
      rw [← List.cons_append, List.dropLast_concat]
    simp [setObject, World.emit, h2]

theorem doCalibration_view (solve : (String → Values) → (String → Values)) (w : World) :
    (doCalibration solve w).view =
      { w.view with
        _previousCameraParameters := w.view._previousCameraParameters ++ [currentParameters w] } := by
  simp [doCalibration, propagateCalibration, setObject, World.emit]

/-- The view after `revertCalibration` on a history `oldest :: later`. -/
theorem revertCalibration_cons (w : World) (oldest : CameraParameters)
    (later : List CameraParameters) (h : w.view._previousCameraParameters = oldest :: later) :
    (revertCalibration w).view =
      { w.view with _previousCameraParameters := oldest :: later.dropLast } := by
  rcases List.eq_nil_or_concat (oldest :: later) with hnil | ⟨L, b, hL⟩
  · exact absurd hnil (List.cons_ne_nil _ _)
  · rw [List.concat_eq_append] at hL
    rw [revertCalibration_concat w L b (h.trans hL)]
    cases L with
    | nil =>
      simp at hL
      obtain ⟨h1, h2⟩ := hL
      subst h1 h2
      simp
    | cons a L' =>
      simp at hL
      obtain ⟨h1, h2⟩ := hL
      subst h1 h2
      simp

theorem revertCalibration_camera (w : World) :
    (revertCalibration w).view._camera = w.view._camera := by
  rcases List.eq_nil_or_concat w.view._previousCameraParameters with hnil | ⟨L, b, hL⟩
  · simp [revertCalibration, hnil]
  · rw [List.concat_eq_append] at hL
    rw [revertCalibration_concat w L b hL]

theorem revertCalibration_iterate_camera (n : Nat) (w : World) :
    (revertCalibration^[n] w).view._camera = w.view._camera := by
  induction n generalizing w with
  | zero => rfl
  | succ n ih => rw [Function.iterate_succ_apply, ih, revertCalibration_camera]

/-- After at least `later.length` reverts only the oldest snapshot is left. -/
theorem revertCalibration_iterate_history (later : List CameraParameters) :
    ∀ (w : World) (oldest : CameraParameters) (k : Nat),
      w.view._previousCameraParameters = oldest :: later →
      (revertCalibration^[later.length + k] w).view._previousCameraParameters = [oldest] := by
  induction later using List.reverseRecOn with
  | nil =>
    intro w oldest k h
    induction k generalizing w with
    | zero => simpa using h
    | succ k ih =>
      have hk : ([] : List CameraParameters).length + (k + 1)
          = (([] : List CameraParameters).length + k) + 1 := rfl
      rw [hk, Function.iterate_succ_apply]
      apply ih
      rw [revertCalibration_cons w oldest [] h]
      simp
  | append_singleton L b ih =>
    intro w oldest k h
    have hlen : (L ++ [b]).length + k = (L.length + k) + 1 := by simp; omega
    rw [hlen, Function.iterate_succ_apply]
    apply ih
    rw [revertCalibration_cons w oldest (L ++ [b]) h]
    simp

theorem runCalibrationActions_camera (solve : (String → Values) → (String → Values))
    (actions : List CalibrationAction) (w : World) :
    (runCalibrationActions solve actions w).view._camera = w.view._camera := by
  induction actions generalizing w with
  | nil => rfl
  | cons a rest ih =>
    cases a with
    | calibrate => simp [runCalibrationActions, ih, doCalibration_view]
    | revert => simp [runCalibrationActions, ih, revertCalibration_camera]

/-- C1: for every history that holds at least one snapshot and every finite
sequence of `doCalibration` and `revertCalibration` calls (which never change
the selected camera), the history is still non-empty afterwards and its
entry of index 0 is the same snapshot as before, whatever the solve does. -/
theorem calibrationHistory_keeps_oldest (solve : (String → Values) → (String → Values))
    (actions : List CalibrationAction) (w : World) (oldest : CameraParameters)
    (later : List CameraParameters)
    (h : w.view._previousCameraParameters = oldest :: later) :
    (runCalibrationActions solve actions w).view._previousCameraParameters ≠ []
      ∧ (runCalibrationActions solve actions w).view._previousCameraParameters.head?
          = some oldest
      ∧ (runCalibrationActions solve actions w).view._camera = w.view._camera := by
  suffices hs : ∃ later', (runCalibrationActions solve actions w).view._previousCameraParameters
      = oldest :: later' by
    obtain ⟨later', hl⟩ := hs
    exact ⟨by simp [hl], by simp [hl], runCalibrationActions_camera solve actions w⟩
  induction actions generalizing w later with
  | nil => exact ⟨later, h⟩
  | cons a rest ih =>
    cases a with
    | calibrate =>
      apply ih (doCalibration solve w) (later ++ [currentParameters w])
      rw [doCalibration_view]
      simp [h]
    | revert =>
      apply ih (revertCalibration w) later.dropLast
      rw [revertCalibration_cons w oldest later h]

/-- Instance of C1: two snapshots, then three reverts and one calibration. -/
theorem calibrationHistory_keeps_oldest_witness :
    (sampleWorld 1 [samplePose 30, samplePose 40]).view._previousCameraParameters
        = samplePose 30 :: [samplePose 40]
      ∧ (runCalibrationActions id
          [CalibrationAction.revert, CalibrationAction.revert, CalibrationAction.revert,
           CalibrationAction.calibrate]
          (sampleWorld 1 [samplePose 30, samplePose 40])).view._previousCameraParameters ≠ []
      ∧ (runCalibrationActions id
          [CalibrationAction.revert, CalibrationAction.revert, CalibrationAction.revert,
           CalibrationAction.calibrate]
          (sampleWorld 1 [samplePose 30, samplePose 40])).view._previousCameraParameters.head?
          = some (samplePose 30)
      ∧ (runCalibrationActions id
          [CalibrationAction.revert, CalibrationAction.revert, CalibrationAction.revert,
           CalibrationAction.calibrate]
          (sampleWorld 1 [samplePose 30, samplePose 40])).view._camera
          = (sampleWorld 1 [samplePose 30, samplePose 40]).view._camera :=
  ⟨rfl, calibrationHistory_keeps_oldest id _ _ (samplePose 30) [samplePose 40] rfl⟩

/-- C2: on a history ending in the snapshot `p` (with the arities of the
data model), `revertCalibration` sends the selected camera exactly five
commands, `eye`, `target`, `up`, `fov` and `principalPoint` in that order,
carrying the values of `p`; the history loses its last entry when it had more
than one and is unchanged when it had exactly one; nothing else changes. -/
theorem revertCalibration_spec (w : World) (hist : List CameraParameters)
    (p : CameraParameters) (h : w.view._previousCameraParameters = hist ++ [p])
    (hp : p.WellFormed) :
    (revertCalibration w).sent = w.sent ++
        [Call.setObject w.view._camera "eye" p.eye,
         Call.setObject w.view._camera "target" p.target,
         Call.setObject w.view._camera "up" p.up,
         Call.setObject w.view._camera "fov" p.fov,
         Call.setObject w.view._camera "principalPoint" p.principalPoint]
      ∧ (hist ≠ [] → (revertCalibration w).view._previousCameraParameters = hist)
      ∧ (hist = [] → (revertCalibration w).view._previousCameraParameters
            = w.view._previousCameraParameters)
      ∧ (revertCalibration w).view
          = { w.view with
              _previousCameraParameters := (revertCalibration w).view._previousCameraParameters }
      ∧ (revertCalibration w).getAttribute = w.getAttribute
      ∧ (revertCalibration w).cameras = w.cameras := by
  obtain ⟨h1, h2, h3, h4, h5⟩ := hp
  rw [revertCalibration_concat w hist p h, Values.three_of_length h1,
    Values.three_of_length h2, Values.three_of_length h3, Values.one_of_length h4,
    Values.two_of_length h5]
  refine ⟨rfl, ?_, ?_, rfl, rfl, rfl⟩
  · intro hne; simp [hne]
  · intro he; simp [he, h]

/-- Instance of C2: a history of two snapshots, camera `1` selected. -/
theorem revertCalibration_spec_witness :
    (revertCalibration (sampleWorld 1 [samplePose 30, samplePose 40])).sent =
        [Call.setObject 1 "eye" (samplePose 40).eye,
         Call.setObject 1 "target" (samplePose 40).target,
         Call.setObject 1 "up" (samplePose 40).up,
         Call.setObject 1 "fov" (samplePose 40).fov,
         Call.setObject 1 "principalPoint" (samplePose 40).principalPoint]
      ∧ (revertCalibration (sampleWorld 1 [samplePose 30, samplePose 40])).view._previousCameraParameters
          = [samplePose 30] :=
  have key := revertCalibration_spec (sampleWorld 1 [samplePose 30, samplePose 40])
    [samplePose 30] (samplePose 40) rfl (by decide)
  ⟨key.1, key.2.1 (by simp)⟩

/-- C3: on a history `oldest :: later` of `n = later.length + 1` snapshots,
after `n - 1` reverts and any number `k` of further ones the history is
`[oldest]`, and the next `revertCalibration` leaves the widget unchanged and
sends the selected camera the pose of `oldest` (five commands), the same at
every repetition. -/
theorem revertCalibration_idempotent_at_oldest (w : World) (oldest : CameraParameters)
    (later : List CameraParameters) (h : w.view._previousCameraParameters = oldest :: later)
    (hp : oldest.WellFormed) (k : Nat) :
    (revertCalibration^[later.length + k] w).view._previousCameraParameters = [oldest]
      ∧ (revertCalibration (revertCalibration^[later.length + k] w)).view
          = (revertCalibration^[later.length + k] w).view
      ∧ (revertCalibration (revertCalibration^[later.length + k] w)).sent
          = (revertCalibration^[later.length + k] w).sent ++
            [Call.setObject w.view._camera "eye" oldest.eye,
             Call.setObject w.view._camera "target" oldest.target,
             Call.setObject w.view._camera "up" oldest.up,
             Call.setObject w.view._camera "fov" oldest.fov,
             Call.setObject w.view._camera "principalPoint" oldest.principalPoint] := by
  have hh := revertCalibration_iterate_history later w oldest k h
  have hc := revertCalibration_iterate_camera (later.length + k) w
  obtain ⟨h1, h2, h3, h4, h5⟩ := hp
  have hs := revertCalibration_concat (revertCalibration^[later.length + k] w) [] oldest
    (by simpa using hh)
  rw [Values.three_of_length h1, Values.three_of_length h2, Values.three_of_length h3,
    Values.one_of_length h4, Values.two_of_length h5] at hs
  refine ⟨hh, ?_, ?_⟩
  · rw [hs]
    simp [← hh]
  · rw [hs, hc]

/-- Instance of C3: three snapshots, two reverts, then two more. -/
theorem revertCalibration_idempotent_at_oldest_witness :
    (revertCalibration^[4]
        (sampleWorld 2 [samplePose 30, samplePose 40, samplePose 50])).view._previousCameraParameters
        = [samplePose 30]
      ∧ (revertCalibration (revertCalibration^[4]
          (sampleWorld 2 [samplePose 30, samplePose 40, samplePose 50]))).view
          = (revertCalibration^[4]
              (sampleWorld 2 [samplePose 30, samplePose 40, samplePose 50])).view
      ∧ (revertCalibration (revertCalibration^[4]
          (sampleWorld 2 [samplePose 30, samplePose 40, samplePose 50]))).sent
          = (revertCalibration^[4]
              (sampleWorld 2 [samplePose 30, samplePose 40, samplePose 50])).sent ++
            [Call.setObject 2 "eye" (samplePose 30).eye,
             Call.setObject 2 "target" (samplePose 30).target,
             Call.setObject 2 "up" (samplePose 30).up,
             Call.setObject 2 "fov" (samplePose 30).fov,
             Call.setObject 2 "principalPoint" (samplePose 30).principalPoint] :=
  revertCalibration_idempotent_at_oldest
    (sampleWorld 2 [samplePose 30, samplePose 40, samplePose 50]) (samplePose 30)
    [samplePose 40, samplePose 50] rfl (by decide) 2

/-- C4: on an empty history `revertCalibration` returns the world it was
given: no call is recorded and the history, the selection, the flags and
every other member are unchanged. -/
theorem revertCalibration_empty (w : World) (h : w.view._previousCameraParameters = []) :
    revertCalibration w = w := by
  simp [revertCalibration, h]

/-- Instance of C4: the sample scene with an empty history. -/
theorem revertCalibration_empty_witness :
    (sampleWorld 1 []).view._previousCameraParameters = []
      ∧ revertCalibration (sampleWorld 1 []) = sampleWorld 1 [] :=
  ⟨rfl, revertCalibration_empty (sampleWorld 1 []) rfl⟩

/-- C5: whatever the solve does to the camera, `doCalibration` leaves the
history equal to the old history followed by one snapshot, made of the five
attributes `eye`, `target`, `up`, `fov`, `principalPoint` (and nothing else)
that the selected camera had when the call started, before the solve. -/
theorem doCalibration_appends_snapshot (solve : (String → Values) → (String → Values))
    (w : World) :
    (doCalibration solve w).view._previousCameraParameters =
      w.view._previousCameraParameters ++
        [{ eye := w.getAttribute w.view._camera "eye",
           target := w.getAttribute w.view._camera "target",
           up := w.getAttribute w.view._camera "up",
           fov := w.getAttribute w.view._camera "fov",
           principalPoint := w.getAttribute w.view._camera "principalPoint" }] := by
  rw [doCalibration_view]
  rfl

/-! ## Field of view under the mouse wheel -/

theorem stdMax_stdMin_eq (x : ℚ) : stdMax 2 (stdMin 180 x) = max 2 (min 180 x) := by
  unfold stdMax stdMin
  split_ifs <;> simp [max_def, min_def] <;> split_ifs <;> linarith

theorem clamp_bounds (x : ℚ) : 2 ≤ max 2 (min 180 x) ∧ max 2 (min 180 x) ≤ 180 := by
  refine ⟨le_max_left _ _, max_le (by norm_num) (min_le_left _ _)⟩

/-- The call by which the wheel handler writes the field of view `q` of the
selected camera: a message for a registered camera, a direct call for the
overview camera. -/
theorem mouseWheel_eq (io : MouseInput) (w : World) (h : io.MouseWheel ≠ 0) :
    mouseWheel io w = w.emit
      (if w.view._camera ≠ w.view._guiCamera then
        Call.setObject w.view._camera "fov"
          [Value.real (max 2 (min 180
            (((w.getAttribute w.view._camera "fov").nth 0).asFloat + io.MouseWheel)))]
      else
        Call.setAttribute w.view._camera "fov"
          [Value.real (max 2 (min 180
            (((w.getAttribute w.view._camera "fov").nth 0).asFloat + io.MouseWheel)))]) := by
  unfold mouseWheel
  simp only [h, ne_eq, not_false_eq_true, if_true, stdMax_stdMin_eq, setObject]
  split_ifs <;> rfl

theorem mouseCapture_sent (io : MouseInput) (w : World) :
    (mouseCapture io w).sent = w.sent ∧ (mouseCapture io w).getAttribute = w.getAttribute
      ∧ (mouseCapture io w).view._camera = w.view._camera
      ∧ (mouseCapture io w).view._guiCamera = w.view._guiCamera := by
  unfold mouseCapture
  split_ifs <;> simp

theorem mouseRightClick_sent (io : MouseInput) (w : World) :
    (mouseRightClick io w).sent = w.sent ∧ (mouseRightClick io w).getAttribute = w.getAttribute
      ∧ (mouseRightClick io w).view._camera = w.view._camera
      ∧ (mouseRightClick io w).view._guiCamera = w.view._guiCamera := by
  unfold mouseRightClick
  split_ifs <;> simp

/-- The view controls record at most two calls, none of them on `fov`. -/
theorem mouseViewControls_sent (io : MouseInput) (w : World) :
    ∃ extra : List Call, (mouseViewControls io w).sent = w.sent ++ extra
      ∧ (∀ c ∈ extra, c.attr ≠ "fov")
      ∧ (mouseViewControls io w).getAttribute = w.getAttribute
      ∧ (mouseViewControls io w).view._camera = w.view._camera := by
  unfold mouseViewControls
  simp only [setObject, World.emit]
  split_ifs
  all_goals first
    | exact ⟨[], (List.append_nil _).symm, fun c hc => absurd hc (List.not_mem_nil c), rfl, rfl⟩
    | (refine ⟨_, List.append_assoc _ _ _, ?_, rfl, rfl⟩; simp [Call.attr])
    | (refine ⟨_, rfl, ?_, rfl, rfl⟩; simp [Call.attr])

theorem deliver_other (c : Call) (g : CameraPtr → String → Values) (cam : CameraPtr)
    (a : String) (h : c.attr ≠ a) : deliver c g cam a = g cam a := by
  cases c with
  | setObject n b args =>
    have hb : ¬ (a = b) := fun e => h (by simp [Call.attr, e])
    simp [deliver, hb]
  | setObjectsOfType t b args => rfl
  | setAttribute n b args =>
    have hb : ¬ (a = b) := fun e => h (by simp [Call.attr, e])
    simp [deliver, hb]
  | moveCalibrationPoint n dx dy => rfl

theorem deliver_foldl_other (extra : List Call) (g : CameraPtr → String → Values)
    (cam : CameraPtr) (a : String) (h : ∀ c ∈ extra, c.attr ≠ a) :
    extra.foldl (fun g c => deliver c g) g cam a = g cam a := by
  induction extra generalizing g with
  | nil => rfl
  | cons c rest ih =>
    rw [List.foldl_cons, ih _ (fun d hd => h d (List.mem_cons_of_mem _ hd)),
      deliver_other c g cam a (h c (List.mem_cons_self _ _))]

theorem setOnSelected_attr (w : World) (attr : String) (args : Values) :
    (setOnSelected w attr args).attr = attr := by
  unfold setOnSelected
  split_ifs <;> rfl

theorem deliver_setOnSelected (w : World) (attr : String) (args : Values)
    (g : CameraPtr → String → Values) :
    deliver (setOnSelected w attr args) g w.view._camera attr = args := by
  unfold setOnSelected
  split_ifs <;> simp [deliver]

/-- On a wheel-driven tick `processMouseEvents` records the write of the
clamped field of view, followed by calls on other attributes only. -/
theorem processMouseEvents_wheel (io : MouseInput) (w : World) (h : io.WheelDriven) :
    ∃ extra : List Call,
      (processMouseEvents io w).sent = w.sent ++
        setOnSelected w "fov" [Value.real (max 2 (min 180 (currentFov w + io.MouseWheel)))]
          :: extra
      ∧ (∀ c ∈ extra, c.attr ≠ "fov")
      ∧ (processMouseEvents io w).view._camera = w.view._camera := by
  obtain ⟨hover, hleft, hwheel⟩ := h
  obtain ⟨r1, r2, r3, r4⟩ := mouseRightClick_sent io w
  obtain ⟨c1, c2, c3, c4⟩ := mouseCapture_sent io (mouseWheel io (mouseRightClick io w))
  obtain ⟨extra, e1, e2, e3, e4⟩ :=
    mouseViewControls_sent io (mouseCapture io (mouseWheel io (mouseRightClick io w)))
  have hw := mouseWheel_eq io (mouseRightClick io w) hwheel
  rw [r2, r3, r4] at hw
  refine ⟨extra, ?_, e2, ?_⟩
  · simp only [processMouseEvents, hover, hleft, Bool.false_eq_true, and_false, if_false,
      if_true, e1, c1]
    rw [hw]
    simp [World.emit, r1, setOnSelected, currentFov]
  · simp only [processMouseEvents, hover, hleft, Bool.false_eq_true, and_false, if_false,
      if_true, e4, c3]
    rw [hw]
    simp [World.emit, r3]

theorem processMouseEvents_camera (io : MouseInput) (w : World) :
    (processMouseEvents io w).view._camera = w.view._camera := by
  unfold processMouseEvents
  split_ifs
  · unfold mouseLeftButton
    simp only [setObject, World.emit]
    split_ifs <;> rfl
  · rw [(mouseViewControls_sent io _).choose_spec.2.2.2, (mouseCapture_sent io _).2.2.1]
    unfold mouseWheel
    simp only [setObject, World.emit]
    split_ifs <;> simp [(mouseRightClick_sent io w).2.2.1]
  · rw [(mouseViewControls_sent io _).choose_spec.2.2.2, (mouseCapture_sent io _).2.2.1]

theorem mouseTicks_camera (ios : List MouseInput) (w : World) :
    (mouseTicks ios w).view._camera = w.view._camera := by
  induction ios generalizing w with
  | nil => rfl
  | cons io rest ih =>
    unfold mouseTicks at ih ⊢
    rw [List.foldl_cons, ih]
    exact processMouseEvents_camera io w

/-- C6: take any world, any earlier mouse ticks `ios` and a tick `io` on
which the wheel handler runs (view hovered, left button up, wheel delta
non-zero).  With `f` the field of view read from the selected camera before
that tick, the only `fov` call of the tick writes `max 2 (min 180 (f + wheel))`,
that value lies in `[2, 180]`, and it is the camera's field of view after the
tick: after one or more wheel-driven adjustments the field of view is in
`[2, 180]`, whatever it was before. -/
theorem wheel_fov_clamped (ios : List MouseInput) (io : MouseInput) (w : World)
    (h : io.WheelDriven) :
    (emitted (mouseTicks ios w) (processMouseEvents io (mouseTicks ios w))).filter
        (fun c => decide (c.attr = "fov"))
        = [setOnSelected (mouseTicks ios w) "fov"
            [Value.real (max 2 (min 180 (currentFov (mouseTicks ios w) + io.MouseWheel)))]]
      ∧ 2 ≤ max 2 (min 180 (currentFov (mouseTicks ios w) + io.MouseWheel))
      ∧ max 2 (min 180 (currentFov (mouseTicks ios w) + io.MouseWheel)) ≤ 180
      ∧ (mouseTicks (ios ++ [io]) w).getAttribute w.view._camera "fov"
          = [Value.real (max 2 (min 180 (currentFov (mouseTicks ios w) + io.MouseWheel)))]
      ∧ currentFov (mouseTicks (ios ++ [io]) w)
          = max 2 (min 180 (currentFov (mouseTicks ios w) + io.MouseWheel)) := by
  obtain ⟨extra, e1, e2, e3⟩ := processMouseEvents_wheel io (mouseTicks ios w) h
  have hem : emitted (mouseTicks ios w) (processMouseEvents io (mouseTicks ios w))
      = setOnSelected (mouseTicks ios w) "fov"
          [Value.real (max 2 (min 180 (currentFov (mouseTicks ios w) + io.MouseWheel)))]
        :: extra := by
    simp [emitted, e1]
  have hfilter : extra.filter (fun c => decide (c.attr = "fov")) = [] := by
    rw [List.filter_eq_nil_iff]
    intro c hc
    simpa using e2 c hc
  have hattr : (mouseTicks (ios ++ [io]) w).getAttribute w.view._camera "fov"
      = [Value.real (max 2 (min 180 (currentFov (mouseTicks ios w) + io.MouseWheel)))] := by
    have hstep : mouseTicks (ios ++ [io]) w = mouseTick io (mouseTicks ios w) := by
      simp [mouseTicks, List.foldl_append]
    rw [hstep]
    simp only [mouseTick, hem, List.foldl_cons]
    rw [deliver_foldl_other extra _ _ _ e2, ← mouseTicks_camera ios w, deliver_setOnSelected]
  refine ⟨?_, (clamp_bounds _).1, (clamp_bounds _).2, hattr, ?_⟩
  · rw [hem, List.filter_cons, hfilter]
    simp [setOnSelected_attr]
  · unfold currentFov
    rw [mouseTicks_camera (ios ++ [io]) w, hattr]
    rfl

/-- Instance of C6: the sample camera (35 degrees) and a wheel delta of -500. -/
theorem wheel_fov_clamped_witness :
    MouseInput.WheelDriven { IsItemHoveredRect := true, MouseWheel := -500 }
      ∧ (2 : ℚ) ≤ max 2 (min 180 (currentFov (mouseTicks [] (sampleWorld 1 [])) + (-500)))
      ∧ (mouseTicks ([] ++ [{ IsItemHoveredRect := true, MouseWheel := -500 }])
          (sampleWorld 1 [])).getAttribute 1 "fov"
          = [Value.real (max 2 (min 180 (currentFov (mouseTicks [] (sampleWorld 1 [])) + (-500))))] :=
  have hw : MouseInput.WheelDriven { IsItemHoveredRect := true, MouseWheel := -500 } :=
    ⟨rfl, rfl, by norm_num⟩
  ⟨hw, (wheel_fov_clamped [] _ (sampleWorld 1 []) hw).2.1,
    (wheel_fov_clamped [] _ (sampleWorld 1 []) hw).2.2.2.1⟩

/-! ## Camera selection -/

theorem foldl_setObject (attr : String) (args : Values) (cams : List CameraPtr) (w : World) :
    cams.foldl (fun acc cam => setObject cam attr args acc) w =
      { w with sent := w.sent ++ cams.map (fun cam => Call.setObject cam attr args) } := by
  induction cams generalizing w with
  | nil => simp
  | cons c rest ih =>
    rw [List.foldl_cons, ih]
    simp [setObject, World.emit]

/-- The world returned by `nextCamera`, written out. -/
theorem nextCamera_eq (w : World) :
    nextCamera w =
      { w with
        view := { w.view with
          _previousCameraParameters := [], _camerasHidden := false,
          _camerasColorized := false,
          _camera := nextSelection w.cameras w.view._camera w.view._guiCamera },
        sent := w.sent ++ (w.cameras.map (fun cam => Call.setObject cam "hide" [Value.int 0]) ++
          [Call.setObject w.view._camera "frame" [Value.int 0],
           Call.setObject w.view._camera "displayCalibration" [Value.int 0]] ++
          (if nextSelection w.cameras w.view._camera w.view._guiCamera ≠ w.view._guiCamera then
            [Call.setObject (nextSelection w.cameras w.view._camera w.view._guiCamera)
               "frame" [Value.int 1],
             Call.setObject (nextSelection w.cameras w.view._camera w.view._guiCamera)
               "displayCalibration" [Value.int 1]]
           else [])) } := by
  unfold nextCamera
  simp only [foldl_setObject]
  simp only [setObject, World.emit]
  split_ifs with h1 <;> simp

/-- The loop of `nextCamera` started on the `k`-th of distinct cameras: it
returns the next one, or the overview camera after the last. -/
theorem nextCameraScan_getElem (gui : CameraPtr) (l : List CameraPtr) (hl : l.Nodup)
    (k : Nat) (hk : k < l.length) :
    nextCameraScan l[k] gui l = if h : k + 1 < l.length then l[k + 1] else gui := by
  induction l generalizing k with
  | nil => exact absurd hk (Nat.not_lt_zero _)
  | cons c rest ih =>
    cases k with
    | zero =>
      cases rest with
      | nil => simp [nextCameraScan]
      | cons d rest' => simp [nextCameraScan]
    | succ k' =>
      have hk' : k' < rest.length := by simpa using hk
      have hne : ¬ (c = rest[k']) := by
        intro e
        exact (List.nodup_cons.mp hl).1 (e ▸ List.getElem_mem _)
      have := ih (List.nodup_cons.mp hl).2 k' hk'
      simp only [List.getElem_cons_succ, nextCameraScan, hne, if_false, this, List.length_cons,
        Nat.add_lt_add_iff_right]

theorem nextSelection_overview (gui : CameraPtr) (l : List CameraPtr) (h : 0 < l.length) :
    nextSelection l gui gui = l[0] := by
  cases l with
  | nil => exact absurd h (Nat.lt_irrefl _)
  | cons first rest => simp [nextSelection]

theorem nextSelection_getElem (gui : CameraPtr) (l : List CameraPtr) (hl : l.Nodup)
    (hgui : gui ∉ l) (k : Nat) (hk : k < l.length) :
    nextSelection l l[k] gui = if h : k + 1 < l.length then l[k + 1] else gui := by
  have hne : ¬ (l[k] = gui) := fun e => hgui (e ▸ List.getElem_mem _)
  have hscan := nextCameraScan_getElem gui l hl k hk
  cases l with
  | nil => exact absurd hk (Nat.not_lt_zero _)
  | cons first rest =>
    simp only [nextSelection, hne, if_false]
    exact hscan

theorem nextCamera_cameras (w : World) : (nextCamera w).cameras = w.cameras := by
  rw [nextCamera_eq]

theorem nextCamera_guiCamera (w : World) :
    (nextCamera w).view._guiCamera = w.view._guiCamera := by
  rw [nextCamera_eq]

theorem nextCamera_camera (w : World) :
    (nextCamera w).view._camera = nextSelection w.cameras w.view._camera w.view._guiCamera := by
  rw [nextCamera_eq]

theorem nextCamera_iterate_cameras (n : Nat) (w : World) :
    (nextCamera^[n] w).cameras = w.cameras ∧
      (nextCamera^[n] w).view._guiCamera = w.view._guiCamera := by
  induction n with
  | zero => exact ⟨rfl, rfl⟩
  | succ n ih =>
    rw [Function.iterate_succ_apply', nextCamera_cameras, nextCamera_guiCamera]
    exact ih

/-- After `k + 1` calls from the overview camera the `k`-th registered camera
is selected. -/
theorem nextCamera_iterate_camera (w : World) (hsel : w.view._camera = w.view._guiCamera)
    (hnodup : w.cameras.Nodup) (hgui : w.view._guiCamera ∉ w.cameras)
    (k : Nat) (hk : k < w.cameras.length) :
    (nextCamera^[k + 1] w).view._camera = w.cameras[k] := by
  induction k with
  | zero =>
    rw [Function.iterate_one, nextCamera_camera, hsel]
    exact nextSelection_overview _ _ hk
  | succ k ih =>
    have hk' : k < w.cameras.length := by omega
    obtain ⟨hcams, hg⟩ := nextCamera_iterate_cameras (k + 1) w
    rw [Function.iterate_succ_apply', nextCamera_camera, hcams, hg, ih hk',
      nextSelection_getElem _ _ hnodup hgui k hk', dif_pos hk]

/-- C7: with `N` distinct registered cameras, none of them the overview
camera, and the overview camera selected, the `k`-th call of `nextCamera`
(`1 ≤ k ≤ N`) selects the `k`-th camera in registration order, the
`(N + 1)`-th call selects the overview camera again, and with no registered
camera `nextCamera` keeps the overview camera selected. -/
theorem nextCamera_cycles (w : World) (hsel : w.view._camera = w.view._guiCamera)
    (hnodup : w.cameras.Nodup) (hgui : w.view._guiCamera ∉ w.cameras) :
    (∀ (k : Nat) (hk : k < w.cameras.length),
        (nextCamera^[k + 1] w).view._camera = w.cameras[k])
      ∧ (nextCamera^[w.cameras.length + 1] w).view._camera = w.view._guiCamera
      ∧ (w.cameras = [] → (nextCamera w).view._camera = w.view._guiCamera) := by
  refine ⟨nextCamera_iterate_camera w hsel hnodup hgui, ?_, ?_⟩
  · cases hn : w.cameras.length with
    | zero =>
      have hnil : w.cameras = [] := List.length_eq_zero.mp hn
      rw [Function.iterate_one, nextCamera_camera, hnil]
      rfl
    | succ n =>
      have hn' : n < w.cameras.length := by omega
      obtain ⟨hcams, hg⟩ := nextCamera_iterate_cameras (n + 1) w
      have hlast : ¬ (n + 1 < w.cameras.length) := by omega
      rw [Function.iterate_succ_apply', nextCamera_camera, hcams, hg,
        nextCamera_iterate_camera w hsel hnodup hgui n hn',
        nextSelection_getElem _ _ hnodup hgui n hn', dif_neg hlast]
  · intro hnil
    rw [nextCamera_camera, hnil]
    rfl

/-- Instance of C7: overview camera `0`, registered cameras `1`, `2`, `3`. -/
theorem nextCamera_cycles_witness :
    (nextCamera^[1] (sampleWorld 0 [])).view._camera = 1
      ∧ (nextCamera^[2] (sampleWorld 0 [])).view._camera = 2
      ∧ (nextCamera^[3] (sampleWorld 0 [])).view._camera = 3
      ∧ (nextCamera^[4] (sampleWorld 0 [])).view._camera = 0 :=
  have key := nextCamera_cycles (sampleWorld 0 []) rfl (by decide) (by decide)
  ⟨key.1 0 (by decide), key.1 1 (by decide), key.1 2 (by decide), key.2.1⟩

theorem filter_hide_displayCalibration (cams : List CameraPtr) :
    displayCalibrationCalls (cams.map (fun cam => Call.setObject cam "hide" [Value.int 0])) = [] := by
  unfold displayCalibrationCalls
  rw [List.filter_eq_nil_iff]
  intro c hc
  obtain ⟨cam, _, rfl⟩ := List.mem_map.mp hc
  simp [Call.attr]

/-- The `displayCalibration` calls of one `nextCamera`: one `0` for the
selection it leaves, then one `1` for the camera it selects unless that is
the overview camera. -/
theorem nextCamera_displayCalibration (w : World) :
    displayCalibrationCalls (emitted w (nextCamera w)) =
      Call.setObject w.view._camera "displayCalibration" [Value.int 0] ::
        (if nextSelection w.cameras w.view._camera w.view._guiCamera ≠ w.view._guiCamera then
          [Call.setObject (nextSelection w.cameras w.view._camera w.view._guiCamera)
            "displayCalibration" [Value.int 1]]
         else []) := by
  have hem : emitted w (nextCamera w) =
      w.cameras.map (fun cam => Call.setObject cam "hide" [Value.int 0]) ++
        [Call.setObject w.view._camera "frame" [Value.int 0],
         Call.setObject w.view._camera "displayCalibration" [Value.int 0]] ++
        (if nextSelection w.cameras w.view._camera w.view._guiCamera ≠ w.view._guiCamera then
          [Call.setObject (nextSelection w.cameras w.view._camera w.view._guiCamera)
             "frame" [Value.int 1],
           Call.setObject (nextSelection w.cameras w.view._camera w.view._guiCamera)
             "displayCalibration" [Value.int 1]]
         else []) := by
    rw [nextCamera_eq]
    simp [emitted]
  rw [hem]
  have hh := filter_hide_displayCalibration w.cameras
  unfold displayCalibrationCalls at hh ⊢
  rw [List.filter_append, List.filter_append, hh]
  split_ifs <;> simp [Call.attr]

theorem nextCamera_iterate_displayCalibration (w : World) (k : Nat) :
    displayCalibrationCalls (emitted (nextCamera^[k] w) (nextCamera^[k + 1] w)) =
      Call.setObject (nextCamera^[k] w).view._camera "displayCalibration" [Value.int 0] ::
        (if (nextCamera^[k + 1] w).view._camera ≠ w.view._guiCamera then
          [Call.setObject (nextCamera^[k + 1] w).view._camera "displayCalibration" [Value.int 1]]
         else []) := by
  rw [Function.iterate_succ_apply', nextCamera_displayCalibration, nextCamera_camera,
    (nextCamera_iterate_cameras k w).2]

/-- C8 as stated fails: in the scenario (overview camera `0`, cameras
`1`, `2`, `3`) the first `nextCamera` does emit a `displayCalibration=0`
command, and the fourth emits no `displayCalibration=1` command. -/
theorem nextCamera_overlay_counterexample :
    ¬ (countDisplayCalibration 0
        (emitted (sampleWorld 0 []) (nextCamera (sampleWorld 0 []))) = 0)
      ∧ ¬ (countDisplayCalibration 1
        (emitted (nextCamera^[3] (sampleWorld 0 [])) (nextCamera^[4] (sampleWorld 0 []))) = 1) := by
  decide

/-- C8, amended: with registered cameras `[A, B, C]`, all distinct and
distinct from the overview camera, and the overview camera selected, the
`displayCalibration` commands of the four `nextCamera` calls are: `0` to the
overview camera then `1` to `A`; `0` to `A` then `1` to `B`; `0` to `B` then
`1` to `C`; and, on the way back to the overview camera, `0` to `C` only. -/
theorem nextCamera_overlay_commands (w : World) (A B C : CameraPtr)
    (hc : w.cameras = [A, B, C]) (hsel : w.view._camera = w.view._guiCamera)
    (hd : (w.view._guiCamera :: w.cameras).Nodup) :
    displayCalibrationCalls (emitted w (nextCamera w))
        = [Call.setObject w.view._guiCamera "displayCalibration" [Value.int 0],
           Call.setObject A "displayCalibration" [Value.int 1]]
      ∧ displayCalibrationCalls (emitted (nextCamera^[1] w) (nextCamera^[2] w))
        = [Call.setObject A "displayCalibration" [Value.int 0],
           Call.setObject B "displayCalibration" [Value.int 1]]
      ∧ displayCalibrationCalls (emitted (nextCamera^[2] w) (nextCamera^[3] w))
        = [Call.setObject B "displayCalibration" [Value.int 0],
           Call.setObject C "displayCalibration" [Value.int 1]]
      ∧ displayCalibrationCalls (emitted (nextCamera^[3] w) (nextCamera^[4] w))
        = [Call.setObject C "displayCalibration" [Value.int 0]] := by
  obtain ⟨hgui, hnodup⟩ := List.nodup_cons.mp hd
  have hlen : w.cameras.length = 3 := by simp [hc]
  have s1 : (nextCamera^[1] w).view._camera = A := by
    have := nextCamera_iterate_camera w hsel hnodup hgui 0 (by omega)
    simpa [hc] using this
  have s2 : (nextCamera^[2] w).view._camera = B := by
    have := nextCamera_iterate_camera w hsel hnodup hgui 1 (by omega)
    simpa [hc] using this
  have s3 : (nextCamera^[3] w).view._camera = C := by
    have := nextCamera_iterate_camera w hsel hnodup hgui 2 (by omega)
    simpa [hc] using this
  have s4 : (nextCamera^[4] w).view._camera = w.view._guiCamera := by
    have h4 : (nextCamera^[w.cameras.length + 1] w).view._camera = w.view._guiCamera := by
      have hlast : ¬ (2 + 1 < w.cameras.length) := by omega
      obtain ⟨hcams, hg⟩ := nextCamera_iterate_cameras 3 w
      rw [hlen, Function.iterate_succ_apply', nextCamera_camera, hcams, hg,
        nextCamera_iterate_camera w hsel hnodup hgui 2 (by omega),
        nextSelection_getElem _ _ hnodup hgui 2 (by omega), dif_neg hlast]
    rwa [hlen] at h4
  have hA : A ≠ w.view._guiCamera := fun e => hgui (by simp [hc, e])
  have hB : B ≠ w.view._guiCamera := fun e => hgui (by simp [hc, e])
  have hC : C ≠ w.view._guiCamera := fun e => hgui (by simp [hc, e])
  have d0 := nextCamera_iterate_displayCalibration w 0
  have d1 := nextCamera_iterate_displayCalibration w 1
  have d2 := nextCamera_iterate_displayCalibration w 2
  have d3 := nextCamera_iterate_displayCalibration w 3
  simp only [Nat.reduceAdd, s1, s2, s3, s4, ne_eq, hA, hB,
    hC, not_false_eq_true, if_true, not_true_eq_false, if_false] at d0 d1 d2 d3
  simp only [Function.iterate_zero, id_eq, hsel, Function.iterate_one] at d0
  exact ⟨d0, d1, d2, d3⟩

/-- Instance of the amended C8: overview camera `0`, cameras `1`, `2`, `3`. -/
theorem nextCamera_overlay_commands_witness :
    displayCalibrationCalls (emitted (sampleWorld 0 []) (nextCamera (sampleWorld 0 [])))
        = [Call.setObject 0 "displayCalibration" [Value.int 0],
           Call.setObject 1 "displayCalibration" [Value.int 1]]
      ∧ displayCalibrationCalls
          (emitted (nextCamera^[3] (sampleWorld 0 [])) (nextCamera^[4] (sampleWorld 0 [])))
        = [Call.setObject 3 "displayCalibration" [Value.int 0]] :=
  have key := nextCamera_overlay_commands (sampleWorld 0 []) 1 2 3 rfl rfl (by decide)
  ⟨key.1, key.2.2.2⟩

/-- C9: after `nextCamera`, and after a press without Ctrl on the button of
any camera of the camera list, whatever the state before: the calibration
history is empty, `_camerasHidden` and `_camerasColorized` are false, and the
call has sent `hide = 0` to every registered camera. -/
theorem selection_change_resets (switchVisibility : Int) (camera : CameraPtr) (w : World) :
    ((nextCamera w).view._previousCameraParameters = []
        ∧ (nextCamera w).view._camerasHidden = false
        ∧ (nextCamera w).view._camerasColorized = false
        ∧ ∀ c ∈ w.cameras,
            Call.setObject c "hide" [Value.int 0] ∈ emitted w (nextCamera w))
      ∧ ((cameraButtonPressed switchVisibility false camera w).view._camera = camera
        ∧ (cameraButtonPressed switchVisibility false camera w).view._previousCameraParameters = []
        ∧ (cameraButtonPressed switchVisibility false camera w).view._camerasHidden = false
        ∧ (cameraButtonPressed switchVisibility false camera w).view._camerasColorized = false
        ∧ ∀ c ∈ w.cameras,
            Call.setObject c "hide" [Value.int 0]
              ∈ emitted w (cameraButtonPressed switchVisibility false camera w)) := by
  constructor
  · rw [nextCamera_eq]
    refine ⟨rfl, rfl, rfl, ?_⟩
    intro c hc
    simp only [emitted, List.drop_left, List.mem_append, List.mem_map]
    exact Or.inl (Or.inl ⟨c, hc, rfl⟩)
  · have hpress : cameraButtonPressed switchVisibility false camera w =
        showAllCalibrationPoints switchVisibility (if w.view._showCalibrationPoints then 1 else 0)
          { w with
            view := { w.view with
              _previousCameraParameters := [], _camerasHidden := false,
              _camerasColorized := false, _camera := camera },
            sent := w.sent ++ ((getCameras w).map (fun cam => Call.setObject cam "hide" [Value.int 0]) ++
              [Call.setObject w.view._camera "frame" [Value.int 0],
               Call.setObject w.view._camera "displayCalibration" [Value.int 0],
               Call.setObject camera "frame" [Value.int 1],
               Call.setObject camera "displayCalibration" [Value.int 1]]) } := by
      unfold cameraButtonPressed
      simp only [Bool.false_eq_true, if_false, foldl_setObject]
      simp [setObject, World.emit, getCameras]
    rw [hpress]
    unfold showAllCalibrationPoints
    simp only [setObject, World.emit]
    refine ⟨?_, ?_, ?_, ?_, ?_⟩
    · split_ifs <;> rfl
    · split_ifs <;> rfl
    · split_ifs <;> rfl
    · split_ifs <;> rfl
    · intro c hc
      have hmem : c ∈ getCameras w := List.mem_cons_of_mem _ hc
      split_ifs <;>
      · simp only [emitted, List.append_assoc, List.drop_left, List.mem_append, List.mem_map]
        exact Or.inl ⟨c, hmem, rfl⟩

/-- The applied flag after `hideOtherCameras hide` is `hide`. -/
theorem hideOtherCameras_camerasHidden (hide : Bool) (w : World) :
    (hideOtherCameras hide w).view._camerasHidden = hide := by
  unfold hideOtherCameras
  by_cases h : hide = w.view._camerasHidden
  · rw [if_pos h]
    exact h.symm
  · rw [if_neg h]

/-- C10: `hideOtherCameras b` run a second time right after itself returns
the world it was given, so it records no call and changes no member; more
generally `hideOtherCameras b` returns the world unchanged whenever `b` is
the applied value `_camerasHidden`. -/
theorem hideOtherCameras_idempotent (b : Bool) (w : World) :
    hideOtherCameras b (hideOtherCameras b w) = hideOtherCameras b w
      ∧ (b = w.view._camerasHidden → hideOtherCameras b w = w) := by
  have hnoop : ∀ v : World, b = v.view._camerasHidden → hideOtherCameras b v = v := by
    intro v hv
    unfold hideOtherCameras
    rw [if_pos hv]
  exact ⟨hnoop _ (hideOtherCameras_camerasHidden b w).symm, hnoop w⟩

/-- Instance of C10: hiding twice with camera `1` selected, and a call with
the value already applied. -/
theorem hideOtherCameras_idempotent_witness :
    hideOtherCameras true (hideOtherCameras true (sampleWorld 1 []))
        = hideOtherCameras true (sampleWorld 1 [])
      ∧ emitted (sampleWorld 1 []) (hideOtherCameras true (sampleWorld 1 []))
        = [Call.setObject 2 "hide" [Value.int 1], Call.setObject 3 "hide" [Value.int 1]]
      ∧ hideOtherCameras false (sampleWorld 1 []) = sampleWorld 1 [] :=
  ⟨(hideOtherCameras_idempotent true (sampleWorld 1 [])).1, by decide,
    (hideOtherCameras_idempotent false (sampleWorld 1 [])).2 rfl⟩

/-! ## Hiding and colouring the other cameras -/

theorem emitted_append (w w' : World) (extra : List Call) (h : w'.sent = w.sent ++ extra) :
    emitted w w' = extra := by
  simp [emitted, h]

theorem foldl_hide (v : Values) (cams : List CameraPtr) (w : World) :
    cams.foldl (fun acc cam =>
        if cam ≠ acc.view._camera then setObject cam "hide" v acc else acc) w =
      { w with
        sent := w.sent ++ List.map (fun cam => Call.setObject cam "hide" v)
          (List.filter (fun cam => decide (cam ≠ w.view._camera)) cams) } := by
  induction cams generalizing w with
  | nil => simp
  | cons c rest ih =>
    rw [List.foldl_cons, ih]
    by_cases hc : c = w.view._camera
    · simp [hc]
    · simp [hc, setObject, World.emit]

/-- The world returned by `hideOtherCameras` when the flag changes. -/
theorem hideOtherCameras_eq (hide : Bool) (w : World) (h : hide ≠ w.view._camerasHidden) :
    hideOtherCameras hide w =
      { w with
        view := { w.view with _camerasHidden := hide },
        sent := w.sent ++
          List.map (fun cam => Call.setObject cam "hide" [Value.int (if hide then 1 else 0)])
            (List.filter (fun cam => decide (cam ≠ w.view._camera)) w.cameras) } := by
  unfold hideOtherCameras
  rw [if_neg h, foldl_hide]

/-- C11: when `b` differs from the applied value `_camerasHidden`,
`hideOtherCameras b` emits, in registration order, one `hide` command with
value `b` (`1` or `0`) for each registered camera other than the selected
one and nothing else: no call reaches the selected camera, a camera
registered once gets exactly one command, and the applied value becomes `b`
while no other member changes. -/
theorem hideOtherCameras_commands (b : Bool) (w : World) (h : b ≠ w.view._camerasHidden) :
    emitted w (hideOtherCameras b w) =
        (w.cameras.filter (fun cam => decide (cam ≠ w.view._camera))).map
          (fun cam => Call.setObject cam "hide" [Value.int (if b then 1 else 0)])
      ∧ (∀ c ∈ emitted w (hideOtherCameras b w), c.reaches w.cameras w.view._camera = false)
      ∧ (w.cameras.Nodup → ∀ cam ∈ w.cameras, cam ≠ w.view._camera →
          (emitted w (hideOtherCameras b w)).count
            (Call.setObject cam "hide" [Value.int (if b then 1 else 0)]) = 1)
      ∧ (hideOtherCameras b w).view = { w.view with _camerasHidden := b } := by
  have hem : emitted w (hideOtherCameras b w) =
      (w.cameras.filter (fun cam => decide (cam ≠ w.view._camera))).map
        (fun cam => Call.setObject cam "hide" [Value.int (if b then 1 else 0)]) := by
    apply emitted_append
    rw [hideOtherCameras_eq b w h]
  refine ⟨hem, ?_, ?_, ?_⟩
  · intro c hc
    rw [hem] at hc
    obtain ⟨cam, hcam, rfl⟩ := List.mem_map.mp hc
    have hne : cam ≠ w.view._camera := by simpa using (List.mem_filter.mp hcam).2
    simp [Call.reaches, hne]
  · intro hnodup cam hmem hne
    have hinj : Function.Injective
        (fun cam : CameraPtr => Call.setObject cam "hide" [Value.int (if b then 1 else 0)]) := by
      intro a c hac
      simpa using hac
    rw [hem, List.count_map_of_injective _ _ hinj,
      List.count_filter (by simpa using hne)]
    exact List.count_eq_one_of_mem hnodup hmem
  · rw [hideOtherCameras_eq b w h]

/-- Instance of C11: cameras `1`, `2`, `3`, camera `1` selected, nothing
hidden yet. -/
theorem hideOtherCameras_commands_witness :
    emitted (sampleWorld 1 []) (hideOtherCameras true (sampleWorld 1 []))
        = [Call.setObject 2 "hide" [Value.int 1], Call.setObject 3 "hide" [Value.int 1]]
      ∧ (hideOtherCameras true (sampleWorld 1 [])).view._camerasHidden = true :=
  have key := hideOtherCameras_commands true (sampleWorld 1 []) (by decide)
  ⟨key.1, by rw [key.2.2.2]⟩

/-- The world returned by `colorizeCameraWireframes true` on a registered
camera when colorization was off. -/
theorem colorizeCameraWireframes_on (w : World) (hsel : w.view._camera ≠ w.view._guiCamera)
    (hprev : w.view._camerasColorizedPreviousValue = false) :
    colorizeCameraWireframes true w =
      { w with
        view := { w.view with _camerasColorizedPreviousValue := true },
        sent := w.sent ++
          [Call.setObjectsOfType "camera" "colorWireframe"
             [Value.real 1, Value.real 0, Value.real 1, Value.real 1],
           Call.setObject w.view._camera "colorWireframe"
             [Value.real 0, Value.real 1, Value.real 0, Value.real 1]] } := by
  unfold colorizeCameraWireframes
  simp [hsel, hprev, setObject, World.emit]

/-- The world returned by `colorizeCameraWireframes false` when colorization
was on. -/
theorem colorizeCameraWireframes_off (w : World)
    (hprev : w.view._camerasColorizedPreviousValue = true) :
    colorizeCameraWireframes false w =
      { w with
        view := { w.view with _camerasColorizedPreviousValue := false },
        sent := w.sent ++
          [Call.setObjectsOfType "camera" "colorWireframe"
             [Value.real 1, Value.real 1, Value.real 1, Value.real 1]] } := by
  unfold colorizeCameraWireframes
  simp [hprev, World.emit]

/-- C12: with a camera other than the overview camera selected and
colorization off, `colorizeCameraWireframes true` sends magenta `(1,0,1,1)`
to the cameras and then green `(0,1,0,1)` to the selected one, so the last
colour received is magenta for every registered camera that is not selected
and green for the selected one; `colorizeCameraWireframes false` right after
sends white `(1,1,1,1)` to the cameras, which is then the last colour
received by every registered camera. -/
theorem colorizeCameraWireframes_colours (w : World)
    (hsel : w.view._camera ≠ w.view._guiCamera)
    (hprev : w.view._camerasColorizedPreviousValue = false) :
    emitted w (colorizeCameraWireframes true w)
        = [Call.setObjectsOfType "camera" "colorWireframe"
             [Value.real 1, Value.real 0, Value.real 1, Value.real 1],
           Call.setObject w.view._camera "colorWireframe"
             [Value.real 0, Value.real 1, Value.real 0, Value.real 1]]
      ∧ (∀ cam ∈ w.cameras, cam ≠ w.view._camera →
          lastReceived w.cameras cam "colorWireframe"
            (emitted w (colorizeCameraWireframes true w))
            = some [Value.real 1, Value.real 0, Value.real 1, Value.real 1])
      ∧ lastReceived w.cameras w.view._camera "colorWireframe"
          (emitted w (colorizeCameraWireframes true w))
          = some [Value.real 0, Value.real 1, Value.real 0, Value.real 1]
      ∧ emitted (colorizeCameraWireframes true w)
          (colorizeCameraWireframes false (colorizeCameraWireframes true w))
          = [Call.setObjectsOfType "camera" "colorWireframe"
               [Value.real 1, Value.real 1, Value.real 1, Value.real 1]]
      ∧ (∀ cam ∈ w.cameras,
          lastReceived w.cameras cam "colorWireframe"
            (emitted w (colorizeCameraWireframes false (colorizeCameraWireframes true w)))
            = some [Value.real 1, Value.real 1, Value.real 1, Value.real 1]) := by
  have hon := colorizeCameraWireframes_on w hsel hprev
  have hoff := colorizeCameraWireframes_off (colorizeCameraWireframes true w)
    (by rw [hon])
  have e1 := emitted_append w (colorizeCameraWireframes true w) _ (by rw [hon])
  have e2 := emitted_append (colorizeCameraWireframes true w)
    (colorizeCameraWireframes false (colorizeCameraWireframes true w)) _ (by rw [hoff])
  have e3 : emitted w (colorizeCameraWireframes false (colorizeCameraWireframes true w))
      = [Call.setObjectsOfType "camera" "colorWireframe"
           [Value.real 1, Value.real 0, Value.real 1, Value.real 1],
         Call.setObject w.view._camera "colorWireframe"
           [Value.real 0, Value.real 1, Value.real 0, Value.real 1],
         Call.setObjectsOfType "camera" "colorWireframe"
           [Value.real 1, Value.real 1, Value.real 1, Value.real 1]] := by
    apply emitted_append
    rw [hoff, hon]
    simp
  refine ⟨e1, ?_, ?_, e2, ?_⟩
  · intro cam hmem hne
    rw [e1]
    have hne' : ¬ (w.view._camera = cam) := fun e => hne e.symm
    simp [lastReceived, Call.reaches, Call.attr, Call.args, hmem, hne', List.filter]
  · rw [e1]
    by_cases hmem : w.view._camera ∈ w.cameras <;>
      simp [lastReceived, Call.reaches, Call.attr, Call.args, hmem, List.filter]
  · intro cam hmem
    rw [e3]
    by_cases hc : w.view._camera = cam <;>
      simp [lastReceived, Call.reaches, Call.attr, Call.args, hmem, hc, List.filter]

/-- Instance of C12: cameras `1`, `2`, `3`, camera `2` selected. -/
theorem colorizeCameraWireframes_colours_witness :
    lastReceived [1, 2, 3] 1 "colorWireframe"
        (emitted (sampleWorld 2 []) (colorizeCameraWireframes true (sampleWorld 2 [])))
        = some [Value.real 1, Value.real 0, Value.real 1, Value.real 1]
      ∧ lastReceived [1, 2, 3] 2 "colorWireframe"
        (emitted (sampleWorld 2 []) (colorizeCameraWireframes true (sampleWorld 2 [])))
        = some [Value.real 0, Value.real 1, Value.real 0, Value.real 1]
      ∧ lastReceived [1, 2, 3] 2 "colorWireframe"
        (emitted (sampleWorld 2 [])
          (colorizeCameraWireframes false (colorizeCameraWireframes true (sampleWorld 2 []))))
        = some [Value.real 1, Value.real 1, Value.real 1, Value.real 1] :=
  have key := colorizeCameraWireframes_colours (sampleWorld 2 []) (by decide) rfl
  ⟨key.2.1 1 (by decide) (by decide), key.2.2.1, key.2.2.2.2 2 (by decide)⟩

/-- The world returned by a press without Ctrl on the button of `camera`,
before the final `showAllCalibrationPoints`. -/
theorem cameraButtonPressed_eq (switchVisibility : Int) (camera : CameraPtr) (w : World) :
    cameraButtonPressed switchVisibility false camera w =
      showAllCalibrationPoints switchVisibility (if w.view._showCalibrationPoints then 1 else 0)
        { w with
          view := { w.view with
            _previousCameraParameters := [], _camerasHidden := false,
            _camerasColorized := false, _camera := camera },
          sent := w.sent ++
            (List.map (fun cam => Call.setObject cam "hide" [Value.int 0]) (getCameras w) ++
            [Call.setObject w.view._camera "frame" [Value.int 0],
             Call.setObject w.view._camera "displayCalibration" [Value.int 0],
             Call.setObject camera "frame" [Value.int 1],
             Call.setObject camera "displayCalibration" [Value.int 1]]) } := by
  unfold cameraButtonPressed
  simp only [Bool.false_eq_true, if_false, foldl_setObject]
  simp [setObject, World.emit, getCameras]

/-- What `showAllCalibrationPoints` records and what it keeps. -/
theorem showAllCalibrationPoints_sent (switchVisibility showPoints : Int) (w : World) :
    (showAllCalibrationPoints switchVisibility showPoints w).sent =
        w.sent ++ [Call.setObject w.view._camera "showAllCalibrationPoints" [Value.int showPoints]]
      ∧ (showAllCalibrationPoints switchVisibility showPoints w).cameras = w.cameras
      ∧ (showAllCalibrationPoints switchVisibility showPoints w).view._guiCamera
          = w.view._guiCamera
      ∧ (showAllCalibrationPoints switchVisibility showPoints w).view._camera = w.view._camera
      ∧ (showAllCalibrationPoints switchVisibility showPoints w).getAttribute = w.getAttribute := by
  unfold showAllCalibrationPoints
  simp only [setObject, World.emit]
  split_ifs <;> exact ⟨rfl, rfl, rfl, rfl, rfl⟩

/-- The calls recorded by a press without Ctrl on the button of `camera`. -/
theorem cameraButtonPressed_sent (switchVisibility : Int) (camera : CameraPtr) (w : World) :
    (cameraButtonPressed switchVisibility false camera w).sent =
        w.sent ++
          (List.map (fun cam => Call.setObject cam "hide" [Value.int 0]) (getCameras w) ++
          [Call.setObject w.view._camera "frame" [Value.int 0],
           Call.setObject w.view._camera "displayCalibration" [Value.int 0],
           Call.setObject camera "frame" [Value.int 1],
           Call.setObject camera "displayCalibration" [Value.int 1],
           Call.setObject camera "showAllCalibrationPoints"
             [Value.int (if w.view._showCalibrationPoints then 1 else 0)]])
      ∧ (cameraButtonPressed switchVisibility false camera w).cameras = w.cameras
      ∧ (cameraButtonPressed switchVisibility false camera w).view._guiCamera
          = w.view._guiCamera := by
  rw [cameraButtonPressed_eq]
  refine ⟨?_, ?_, ?_⟩
  · rw [(showAllCalibrationPoints_sent _ _ _).1]
    simp
  · rw [(showAllCalibrationPoints_sent _ _ _).2.1]
  · rw [(showAllCalibrationPoints_sent _ _ _).2.2.1]

/-- One operation of the widget, other than a Ctrl press on the button of the
overview camera, records no command that hides or colours the overview
camera, and keeps the registry and the overview camera. -/
theorem runWidgetOp_overview (switchVisibility : Int) (op : WidgetOp) (w : World)
    (hgui : w.view._guiCamera ∉ w.cameras)
    (hop : op ≠ WidgetOp.cameraButton w.view._guiCamera true) :
    ∃ extra : List Call,
      (runWidgetOp switchVisibility op w).sent = w.sent ++ extra
      ∧ (∀ c ∈ extra, ¬ c.hidesOrColorizes w.cameras w.view._guiCamera)
      ∧ (runWidgetOp switchVisibility op w).cameras = w.cameras
      ∧ (runWidgetOp switchVisibility op w).view._guiCamera = w.view._guiCamera := by
  cases op with
  | nextCamera =>
    refine ⟨_, by rw [runWidgetOp, nextCamera_eq], ?_, by rw [runWidgetOp, nextCamera_eq],
      by rw [runWidgetOp, nextCamera_eq]⟩
    intro c hc
    simp only [List.mem_append, List.mem_map, List.mem_cons, List.mem_singleton,
      List.not_mem_nil, or_false] at hc
    rcases hc with (⟨cam, _, rfl⟩ | rfl | rfl) | hc
    · simp [Call.hidesOrColorizes, Call.attr, Call.args]
    · simp [Call.hidesOrColorizes, Call.attr, Call.args]
    · simp [Call.hidesOrColorizes, Call.attr, Call.args]
    · split_ifs at hc
      · simp only [List.mem_cons, List.mem_singleton, List.not_mem_nil, or_false] at hc
        rcases hc with rfl | rfl <;> simp [Call.hidesOrColorizes, Call.attr, Call.args]
      · exact absurd hc (List.not_mem_nil c)
  | cameraButton camera keyCtrl =>
    cases keyCtrl with
    | true =>
      have hne : camera ≠ w.view._guiCamera := fun e => hop (by rw [e])
      refine ⟨[Call.setObject camera "hide" [Value.int (-1)]], ?_, ?_, ?_, ?_⟩
      · simp [runWidgetOp, cameraButtonPressed, setObject, World.emit]
      · intro c hc
        rw [List.mem_singleton] at hc
        subst hc
        simp [Call.hidesOrColorizes, Call.reaches, hne]
      · simp [runWidgetOp, cameraButtonPressed, setObject, World.emit]
      · simp [runWidgetOp, cameraButtonPressed, setObject, World.emit]
    | false =>
      obtain ⟨s1, s2, s3⟩ := cameraButtonPressed_sent switchVisibility camera w
      refine ⟨_, by rw [runWidgetOp, s1], ?_, by rw [runWidgetOp, s2], by rw [runWidgetOp, s3]⟩
      intro c hc
      simp only [List.mem_append, List.mem_map, List.mem_cons, List.mem_singleton,
        List.not_mem_nil, or_false] at hc
      rcases hc with ⟨cam, _, rfl⟩ | rfl | rfl | rfl | rfl | rfl <;>
        simp [Call.hidesOrColorizes, Call.attr, Call.args]
  | hideOtherCameras hide =>
    by_cases h : hide = w.view._camerasHidden
    · refine ⟨[], ?_, ?_, ?_, ?_⟩
      · simp [runWidgetOp, hideOtherCameras, h]
      · intro c hc
        exact absurd hc (List.not_mem_nil c)
      · simp [runWidgetOp, hideOtherCameras, h]
      · simp [runWidgetOp, hideOtherCameras, h]
    · refine ⟨_, by rw [runWidgetOp, hideOtherCameras_eq hide w h], ?_,
        by rw [runWidgetOp, hideOtherCameras_eq hide w h],
        by rw [runWidgetOp, hideOtherCameras_eq hide w h]⟩
      intro c hc
      obtain ⟨cam, hcam, rfl⟩ := List.mem_map.mp hc
      have hmem : cam ∈ w.cameras := (List.mem_filter.mp hcam).1
      have hne : cam ≠ w.view._guiCamera := fun e => hgui (e ▸ hmem)
      simp [Call.hidesOrColorizes, Call.reaches, hne]
  | colorizeCameraWireframes colorize =>
    by_cases hskip : (w.view._camera = w.view._guiCamera ∧ colorize = true)
        ∨ colorize = w.view._camerasColorizedPreviousValue
    · refine ⟨[], ?_, ?_, ?_, ?_⟩
      · simp [runWidgetOp, colorizeCameraWireframes, hskip]
      · intro c hc
        exact absurd hc (List.not_mem_nil c)
      · simp [runWidgetOp, colorizeCameraWireframes, hskip]
      · simp [runWidgetOp, colorizeCameraWireframes, hskip]
    · cases colorize with
      | true =>
        have hne : w.view._camera ≠ w.view._guiCamera := fun e => hskip (Or.inl ⟨e, rfl⟩)
        have hprev : w.view._camerasColorizedPreviousValue = false := by
          cases hp : w.view._camerasColorizedPreviousValue with
          | false => rfl
          | true => exact absurd (Or.inr hp.symm) hskip
        refine ⟨_, by rw [runWidgetOp, colorizeCameraWireframes_on w hne hprev], ?_,
          by rw [runWidgetOp, colorizeCameraWireframes_on w hne hprev],
          by rw [runWidgetOp, colorizeCameraWireframes_on w hne hprev]⟩
        intro c hc
        simp only [List.mem_cons, List.mem_singleton, List.not_mem_nil, or_false] at hc
        rcases hc with rfl | rfl <;> simp [Call.hidesOrColorizes, Call.reaches, hne, hgui]
      | false =>
        have hprev : w.view._camerasColorizedPreviousValue = true := by
          cases hp : w.view._camerasColorizedPreviousValue with
          | true => rfl
          | false => exact absurd (Or.inr hp.symm) hskip
        refine ⟨_, by rw [runWidgetOp, colorizeCameraWireframes_off w hprev], ?_,
          by rw [runWidgetOp, colorizeCameraWireframes_off w hprev],
          by rw [runWidgetOp, colorizeCameraWireframes_off w hprev]⟩
        intro c hc
        rw [List.mem_singleton] at hc
        subst hc
        simp [Call.hidesOrColorizes, Call.reaches, hgui]

/-- A sequence of operations of the widget without a Ctrl press on the button
of the overview camera records no command that hides or colours it. -/
theorem runWidgetOps_overview (switchVisibility : Int) (ops : List WidgetOp) :
    ∀ (w : World), w.view._guiCamera ∉ w.cameras →
      WidgetOp.cameraButton w.view._guiCamera true ∉ ops →
      ∃ extra : List Call,
        (runWidgetOps switchVisibility ops w).sent = w.sent ++ extra
        ∧ (∀ c ∈ extra, ¬ c.hidesOrColorizes w.cameras w.view._guiCamera) := by
  induction ops with
  | nil =>
    intro w _ _
    exact ⟨[], by simp [runWidgetOps], fun c hc => absurd hc (List.not_mem_nil c)⟩
  | cons op rest ih =>
    intro w hgui hops
    have hop : op ≠ WidgetOp.cameraButton w.view._guiCamera true :=
      fun e => hops (e ▸ List.mem_cons_self _ _)
    obtain ⟨e1, hs1, hb1, hc1, hg1⟩ := runWidgetOp_overview switchVisibility op w hgui hop
    obtain ⟨e2, hs2, hb2⟩ := ih (runWidgetOp switchVisibility op w)
      (by rw [hc1, hg1]; exact hgui)
      (by rw [hg1]; exact fun hm => hops (List.mem_cons_of_mem _ hm))
    refine ⟨e1 ++ e2, ?_, ?_⟩
    · show (runWidgetOps switchVisibility rest (runWidgetOp switchVisibility op w)).sent = _
      rw [hs2, hs1, List.append_assoc]
    · intro c hc
      rcases List.mem_append.mp hc with h1 | h2
      · exact hb1 c h1
      · have := hb2 c h2
        rwa [hc1, hg1] at this

theorem runWidgetOps_guiCamera (switchVisibility : Int) (ops : List WidgetOp) :
    ∀ (w : World), w.view._guiCamera ∉ w.cameras →
      WidgetOp.cameraButton w.view._guiCamera true ∉ ops →
      (runWidgetOps switchVisibility ops w).view._guiCamera = w.view._guiCamera := by
  induction ops with
  | nil => intro w _ _; rfl
  | cons op rest ih =>
    intro w hgui hops
    have hop : op ≠ WidgetOp.cameraButton w.view._guiCamera true :=
      fun e => hops (e ▸ List.mem_cons_self _ _)
    obtain ⟨_, _, _, hc1, hg1⟩ := runWidgetOp_overview switchVisibility op w hgui hop
    have := ih (runWidgetOp switchVisibility op w) (by rw [hc1, hg1]; exact hgui)
      (by rw [hg1]; exact fun hm => hops (List.mem_cons_of_mem _ hm))
    show (runWidgetOps switchVisibility rest (runWidgetOp switchVisibility op w)).view._guiCamera = _
    rw [this, hg1]

/-- C13 as stated fails: in the sample scene (overview camera `0`) a press
with Ctrl on the button of the overview camera in the camera list sends
`hide = -1`, the hide/unhide toggle, to the overview camera. -/
theorem overview_hide_counterexample :
    emitted (sampleWorld 1 [])
        (runWidgetOps (-1) [WidgetOp.cameraButton 0 true] (sampleWorld 1 []))
        = [Call.setObject 0 "hide" [Value.int (-1)]]
      ∧ Call.hidesOrColorizes (sampleWorld 1 []).cameras (sampleWorld 1 []).view._guiCamera
          (Call.setObject 0 "hide" [Value.int (-1)]) := by
  decide

/-- C13, amended: when the overview camera is not a registered camera, no
sequence of `nextCamera`, presses (with or without Ctrl) on the buttons of
the camera list, `hideOtherCameras` and `colorizeCameraWireframes` that has
no Ctrl press on the button of the overview camera itself records a `hide`
with a value other than `0` or a `colorWireframe` reaching the overview
camera; and in the state reached, `colorizeCameraWireframes true` with the
overview camera selected returns the world unchanged. -/
theorem overview_never_hidden_or_colorized (switchVisibility : Int) (ops : List WidgetOp)
    (w : World) (hgui : w.view._guiCamera ∉ w.cameras)
    (hops : WidgetOp.cameraButton w.view._guiCamera true ∉ ops) :
    (∀ c ∈ emitted w (runWidgetOps switchVisibility ops w),
        ¬ c.hidesOrColorizes w.cameras w.view._guiCamera)
      ∧ ((runWidgetOps switchVisibility ops w).view._camera = w.view._guiCamera →
          colorizeCameraWireframes true (runWidgetOps switchVisibility ops w)
            = runWidgetOps switchVisibility ops w) := by
  obtain ⟨extra, hs, hb⟩ := runWidgetOps_overview switchVisibility ops w hgui hops
  refine ⟨?_, ?_⟩
  · rw [emitted_append w _ extra hs]
    exact hb
  · intro hsel
    have hg := runWidgetOps_guiCamera switchVisibility ops w hgui hops
    unfold colorizeCameraWireframes
    rw [if_pos (Or.inl ⟨hsel.trans hg.symm, rfl⟩)]

/-- Instance of the amended C13: from the overview camera, select camera `1`
through the list, colour and hide the others, hide camera `2` with a Ctrl
press, and cycle on. -/
theorem overview_never_hidden_or_colorized_witness :
    (∀ c ∈ emitted (sampleWorld 0 [])
        (runWidgetOps (-1)
          [WidgetOp.cameraButton 1 false, WidgetOp.colorizeCameraWireframes true,
           WidgetOp.hideOtherCameras true, WidgetOp.cameraButton 2 true, WidgetOp.nextCamera]
          (sampleWorld 0 [])),
        ¬ c.hidesOrColorizes [1, 2, 3] 0)
      ∧ colorizeCameraWireframes true (runWidgetOps (-1) [] (sampleWorld 0 []))
          = runWidgetOps (-1) [] (sampleWorld 0 []) :=
  ⟨(overview_never_hidden_or_colorized (-1)
      [WidgetOp.cameraButton 1 false, WidgetOp.colorizeCameraWireframes true,
       WidgetOp.hideOtherCameras true, WidgetOp.cameraButton 2 true, WidgetOp.nextCamera]
      (sampleWorld 0 []) (by decide) (by decide)).1,
    (overview_never_hidden_or_colorized (-1) [] (sampleWorld 0 []) (by decide) (by decide)).2
      rfl⟩

/-! ## Keyboard and joystick nudges -/

theorem propagateCalibration_eq (w : World) :
    propagateCalibration w =
      { w with sent := w.sent ++
          [Call.setObject w.view._camera "eye" (w.getAttribute w.view._camera "eye"),
           Call.setObject w.view._camera "target" (w.getAttribute w.view._camera "target"),
           Call.setObject w.view._camera "up" (w.getAttribute w.view._camera "up"),
           Call.setObject w.view._camera "fov" (w.getAttribute w.view._camera "fov"),
           Call.setObject w.view._camera "principalPoint"
             (w.getAttribute w.view._camera "principalPoint")] } := by
  simp [propagateCalibration, setObject, World.emit]

/-- A nudge followed by `propagateCalibration` records the nudge, then five
calls that are not nudges, and keeps the widget. -/
theorem nudge_sent (x : Externals) (dx dy : ℚ) (w : World) :
    ∃ extra : List Call,
      (propagateCalibration (moveCalibrationPoint x dx dy w)).sent =
        w.sent ++ Call.moveCalibrationPoint w.view._camera dx dy :: extra
      ∧ moveCalls extra = []
      ∧ (propagateCalibration (moveCalibrationPoint x dx dy w)).view = w.view := by
  rw [propagateCalibration_eq]
  refine ⟨[Call.setObject w.view._camera "eye"
      ((moveCalibrationPoint x dx dy w).getAttribute w.view._camera "eye"),
    Call.setObject w.view._camera "target"
      ((moveCalibrationPoint x dx dy w).getAttribute w.view._camera "target"),
    Call.setObject w.view._camera "up"
      ((moveCalibrationPoint x dx dy w).getAttribute w.view._camera "up"),
    Call.setObject w.view._camera "fov"
      ((moveCalibrationPoint x dx dy w).getAttribute w.view._camera "fov"),
    Call.setObject w.view._camera "principalPoint"
      ((moveCalibrationPoint x dx dy w).getAttribute w.view._camera "principalPoint")],
    ?_, ?_, rfl⟩
  · simp [moveCalibrationPoint]
  · simp [moveCalls, Call.attr]

theorem arrowKey_sent (x : Externals) (io : KeyInput) (key : Nat) (dx dy : ℚ) (w : World) :
    ∃ extra : List Call,
      (arrowKey x io key dx dy w).sent = w.sent ++ extra
      ∧ moveCalls extra =
          (if io.KeysDownDuration key = 0 then [Call.moveCalibrationPoint w.view._camera dx dy]
           else [])
      ∧ (arrowKey x io key dx dy w).view = w.view := by
  unfold arrowKey
  by_cases h : io.KeysDownDuration key = 0
  · obtain ⟨extra, h1, h2, h3⟩ := nudge_sent x dx dy w
    refine ⟨Call.moveCalibrationPoint w.view._camera dx dy :: extra, ?_, ?_, ?_⟩
    · rw [if_pos h, h1]
    · rw [if_pos h]
      have : moveCalls (Call.moveCalibrationPoint w.view._camera dx dy :: extra)
          = Call.moveCalibrationPoint w.view._camera dx dy :: moveCalls extra := by
        simp [moveCalls, Call.attr]
      rw [this, h2]
    · rw [if_pos h, h3]
  · exact ⟨[], by rw [if_neg h, List.append_nil], by rw [if_neg h]; rfl, by rw [if_neg h]⟩

theorem moveCalls_append (a b : List Call) : moveCalls (a ++ b) = moveCalls a ++ moveCalls b := by
  simp [moveCalls]

/-- The nudges recorded by the arrow-key branch. -/
theorem arrowKeys_moves (x : Externals) (io : KeyInput) (w : World) :
    moveCalls (emitted w (arrowKeys x io w)) =
      (if io.KeysDownDuration 262 = 0 then
          [Call.moveCalibrationPoint w.view._camera (keyDelta io) 0] else [])
        ++ (if io.KeysDownDuration 263 = 0 then
          [Call.moveCalibrationPoint w.view._camera (-keyDelta io) 0] else [])
        ++ (if io.KeysDownDuration 264 = 0 then
          [Call.moveCalibrationPoint w.view._camera 0 (-keyDelta io)] else [])
        ++ (if io.KeysDownDuration 265 = 0 then
          [Call.moveCalibrationPoint w.view._camera 0 (keyDelta io)] else []) := by
  obtain ⟨e1, s1, m1, v1⟩ := arrowKey_sent x io 262 (keyDelta io) 0 w
  obtain ⟨e2, s2, m2, v2⟩ := arrowKey_sent x io 263 (-keyDelta io) 0
    (arrowKey x io 262 (keyDelta io) 0 w)
  obtain ⟨e3, s3, m3, v3⟩ := arrowKey_sent x io 264 0 (-keyDelta io)
    (arrowKey x io 263 (-keyDelta io) 0 (arrowKey x io 262 (keyDelta io) 0 w))
  obtain ⟨e4, s4, m4, v4⟩ := arrowKey_sent x io 265 0 (keyDelta io)
    (arrowKey x io 264 0 (-keyDelta io)
      (arrowKey x io 263 (-keyDelta io) 0 (arrowKey x io 262 (keyDelta io) 0 w)))
  have hsent : (arrowKeys x io w).sent = w.sent ++ (e1 ++ e2 ++ e3 ++ e4) := by
    show (arrowKey x io 265 0 (keyDelta io) _).sent = _
    rw [s4, s3, s2, s1]
    simp only [List.append_assoc]
  rw [emitted_append w _ _ hsent, moveCalls_append, moveCalls_append, moveCalls_append,
    m1, m2, m3, m4, v3, v2, v1]

/-- C14: on a tick of `processKeyEvents` that reaches the arrow-key branch
(view hovered, none of the keys space, A, C, H, O, V, Z just pressed), the
nudges are, in order and each only if its key was just pressed:
`(delta, 0)` for key 262 (right), `(-delta, 0)` for key 263 (left),
`(0, -delta)` for key 264 and `(0, delta)` for key 265, where `delta` is
`0.1` when Shift is held, with or without Ctrl, `10` when Ctrl is held
without Shift, and `1` when neither is held. -/
theorem arrowKeys_nudge (x : Externals) (io : KeyInput) (w : World)
    (hover : io.IsItemHoveredRect = true)
    (hkeys : ∀ k ∈ [32, 65, 67, 72, 79, 86, 90], io.pressed k = false) :
    moveCalls (emitted w (processKeyEvents x io w)) =
        (if io.KeysDownDuration 262 = 0 then
            [Call.moveCalibrationPoint w.view._camera (keyDelta io) 0] else [])
          ++ (if io.KeysDownDuration 263 = 0 then
            [Call.moveCalibrationPoint w.view._camera (-keyDelta io) 0] else [])
          ++ (if io.KeysDownDuration 264 = 0 then
            [Call.moveCalibrationPoint w.view._camera 0 (-keyDelta io)] else [])
          ++ (if io.KeysDownDuration 265 = 0 then
            [Call.moveCalibrationPoint w.view._camera 0 (keyDelta io)] else [])
      ∧ (io.KeyShift = true → keyDelta io = 1 / 10)
      ∧ (io.KeyShift = false → io.KeyCtrl = true → keyDelta io = 10)
      ∧ (io.KeyShift = false → io.KeyCtrl = false → keyDelta io = 1) := by
  have hbranch : processKeyEvents x io w = arrowKeys x io w := by
    unfold processKeyEvents
    simp [hover, hkeys 32 (by simp), hkeys 65 (by simp), hkeys 67 (by simp),
      hkeys 72 (by simp), hkeys 79 (by simp), hkeys 86 (by simp), hkeys 90 (by simp)]
  refine ⟨?_, ?_, ?_, ?_⟩
  · rw [hbranch]
    exact arrowKeys_moves x io w
  · intro hs
    simp [keyDelta, hs]
  · intro hs hc
    simp [keyDelta, hs, hc]
  · intro hs hc
    simp [keyDelta, hs, hc]

/-- Instance of C14: Shift held, right arrow just pressed, camera `1`
selected. -/
theorem arrowKeys_nudge_witness :
    moveCalls (emitted (sampleWorld 1 [])
        (processKeyEvents sampleExternals sampleShiftRight (sampleWorld 1 [])))
        = [Call.moveCalibrationPoint 1 (keyDelta sampleShiftRight) 0]
      ∧ keyDelta sampleShiftRight = 1 / 10 := by
  have key := arrowKeys_nudge sampleExternals sampleShiftRight (sampleWorld 1 []) rfl
    (by decide)
  refine ⟨?_, key.2.1 rfl⟩
  have h := key.1
  simp only [sampleShiftRight] at h ⊢
  norm_num at h
  exact h

theorem doCalibration_sent (solve : (String → Values) → (String → Values)) (w : World) :
    ∃ extra : List Call,
      (doCalibration solve w).sent = w.sent ++ extra ∧ moveCalls extra = [] := by
  unfold doCalibration
  rw [propagateCalibration_eq]
  exact ⟨_, rfl, by simp [moveCalls, Call.attr]⟩

/-- The button blocks of `processJoystickState` record no nudge and keep the
selection and the pending axes. -/
theorem joystickButtons_sent (x : Externals) (w : World) :
    ∃ extra : List Call,
      (joystickButtons6 x (joystickButtons4 x w)).sent = w.sent ++ extra
      ∧ moveCalls extra = []
      ∧ (joystickButtons6 x (joystickButtons4 x w)).view._camera = w.view._camera
      ∧ (joystickButtons6 x (joystickButtons4 x w)).view._joyAxes = w.view._joyAxes := by
  have h4 : ∃ e4 : List Call, (joystickButtons4 x w).sent = w.sent ++ e4 ∧ moveCalls e4 = []
      ∧ (joystickButtons4 x w).view._camera = w.view._camera
      ∧ (joystickButtons4 x w).view._joyAxes = w.view._joyAxes := by
    unfold joystickButtons4
    split_ifs
    · exact ⟨_, rfl, by simp [moveCalls, Call.attr], rfl, rfl⟩
    · exact ⟨_, rfl, by simp [moveCalls, Call.attr], rfl, rfl⟩
    · exact ⟨[], (List.append_nil _).symm, rfl, rfl, rfl⟩
    · obtain ⟨e, he, hm⟩ := doCalibration_sent x.doCalibration w
      exact ⟨e, he, hm, by rw [doCalibration_view], by rw [doCalibration_view]⟩
    · exact ⟨[], (List.append_nil _).symm, rfl, rfl, rfl⟩
    · exact ⟨[], (List.append_nil _).symm, rfl, rfl, rfl⟩
  obtain ⟨e4, s4, m4, c4, a4⟩ := h4
  have h6 : ∀ v : World, ∃ e6 : List Call, (joystickButtons6 x v).sent = v.sent ++ e6
      ∧ moveCalls e6 = [] ∧ (joystickButtons6 x v).view._camera = v.view._camera
      ∧ (joystickButtons6 x v).view._joyAxes = v.view._joyAxes := by
    intro v
    unfold joystickButtons6
    split_ifs
    · refine ⟨_, (showAllCalibrationPoints_sent _ _ v).1, by simp [moveCalls, Call.attr],
        (showAllCalibrationPoints_sent _ _ v).2.2.2.1, ?_⟩
      unfold showAllCalibrationPoints
      simp only [setObject, World.emit]
      split_ifs <;> rfl
    · exact ⟨[], (List.append_nil _).symm, rfl, rfl, rfl⟩
    · exact ⟨[], (List.append_nil _).symm, rfl, rfl, rfl⟩
    · exact ⟨[], (List.append_nil _).symm, rfl, rfl, rfl⟩
  obtain ⟨e6, s6, m6, c6, a6⟩ := h6 (joystickButtons4 x w)
  exact ⟨e4 ++ e6, by rw [s6, s4, List.append_assoc], by rw [moveCalls_append, m4, m6]; rfl,
    by rw [c6, c4], by rw [a6, a4]⟩

theorem joystickAxes_sent (x : Externals) (v : World) (hlen : v.view._joyAxes.length ≥ 2)
    (hmove : v.view._joyAxes.getD 0 0 ≠ 0 ∨ -(v.view._joyAxes.getD 1 0) ≠ 0) :
    ∃ en : List Call,
      (joystickAxes x v).sent = v.sent ++ Call.moveCalibrationPoint v.view._camera 0 0 :: en
      ∧ moveCalls en = [] := by
  obtain ⟨en, sn, mn, _⟩ := nudge_sent x 0 0 v
  refine ⟨en, ?_, mn⟩
  unfold joystickAxes
  rw [if_pos hlen]
  simp only [hmove, if_true]
  exact sn

/-- The nudge made by `processJoystickState` when the axes ask for one: it is
`(0, 0)`, whatever the axes and the speed. -/
theorem processJoystickState_moves (x : Externals) (w : World)
    (hlen : w.view._joyAxes.length ≥ 2)
    (hmove : w.view._joyAxes.getD 0 0 ≠ 0 ∨ -(w.view._joyAxes.getD 1 0) ≠ 0) :
    moveCalls (emitted w (processJoystickState x w))
      = [Call.moveCalibrationPoint w.view._camera 0 0] := by
  obtain ⟨eb, sb, mb, cb, ab⟩ := joystickButtons_sent x w
  have hlen' : (joystickRemember (joystickButtons6 x (joystickButtons4 x w))).view._joyAxes.length
      ≥ 2 := by
    show (joystickButtons6 x (joystickButtons4 x w)).view._joyAxes.length ≥ 2
    rw [ab]
    exact hlen
  have hmove' : (joystickRemember (joystickButtons6 x (joystickButtons4 x w))).view._joyAxes.getD 0 0
        ≠ 0
      ∨ -((joystickRemember (joystickButtons6 x (joystickButtons4 x w))).view._joyAxes.getD 1 0)
        ≠ 0 := by
    show (joystickButtons6 x (joystickButtons4 x w)).view._joyAxes.getD 0 0 ≠ 0
      ∨ -((joystickButtons6 x (joystickButtons4 x w)).view._joyAxes.getD 1 0) ≠ 0
    rw [ab]
    exact hmove
  obtain ⟨en, sn, mn⟩ := joystickAxes_sent x
    (joystickRemember (joystickButtons6 x (joystickButtons4 x w))) hlen' hmove'
  have hsent : (processJoystickState x w).sent
      = w.sent ++ (eb ++ Call.moveCalibrationPoint w.view._camera 0 0 :: en) := by
    show (joystickAxes x (joystickRemember (joystickButtons6 x (joystickButtons4 x w)))).sent = _
    rw [sn]
    show (joystickButtons6 x (joystickButtons4 x w)).sent
      ++ Call.moveCalibrationPoint (joystickButtons6 x (joystickButtons4 x w)).view._camera 0 0
        :: en = _
    rw [sb, cb, List.append_assoc]
  rw [emitted_append w _ _ hsent, moveCalls_append, mb]
  have : moveCalls (Call.moveCalibrationPoint w.view._camera 0 0 :: en)
      = Call.moveCalibrationPoint w.view._camera 0 0 :: moveCalls en := by
    simp [moveCalls, Call.attr]
  rw [this, mn]
  rfl

/-- C15 fails on the code: with axes `(1/2, -1/4)` and the speed button
(button 2) held, `speed` is `10`, so the nudge of the claim is `(5, 5/2)`,
but the nudge made is `(0, 0)`. -/
theorem processJoystickState_nudge_is_zero :
    joystickSpeed (sampleJoystickWorld [1 / 2, -1 / 4] [0, 0, 1, 0]) = 10
      ∧ moveCalls (emitted (sampleJoystickWorld [1 / 2, -1 / 4] [0, 0, 1, 0])
          (processJoystickState sampleExternals (sampleJoystickWorld [1 / 2, -1 / 4] [0, 0, 1, 0])))
          = [Call.moveCalibrationPoint 1 0 0]
      ∧ Call.moveCalibrationPoint 1 0 0
          ≠ Call.moveCalibrationPoint 1 (10 * (1 / 2)) (-(10 * (-1 / 4))) := by
  refine ⟨?_, ?_, ?_⟩
  · simp [joystickSpeed, sampleJoystickWorld, buttonEdge, buttonAt]
  · exact processJoystickState_moves sampleExternals
      (sampleJoystickWorld [1 / 2, -1 / 4] [0, 0, 1, 0]) (by simp [sampleJoystickWorld])
      (by simp [sampleJoystickWorld])
  · simp

/-- C16: when no joystick data is pending (no axes, no buttons),
`processJoystickState` records no call, moves no calibration point and
changes nothing in the widget but `_joyButtonsPrevious`, which becomes empty:
selection, history and flags are unchanged.  After every call the pending
axes and buttons are empty, so a second call right after records nothing. -/
theorem processJoystickState_idle (x : Externals) (w : World) :
    (w.view._joyAxes = [] → w.view._joyButtons = [] →
        processJoystickState x w = { w with view := { w.view with _joyButtonsPrevious := [] } })
      ∧ (processJoystickState x w).view._joyAxes = []
      ∧ (processJoystickState x w).view._joyButtons = []
      ∧ (processJoystickState x (processJoystickState x w)).sent
          = (processJoystickState x w).sent
      ∧ (processJoystickState x (processJoystickState x w)).getAttribute
          = (processJoystickState x w).getAttribute := by
  have hidle : ∀ v : World, v.view._joyAxes = [] → v.view._joyButtons = [] →
      processJoystickState x v = { v with view := { v.view with _joyButtonsPrevious := [] } } := by
    intro v ha hb
    simp [processJoystickState, joystickButtons4, joystickButtons6, joystickAxes,
      joystickRemember, ha, hb]
  have haxes : (processJoystickState x w).view._joyAxes = [] := rfl
  have hbuttons : (processJoystickState x w).view._joyButtons = [] := rfl
  refine ⟨hidle w, haxes, hbuttons, ?_, ?_⟩
  · rw [hidle (processJoystickState x w) haxes hbuttons]
  · rw [hidle (processJoystickState x w) haxes hbuttons]

/-- Instance of C16: the sample scene with nothing pending. -/
theorem processJoystickState_idle_witness :
    processJoystickState sampleExternals (sampleJoystickWorld [] [])
      = { sampleJoystickWorld [] [] with
          view := { (sampleJoystickWorld [] []).view with _joyButtonsPrevious := [] } } :=
  (processJoystickState_idle sampleExternals (sampleJoystickWorld [] [])).1 rfl rfl

/-! ## Mouse clicks on the view -/

/-- With the left button down on the hovered view, `processMouseEvents` is the
vertex-selection block. -/
theorem processMouseEvents_leftButton (io : MouseInput) (w : World)
    (hover : io.IsItemHoveredRect = true) (hdown : io.MouseDown0 = true) :
    processMouseEvents io w = mouseLeftButton io w := by
  unfold processMouseEvents
  simp [hover, hdown]

/-- C17: on a plain left click on the hovered view (no Ctrl, no Shift) with a
camera other than the overview camera selected, the call records exactly one
command: `addCalibrationPoint` with the picked point when the pick has three
components, `deselectCalibrationPoint` otherwise; the attributes of the
cameras, the history and the selection are unchanged. -/
theorem plain_left_click (io : MouseInput) (w : World)
    (hover : io.IsItemHoveredRect = true) (hdown : io.MouseDown0 = true)
    (hclick : io.MouseClicked0 = true) (hctrl : io.KeyCtrl = false)
    (hshift : io.KeyShift = false) (hsel : w.view._camera ≠ w.view._guiCamera) :
    ((w.pickVertexOrCalibrationPoint w.view._camera (mousePos io w).1 (mousePos io w).2).length
          = 3 →
        emitted w (processMouseEvents io w) =
          [Call.setObject w.view._camera "addCalibrationPoint"
            (w.pickVertexOrCalibrationPoint w.view._camera (mousePos io w).1 (mousePos io w).2)])
      ∧ ((w.pickVertexOrCalibrationPoint w.view._camera (mousePos io w).1
            (mousePos io w).2).length ≠ 3 →
        emitted w (processMouseEvents io w) =
          [Call.setObject w.view._camera "deselectCalibrationPoint" []])
      ∧ (processMouseEvents io w).getAttribute = w.getAttribute
      ∧ (processMouseEvents io w).view._previousCameraParameters
          = w.view._previousCameraParameters
      ∧ (processMouseEvents io w).view._camera = w.view._camera := by
  rw [processMouseEvents_leftButton io w hover hdown]
  unfold mouseLeftButton
  simp only [hsel, hclick, hctrl, hshift, if_false, Bool.false_eq_true, false_and, and_true,
    if_true, setObject, World.emit]
  refine ⟨?_, ?_, ?_, ?_, ?_⟩
  · intro h3
    rw [if_pos h3, Values.three_of_length h3]
    simp [emitted]
  · intro h3
    rw [if_neg h3]
    simp [emitted]
  · split_ifs <;> rfl
  · split_ifs <;> rfl
  · split_ifs <;> rfl

/-- Instance of C17: a click at `(1/4, 1/4)` of the sample view, where the
pick hits `(1, 2, 3)`. -/
theorem plain_left_click_witness :
    emitted samplePickWorld (processMouseEvents (sampleLeftClick false false) samplePickWorld)
      = [Call.setObject samplePickWorld.view._camera "addCalibrationPoint"
          (samplePickWorld.pickVertexOrCalibrationPoint samplePickWorld.view._camera
            (mousePos (sampleLeftClick false false) samplePickWorld).1
            (mousePos (sampleLeftClick false false) samplePickWorld).2)] :=
  (plain_left_click (sampleLeftClick false false) samplePickWorld rfl rfl rfl rfl rfl
    (by decide)).1
    (by norm_num [samplePickWorld, sampleLeftClick, mousePos])

/-- C18: with the left button down on the hovered view.  With a camera other
than the overview camera selected: a click with Ctrl, with or without Shift,
records `removeCalibrationPoint` with the picked calibration point when the
pick has three components and nothing otherwise; when that case does not
apply and Shift is held, the call records `setCalibrationPoint` at
`(2x - 1, 2y - 1)`, for `(x, y)` the view-relative mouse position, which
sends `[0,1] × [0,1]` onto `[-1,1] × [-1,1]`.  With the overview camera
selected the call returns the world unchanged. -/
theorem modified_left_click (io : MouseInput) (w : World)
    (hover : io.IsItemHoveredRect = true) (hdown : io.MouseDown0 = true) :
    (w.view._camera ≠ w.view._guiCamera → io.KeyCtrl = true → io.MouseClicked0 = true →
        ((w.pickCalibrationPoint w.view._camera (mousePos io w).1 (mousePos io w).2).length = 3 →
          emitted w (processMouseEvents io w) =
            [Call.setObject w.view._camera "removeCalibrationPoint"
              (w.pickCalibrationPoint w.view._camera (mousePos io w).1 (mousePos io w).2)])
        ∧ ((w.pickCalibrationPoint w.view._camera (mousePos io w).1 (mousePos io w).2).length
              ≠ 3 →
          emitted w (processMouseEvents io w) = []))
      ∧ (w.view._camera ≠ w.view._guiCamera →
          ¬ (io.KeyCtrl = true ∧ io.MouseClicked0 = true) → io.KeyShift = true →
          emitted w (processMouseEvents io w) =
            [Call.setObject w.view._camera "setCalibrationPoint"
              [Value.real (2 * (mousePos io w).1 - 1), Value.real (2 * (mousePos io w).2 - 1)]])
      ∧ (∀ t : ℚ, 0 ≤ t → t ≤ 1 → -1 ≤ 2 * t - 1 ∧ 2 * t - 1 ≤ 1)
      ∧ (∀ u : ℚ, -1 ≤ u → u ≤ 1 → ∃ t : ℚ, 0 ≤ t ∧ t ≤ 1 ∧ 2 * t - 1 = u)
      ∧ (w.view._camera = w.view._guiCamera → processMouseEvents io w = w) := by
  rw [processMouseEvents_leftButton io w hover hdown]
  refine ⟨?_, ?_, ?_, ?_, ?_⟩
  · intro hsel hctrl hclick
    unfold mouseLeftButton
    simp only [hsel, hctrl, hclick, if_false, and_self, if_true, setObject, World.emit]
    constructor
    · intro h3
      rw [if_pos h3, Values.three_of_length h3]
      simp [emitted]
    · intro h3
      rw [if_neg h3]
      simp [emitted]
  · intro hsel hnot hshift
    unfold mouseLeftButton
    simp only [hsel, hnot, hshift, if_false, if_true, setObject, World.emit]
    simp [emitted, mul_comm]
  · intro t h0 h1
    constructor <;> linarith
  · intro u h0 h1
    exact ⟨(u + 1) / 2, by linarith, by linarith, by ring⟩
  · intro hsel
    unfold mouseLeftButton
    rw [if_pos hsel]

/-- Instance of C18: a click with Ctrl and Shift at `(1/4, 1/4)` of the sample
view, where the pick hits `(1, 2, 3)`. -/
theorem modified_left_click_witness :
    emitted samplePickWorld (processMouseEvents (sampleLeftClick true true) samplePickWorld)
      = [Call.setObject samplePickWorld.view._camera "removeCalibrationPoint"
          (samplePickWorld.pickCalibrationPoint samplePickWorld.view._camera
            (mousePos (sampleLeftClick true true) samplePickWorld).1
            (mousePos (sampleLeftClick true true) samplePickWorld).2)] :=
  ((modified_left_click (sampleLeftClick true true) samplePickWorld rfl rfl).1
    (by decide) rfl rfl).1
    (by norm_num [samplePickWorld, sampleLeftClick, mousePos])

/-! ## Dragging the captured view -/

/-- The view controls keep the widget. -/
theorem captured_view_eq (io : MouseInput) (w : World) :
    (mouseViewControls io w).view = w.view := by
  unfold mouseViewControls
  simp only [setObject, World.emit]
  split_ifs <;> rfl

/-- C19 as stated fails: in the sample scene, a drag by `(10, 20)` with no
modifier, the right button held over the view, records two commands, the
first of which sets `up` to `(0, 0, 1)` before the rotation. -/
theorem captured_drag_counterexample :
    (emitted (sampleWorld 1 [])
        (processMouseEvents (sampleRightDrag 1 true false false) (sampleWorld 1 []))).length = 2
      ∧ (emitted (sampleWorld 1 [])
        (processMouseEvents (sampleRightDrag 1 true false false) (sampleWorld 1 []))).head?
        = some (Call.setObject 1 "up" [Value.real 0, Value.real 0, Value.real 1]) := by
  have h : processMouseEvents (sampleRightDrag 1 true false false) (sampleWorld 1 [])
      = { sampleWorld 1 [] with
          view := { (sampleWorld 1 []).view with viewCaptured := true },
          sent := [Call.setObject 1 "up" [Value.real 0, Value.real 0, Value.real 1],
            Call.setObject 1 "rotateAroundTarget"
              [Value.real (10 / 100), Value.real (20 / 100), Value.int 0]] } := by
    simp [processMouseEvents, sampleRightDrag, sampleWorld, mouseWheel, mouseRightClick,
      mouseCapture, mouseViewControls, setObject, World.emit]
  rw [h]
  exact ⟨rfl, rfl⟩

/-- C19, amended: while the view is captured, a drag by `(dx, dy)` with stored
distance `d` records: with no modifier, first `up = (0, 0, 1)` and then one
rotation by `(dx/100, dy/100, 0)`, around the stored pivot when it has three
components and around the target otherwise; with Shift only, one `pan` by
`(-dx*d/100, dy*d/100, 0)`; with Ctrl only, one `forward` by `dy*d/100`; with
both, nothing.  The rotation, the pan and the dolly go by `setObject` to a
registered camera and by `setAttribute` to the overview camera; the widget
and the attributes of the cameras are unchanged. -/
theorem captured_drag_edits (io : MouseInput) (w : World) (hcap : w.view.viewCaptured = true) :
    (io.KeyCtrl = false → io.KeyShift = false → w.view._newTarget.length = 3 →
        emitted w (mouseViewControls io w) =
          [Call.setObject w.view._camera "up" [Value.real 0, Value.real 0, Value.real 1],
           setOnSelected w "rotateAroundPoint"
             [Value.real (io.MouseDelta.1 / 100), Value.real (io.MouseDelta.2 / 100), Value.int 0,
              Value.real (w.view._newTarget.nth 0).asFloat,
              Value.real (w.view._newTarget.nth 1).asFloat,
              Value.real (w.view._newTarget.nth 2).asFloat]])
      ∧ (io.KeyCtrl = false → io.KeyShift = false → w.view._newTarget.length ≠ 3 →
        emitted w (mouseViewControls io w) =
          [Call.setObject w.view._camera "up" [Value.real 0, Value.real 0, Value.real 1],
           setOnSelected w "rotateAroundTarget"
             [Value.real (io.MouseDelta.1 / 100), Value.real (io.MouseDelta.2 / 100),
              Value.int 0]])
      ∧ (io.KeyCtrl = false → io.KeyShift = true →
        emitted w (mouseViewControls io w) =
          [if w.view._camera ≠ w.view._guiCamera then
            Call.setObject w.view._camera "pan"
              [Value.real (-(io.MouseDelta.1 * w.view._newTargetDistance) / 100),
               Value.real (io.MouseDelta.2 * w.view._newTargetDistance / 100), Value.real 0]
           else
            Call.setAttribute w.view._camera "pan"
              [Value.real (-(io.MouseDelta.1 * w.view._newTargetDistance) / 100),
               Value.real (io.MouseDelta.2 * w.view._newTargetDistance / 100), Value.int 0]])
      ∧ (io.KeyCtrl = true → io.KeyShift = false →
        emitted w (mouseViewControls io w) =
          [setOnSelected w "forward"
            [Value.real (io.MouseDelta.2 * w.view._newTargetDistance / 100)]])
      ∧ (io.KeyCtrl = true → io.KeyShift = true → emitted w (mouseViewControls io w) = [])
      ∧ (mouseViewControls io w).view = w.view
      ∧ (mouseViewControls io w).getAttribute = w.getAttribute := by
  refine ⟨?_, ?_, ?_, ?_, ?_, ?_, ?_⟩
  · intro hc hs h3
    by_cases hg : w.view._camera = w.view._guiCamera <;>
      simp [mouseViewControls, setOnSelected, hcap, hc, hs, h3, hg, setObject, World.emit,
        emitted]
  · intro hc hs h3
    by_cases hg : w.view._camera = w.view._guiCamera <;>
      simp [mouseViewControls, setOnSelected, hcap, hc, hs, h3, hg, setObject, World.emit,
        emitted]
  · intro hc hs
    by_cases hg : w.view._camera = w.view._guiCamera <;>
      simp [mouseViewControls, hcap, hc, hs, hg, setObject, World.emit, emitted]
  · intro hc hs
    by_cases hg : w.view._camera = w.view._guiCamera <;>
      simp [mouseViewControls, setOnSelected, hcap, hc, hs, hg, setObject, World.emit, emitted]
  · intro hc hs
    simp [mouseViewControls, hcap, hc, hs, emitted]
  · unfold mouseViewControls
    simp only [setObject, World.emit]
    split_ifs <;> rfl
  · unfold mouseViewControls
    simp only [setObject, World.emit]
    split_ifs <;> rfl

/-- Instance of the amended C19: a drag by `(10, 20)` with Ctrl only, camera
`1` selected, stored distance 3. -/
theorem captured_drag_edits_witness :
    emitted sampleCapturedWorld
        (mouseViewControls (sampleRightDrag 1 true true false) sampleCapturedWorld)
      = [setOnSelected sampleCapturedWorld "forward"
          [Value.real ((sampleRightDrag 1 true true false).MouseDelta.2
            * sampleCapturedWorld.view._newTargetDistance / 100)]] :=
  (captured_drag_edits (sampleRightDrag 1 true true false) sampleCapturedWorld rfl).2.2.2.1
    rfl rfl

/-- The captured state after a tick that reaches the capture block: the right
button is held and the pointer hovers the view or the view was captured. -/
theorem processMouseEvents_viewCaptured (io : MouseInput) (w : World)
    (h : io.ReachesCapture) :
    (processMouseEvents io w).view.viewCaptured = true ↔
      io.MouseDownDuration1 > 0 ∧ (io.IsItemHovered = true ∨ w.view.viewCaptured = true) := by
  have hview : (processMouseEvents io w).view.viewCaptured
      = (mouseCapture io w).view.viewCaptured := by
    unfold processMouseEvents
    rw [if_neg h]
    rw [(captured_view_eq io _)]
    by_cases hr : io.IsItemHoveredRect = true
    · simp only [hr, if_true]
      unfold mouseCapture mouseWheel mouseRightClick
      simp only [setObject, World.emit]
      split_ifs <;> rfl
    · simp [hr]
  rw [hview]
  unfold mouseCapture
  by_cases hd : io.MouseDownDuration1 > 0
  · by_cases hh : io.IsItemHovered = true
    · simp [hd, hh]
    · simp [hd, hh]
  · by_cases hc : w.view.viewCaptured = true
    · simp [hd, hc]
    · simp [hd, hc]

theorem runMouseEvents_concat (ios : List MouseInput) (io : MouseInput) (w : World) :
    runMouseEvents (ios ++ [io]) w = processMouseEvents io (runMouseEvents ios w) := by
  simp [runMouseEvents, List.foldl_append]

/-- C20 as stated fails: the right button is pressed and held with the
pointer outside the view (two ticks, view not captured), then the pointer
moves over the view with the button still held, and the view is captured.
Moreover, on a tick with the left button down on the view, the view stays
captured although the right button is no longer held. -/
theorem viewCaptured_counterexample :
    (runMouseEvents [sampleRightDrag 0 false false false, sampleRightDrag 1 false false false]
        (sampleWorld 1 [])).view.viewCaptured = false
      ∧ (runMouseEvents [sampleRightDrag 0 false false false, sampleRightDrag 1 false false false,
          sampleRightDrag 2 true false false] (sampleWorld 1 [])).view.viewCaptured = true
      ∧ (sampleLeftClick false false).MouseDownDuration1 = -1
      ∧ (runMouseEvents [sampleRightDrag 0 false false false, sampleRightDrag 1 false false false,
          sampleRightDrag 2 true false false, sampleLeftClick false false]
          (sampleWorld 1 [])).view.viewCaptured = true := by
  refine ⟨?_, ?_, rfl, ?_⟩ <;>
    simp [runMouseEvents, processMouseEvents, sampleRightDrag, sampleLeftClick, mouseCapture,
      mouseViewControls, mouseWheel, mouseRightClick, mouseLeftButton, setObject, World.emit,
      sampleWorld]

/-- C20, amended: over any sequence of ticks of `processMouseEvents`, none of
them ended by the left button being down on the view, and starting with the
view not captured, the view is captured after the last tick exactly when, at
some tick of the sequence, the right button had been held for a positive
duration while the pointer hovered the view, and the right button has been
held at every tick since.  So the view is captured only while the right
button is held, wherever the press started. -/
theorem viewCaptured_trace (ios : List MouseInput) (w : World)
    (hstart : w.view.viewCaptured = false) (hall : ∀ io ∈ ios, io.ReachesCapture) :
    (runMouseEvents ios w).view.viewCaptured = true ↔
      ∃ (pre : List MouseInput) (io : MouseInput) (post : List MouseInput),
        ios = pre ++ io :: post ∧ io.IsItemHovered = true ∧ io.MouseDownDuration1 > 0
          ∧ ∀ j ∈ post, j.MouseDownDuration1 > 0 := by
  induction ios using List.reverseRecOn with
  | nil =>
    simp [runMouseEvents, hstart]
  | append_singleton init last ih =>
    have hlast : last.ReachesCapture := hall last (by simp)
    have hinit : ∀ io ∈ init, io.ReachesCapture := fun io hio => hall io (by simp [hio])
    rw [runMouseEvents_concat, processMouseEvents_viewCaptured last _ hlast, ih hinit]
    constructor
    · rintro ⟨hd, hh | ⟨pre, io, post, rfl, hio, hdio, hpost⟩⟩
      · exact ⟨init, last, [], rfl, hh, hd, fun j hj => absurd hj (List.not_mem_nil j)⟩
      · refine ⟨pre, io, post ++ [last], by simp, hio, hdio, ?_⟩
        intro j hj
        rcases List.mem_append.mp hj with h1 | h2
        · exact hpost j h1
        · rw [List.mem_singleton.mp h2]
          exact hd
    · rintro ⟨pre, io, post, heq, hio, hdio, hpost⟩
      rcases List.eq_nil_or_concat post with hnil | ⟨post', b, hb⟩
      · subst hnil
        have := List.append_inj' heq rfl
        obtain ⟨_, h2⟩ := this
        have hl : last = io := by simpa using h2
        subst hl
        exact ⟨hdio, Or.inl hio⟩
      · rw [List.concat_eq_append] at hb
        subst hb
        have heq' : init ++ [last] = (pre ++ io :: post') ++ [b] := by
          rw [heq]
          simp
        obtain ⟨h1, h2⟩ := List.append_inj' heq' rfl
        have hl : last = b := by simpa using h2
        subst hl
        refine ⟨hpost last (by simp), Or.inr ⟨pre, io, post', h1, hio, hdio, ?_⟩⟩
        intro j hj
        exact hpost j (by simp [hj])

/-- Instance of the amended C20: the press starts outside the view and the
pointer reaches the view on the third tick. -/
theorem viewCaptured_trace_witness :
    (runMouseEvents [sampleRightDrag 0 false false false, sampleRightDrag 1 false false false,
        sampleRightDrag 2 true false false] (sampleWorld 1 [])).view.viewCaptured = true ↔
      ∃ (pre : List MouseInput) (io : MouseInput) (post : List MouseInput),
        [sampleRightDrag 0 false false false, sampleRightDrag 1 false false false,
          sampleRightDrag 2 true false false] = pre ++ io :: post
          ∧ io.IsItemHovered = true ∧ io.MouseDownDuration1 > 0
          ∧ ∀ j ∈ post, j.MouseDownDuration1 > 0 :=
  viewCaptured_trace _ (sampleWorld 1 []) rfl (by
    intro io hio
    simp only [List.mem_cons, List.mem_singleton, List.not_mem_nil, or_false] at hio
    rcases hio with rfl | rfl | rfl <;> simp [MouseInput.ReachesCapture, sampleRightDrag])

/-! ## Visibility of a vertex -/

/-- When `projectAndCheckVisibility` returns true, in terms of the point after
the perspective division. -/
theorem projectAndCheckVisibility_visible (p : Vec4) (mvp : Mat4) (margin : ℚ) :
    (projectAndCheckVisibility p mvp margin).visible = true ↔
      (mvp.mulVec ⟨p.x, p.y, p.z, 1⟩).w ≠ 0
        ∧ 0 ≤ (mvp.mulVec ⟨p.x, p.y, p.z, 1⟩).z / (mvp.mulVec ⟨p.x, p.y, p.z, 1⟩).w
        ∧ |(mvp.mulVec ⟨p.x, p.y, p.z, 1⟩).x / (mvp.mulVec ⟨p.x, p.y, p.z, 1⟩).w| ≤ 1 + margin
        ∧ |(mvp.mulVec ⟨p.x, p.y, p.z, 1⟩).y / (mvp.mulVec ⟨p.x, p.y, p.z, 1⟩).w| ≤ 1 + margin
        ∧ |(mvp.mulVec ⟨p.x, p.y, p.z, 1⟩).z / (mvp.mulVec ⟨p.x, p.y, p.z, 1⟩).w| ≤ 1 + margin := by
  unfold projectAndCheckVisibility
  by_cases hw : (mvp.mulVec ⟨p.x, p.y, p.z, 1⟩).w = 0
  · by_cases hq : (mvp.mulVec ⟨p.x, p.y, p.z, 1⟩).z > 0
    · simp [hw, hq]
    · simp [hw, hq]
  · by_cases hz : 0 ≤ (mvp.mulVec ⟨p.x, p.y, p.z, 1⟩).z / (mvp.mulVec ⟨p.x, p.y, p.z, 1⟩).w
    · simp [hw, hz, and_assoc]
    · simp [hw, hz]

/-- A point whose projected `w` is zero is not visible. -/
theorem projectAndCheckVisibility_w_zero (p : Vec4) (mvp : Mat4) (margin : ℚ)
    (hw : (mvp.mulVec ⟨p.x, p.y, p.z, 1⟩).w = 0) :
    (projectAndCheckVisibility p mvp margin).visible = false := by
  cases h : (projectAndCheckVisibility p mvp margin).visible
  · rfl
  · exact absurd hw ((projectAndCheckVisibility_visible p mvp margin).mp h).1

/-- The point written back to `p` when the projected `w` is not zero. -/
theorem projectAndCheckVisibility_p (p : Vec4) (mvp : Mat4) (margin : ℚ)
    (hw : (mvp.mulVec ⟨p.x, p.y, p.z, 1⟩).w ≠ 0) :
    (projectAndCheckVisibility p mvp margin).p
      = some ⟨(mvp.mulVec ⟨p.x, p.y, p.z, 1⟩).x / (mvp.mulVec ⟨p.x, p.y, p.z, 1⟩).w,
          (mvp.mulVec ⟨p.x, p.y, p.z, 1⟩).y / (mvp.mulVec ⟨p.x, p.y, p.z, 1⟩).w,
          (mvp.mulVec ⟨p.x, p.y, p.z, 1⟩).z / (mvp.mulVec ⟨p.x, p.y, p.z, 1⟩).w, 1⟩ := by
  unfold projectAndCheckVisibility
  by_cases hz : 0 ≤ (mvp.mulVec ⟨p.x, p.y, p.z, 1⟩).z / (mvp.mulVec ⟨p.x, p.y, p.z, 1⟩).w
  · simp [hw, hz]
  · simp [hw, hz]

/-- The written point of a visible point. -/
theorem projectAndCheckVisibility_p_of_visible (p : Vec4) (mvp : Mat4) (margin : ℚ)
    (hv : (projectAndCheckVisibility p mvp margin).visible = true) :
    ∃ s : Vec4, (projectAndCheckVisibility p mvp margin).p = some s :=
  ⟨_, projectAndCheckVisibility_p p mvp margin
    ((projectAndCheckVisibility_visible p mvp margin).mp hv).1⟩

/-- C21: for every point `p`, matrix `mvp` with a non-zero projected `w` and
margin `m`, `projectAndCheckVisibility` returns true exactly when the point
`(x, y, z)` obtained by the perspective division has `z ≥ 0`, `|x| ≤ 1 + m`,
`|y| ≤ 1 + m` and `|z| ≤ 1 + m`; a point visible under a margin is visible
under every larger margin; and a point on the edge of the frustum
(`|x| ≤ 1`, `|y| ≤ 1`, one of them equal to `1`, `0 ≤ z ≤ 1`) is visible for
every margin `m ≥ 0`.  The point written back to `p` is `(x, y, z, 1)`. -/
theorem projectAndCheckVisibility_spec (p : Vec4) (mvp : Mat4) (m : ℚ)
    (hw : (mvp.mulVec ⟨p.x, p.y, p.z, 1⟩).w ≠ 0) :
    ((projectAndCheckVisibility p mvp m).visible = true ↔
        0 ≤ (mvp.mulVec ⟨p.x, p.y, p.z, 1⟩).z / (mvp.mulVec ⟨p.x, p.y, p.z, 1⟩).w
          ∧ |(mvp.mulVec ⟨p.x, p.y, p.z, 1⟩).x / (mvp.mulVec ⟨p.x, p.y, p.z, 1⟩).w| ≤ 1 + m
          ∧ |(mvp.mulVec ⟨p.x, p.y, p.z, 1⟩).y / (mvp.mulVec ⟨p.x, p.y, p.z, 1⟩).w| ≤ 1 + m
          ∧ |(mvp.mulVec ⟨p.x, p.y, p.z, 1⟩).z / (mvp.mulVec ⟨p.x, p.y, p.z, 1⟩).w| ≤ 1 + m)
      ∧ (∀ m' : ℚ, m ≤ m' → (projectAndCheckVisibility p mvp m).visible = true →
          (projectAndCheckVisibility p mvp m').visible = true)
      ∧ (0 ≤ m →
          |(mvp.mulVec ⟨p.x, p.y, p.z, 1⟩).x / (mvp.mulVec ⟨p.x, p.y, p.z, 1⟩).w| ≤ 1 →
          |(mvp.mulVec ⟨p.x, p.y, p.z, 1⟩).y / (mvp.mulVec ⟨p.x, p.y, p.z, 1⟩).w| ≤ 1 →
          (|(mvp.mulVec ⟨p.x, p.y, p.z, 1⟩).x / (mvp.mulVec ⟨p.x, p.y, p.z, 1⟩).w| = 1
            ∨ |(mvp.mulVec ⟨p.x, p.y, p.z, 1⟩).y / (mvp.mulVec ⟨p.x, p.y, p.z, 1⟩).w| = 1) →
          0 ≤ (mvp.mulVec ⟨p.x, p.y, p.z, 1⟩).z / (mvp.mulVec ⟨p.x, p.y, p.z, 1⟩).w →
          (mvp.mulVec ⟨p.x, p.y, p.z, 1⟩).z / (mvp.mulVec ⟨p.x, p.y, p.z, 1⟩).w ≤ 1 →
          (projectAndCheckVisibility p mvp m).visible = true)
      ∧ (projectAndCheckVisibility p mvp m).p
          = some ⟨(mvp.mulVec ⟨p.x, p.y, p.z, 1⟩).x / (mvp.mulVec ⟨p.x, p.y, p.z, 1⟩).w,
              (mvp.mulVec ⟨p.x, p.y, p.z, 1⟩).y / (mvp.mulVec ⟨p.x, p.y, p.z, 1⟩).w,
              (mvp.mulVec ⟨p.x, p.y, p.z, 1⟩).z / (mvp.mulVec ⟨p.x, p.y, p.z, 1⟩).w, 1⟩ := by
  refine ⟨?_, ?_, ?_, projectAndCheckVisibility_p p mvp m hw⟩
  · rw [projectAndCheckVisibility_visible]
    exact ⟨fun h => h.2, fun h => ⟨hw, h⟩⟩
  · intro m' hm hv
    rw [projectAndCheckVisibility_visible] at hv ⊢
    obtain ⟨h, h0, h1, h2, h3⟩ := hv
    exact ⟨h, h0, by linarith, by linarith, by linarith⟩
  · intro hm hx hy _ hz0 hz1
    rw [projectAndCheckVisibility_visible]
    refine ⟨hw, hz0, by linarith, by linarith, ?_⟩
    rw [abs_of_nonneg hz0]
    linarith

/-- Instance of C21: the point `(1, 1/2, 1/2)`, on the edge of the frustum of
the identity camera, with the margin `0`. -/
theorem projectAndCheckVisibility_spec_witness :
    (projectAndCheckVisibility ⟨1, 1 / 2, 1 / 2, 1⟩ Mat4.identity 0).visible = true :=
  (projectAndCheckVisibility_spec ⟨1, 1 / 2, 1 / 2, 1⟩ Mat4.identity 0
      (by norm_num [Mat4.mulVec, Mat4.identity, Vec4.dot])).2.2.1
    (le_refl 0)
    (by norm_num [Mat4.mulVec, Mat4.identity, Vec4.dot])
    (by norm_num [Mat4.mulVec, Mat4.identity, Vec4.dot, abs_le])
    (Or.inl (by norm_num [Mat4.mulVec, Mat4.identity, Vec4.dot]))
    (by norm_num [Mat4.mulVec, Mat4.identity, Vec4.dot])
    (by norm_num [Mat4.mulVec, Mat4.identity, Vec4.dot])

/-! ## The visibility accumulator -/

theorem range_three : List.range 3 = [0, 1, 2] := rfl

/-- The entry `i` after one invocation of the reset shader. -/
theorem resetVisibility_apply (n g : Nat) (a : Nat → Vec4) (i : Nat) :
    resetVisibility n g a i = if i / 3 = g then (if g < n / 3 then ⟨0, 0, 0, 0⟩ else a i) else a i := by
  unfold resetVisibility
  by_cases hg : g < n / 3
  · simp only [hg, if_true, range_three, List.foldl]
    by_cases hi : i / 3 = g
    · rw [if_pos hi]
      have : i = g * 3 + 0 ∨ i = g * 3 + 1 ∨ i = g * 3 + 2 := by omega
      rcases this with h | h | h <;> subst h <;> simp [Function.update]
    · rw [if_neg hi]
      have h0 : i ≠ g * 3 := by omega
      have h1 : i ≠ g * 3 + 1 := by omega
      have h2 : i ≠ g * 3 + 2 := by omega
      simp [Function.update, h0, h1, h2]
  · simp [hg]

/-- The entry `i` after a dispatch of a shader whose invocation `g` changes
only the entries of the triangle `g`, each from its own value. -/
theorem dispatch_apply (groups : Nat) (main : Nat → (Nat → Vec4) → (Nat → Vec4))
    (F : Nat → Vec4 → Vec4)
    (hmain : ∀ g a i, main g a i = if i / 3 = g then F g (a i) else a i)
    (a : Nat → Vec4) (i : Nat) :
    dispatch groups main a i = if i / 3 < groups * 32 * 32 then F (i / 3) (a i) else a i := by
  unfold dispatch
  generalize groups * 32 * 32 = n
  induction n with
  | zero => simp
  | succ n ih =>
    rw [List.range_succ, List.foldl_append, List.foldl_cons, List.foldl_nil, hmain, ih]
    by_cases h1 : i / 3 = n
    · have h2 : ¬ (i / 3 < n) := by omega
      have h3 : i / 3 < n + 1 := by omega
      rw [if_pos h1, if_neg h2, if_pos h3, h1]
    · by_cases h2 : i / 3 < n
      · have h3 : i / 3 < n + 1 := by omega
        rw [if_neg h1, if_pos h2, if_pos h3]
      · have h3 : ¬ (i / 3 < n + 1) := by omega
        rw [if_neg h1, if_neg h2, if_neg h3]

theorem allVerticesVisible_eq (mvp : Mat4) (vertex : Nat → Vec4) (g : Nat) :
    allVerticesVisible mvp vertex g =
      (vertexVisible mvp vertex g 0 && vertexVisible mvp vertex g 1
        && vertexVisible mvp vertex g 2) := by
  unfold allVerticesVisible
  simp only [range_three, List.foldl]
  cases vertexVisible mvp vertex g 0 <;> cases vertexVisible mvp vertex g 1 <;>
    cases vertexVisible mvp vertex g 2 <;> rfl

/-- The test of the visibility shader is `triangleCounted`. -/
theorem triangleCounted_iff (norm : Vec3 → ℚ) (vertex : Nat → Vec4) (g : Nat) (mvp : Mat4) :
    triangleCounted norm vertex g mvp = true ↔
      allVerticesVisible mvp vertex g = true
        ∧ zNonpos (projectedNormal norm mvp vertex g) = true := by
  rw [allVerticesVisible_eq]
  simp [triangleCounted, and_assoc]

/-- The entry `i` after one invocation of the visibility shader. -/
theorem computeVisibility_apply (norm : Vec3 → ℚ) (mvp : Mat4) (n : Nat) (vertex : Nat → Vec4)
    (g : Nat) (a : Nat → Vec4) (i : Nat) :
    computeVisibility norm mvp n vertex g a i =
      if i / 3 = g then
        (if g < n / 3 ∧ triangleCounted norm vertex g mvp = true then
          { a i with x := (a i).x + 1 } else a i)
      else a i := by
  unfold computeVisibility
  by_cases hg : g < n / 3
  · by_cases hc : triangleCounted norm vertex g mvp = true
    · have hc' := (triangleCounted_iff norm vertex g mvp).mp hc
      have hall := hc'.1
      rw [allVerticesVisible_eq] at hall
      simp only [Bool.and_eq_true] at hall
      obtain ⟨⟨hv0, hv1⟩, hv2⟩ := hall
      simp only [hg, hc, hc', and_self, if_true, range_three, List.foldl, hv0, hv1, hv2,
        Bool.true_eq_false, if_false]
      by_cases hi : i / 3 = g
      · rw [if_pos hi]
        have : i = g * 3 + 0 ∨ i = g * 3 + 1 ∨ i = g * 3 + 2 := by omega
        rcases this with h | h | h <;> subst h <;> simp [Function.update]
      · rw [if_neg hi]
        have h0 : i ≠ g * 3 := by omega
        have h1 : i ≠ g * 3 + 1 := by omega
        have h2 : i ≠ g * 3 + 2 := by omega
        simp [Function.update, h0, h1, h2]
    · have hc' : ¬ (allVerticesVisible mvp vertex g = true
          ∧ zNonpos (projectedNormal norm mvp vertex g) = true) :=
        fun h => hc ((triangleCounted_iff norm vertex g mvp).mpr h)
      simp [hg, hc, hc']
  · simp [hg]

/-- The entry `i` after the reset pass. -/
theorem resetPass_apply (groups n : Nat) (a : Nat → Vec4) (i : Nat) :
    resetPass groups n a i =
      if i / 3 < groups * 32 * 32 ∧ i / 3 < n / 3 then ⟨0, 0, 0, 0⟩ else a i := by
  unfold resetPass
  rw [dispatch_apply groups (resetVisibility n)
    (fun g v => if g < n / 3 then ⟨0, 0, 0, 0⟩ else v) (resetVisibility_apply n)]
  by_cases h1 : i / 3 < groups * 32 * 32 <;> by_cases h2 : i / 3 < n / 3 <;> simp [h1, h2]

/-- The entry `i` after the pass of one camera. -/
theorem cameraPass_apply (norm : Vec3 → ℚ) (groups n : Nat) (vertex : Nat → Vec4) (mvp : Mat4)
    (a : Nat → Vec4) (i : Nat) :
    cameraPass norm groups n vertex mvp a i =
      if i / 3 < groups * 32 * 32 ∧ i / 3 < n / 3
          ∧ triangleCounted norm vertex (i / 3) mvp = true then
        { a i with x := (a i).x + 1 }
      else a i := by
  unfold cameraPass
  rw [dispatch_apply groups (computeVisibility norm mvp n vertex)
    (fun g v => if g < n / 3 ∧ triangleCounted norm vertex g mvp = true then
      { v with x := v.x + 1 } else v)
    (computeVisibility_apply norm mvp n vertex)]
  by_cases h1 : i / 3 < groups * 32 * 32 <;> by_cases h2 : i / 3 < n / 3 <;>
    by_cases h3 : triangleCounted norm vertex (i / 3) mvp = true <;> simp [h1, h2, h3]

/-- The test `n.z <= 0.0` on the normal of three points, when `norm` is a
length: the cross product is not zero and its `z` is not positive. -/
theorem zNonpos_normalVector (norm : Vec3 → ℚ) (hnorm : IsLength norm) (u v w : Vec3) :
    zNonpos (normalVector norm u v w) = true ↔
      (v.sub u).cross (w.sub u) ≠ ⟨0, 0, 0⟩ ∧ ((v.sub u).cross (w.sub u)).z ≤ 0 := by
  unfold normalVector
  by_cases hc : (v.sub u).cross (w.sub u) = ⟨0, 0, 0⟩
  · simp [hc, zNonpos]
  · have hpos : 0 < norm ((v.sub u).cross (w.sub u)) := hnorm.2 _ hc
    simp only [hpos.ne', hc, or_self, if_false, zNonpos, decide_eq_true_eq, ne_eq,
      not_false_eq_true, true_and]
    constructor
    · intro h
      by_contra hz
      push_neg at hz
      exact absurd h (not_le.mpr (div_pos hz hpos))
    · intro h
      exact div_nonpos_of_nonpos_of_nonneg h hpos.le

/-- The test of the visibility shader on a triangle, when `norm` is a length:
the three vertices are visible, and the cross product of the two edges of the
projected triangle from its first vertex is not zero and has `z ≤ 0`. -/
theorem triangleCounted_iff_cross (norm : Vec3 → ℚ) (hnorm : IsLength norm)
    (vertex : Nat → Vec4) (t : Nat) (mvp : Mat4) :
    triangleCounted norm vertex t mvp = true ↔
      (projectAndCheckVisibility (vertex (t * 3 + 0)) mvp (5 / 1000)).visible = true
        ∧ (projectAndCheckVisibility (vertex (t * 3 + 1)) mvp (5 / 1000)).visible = true
        ∧ (projectAndCheckVisibility (vertex (t * 3 + 2)) mvp (5 / 1000)).visible = true
        ∧ ∃ s0 s1 s2 : Vec4,
            (projectAndCheckVisibility (vertex (t * 3 + 0)) mvp (5 / 1000)).p = some s0
              ∧ (projectAndCheckVisibility (vertex (t * 3 + 1)) mvp (5 / 1000)).p = some s1
              ∧ (projectAndCheckVisibility (vertex (t * 3 + 2)) mvp (5 / 1000)).p = some s2
              ∧ (s1.xyz.sub s0.xyz).cross (s2.xyz.sub s0.xyz) ≠ ⟨0, 0, 0⟩
              ∧ ((s1.xyz.sub s0.xyz).cross (s2.xyz.sub s0.xyz)).z ≤ 0 := by
  unfold triangleCounted vertexVisible projectedNormal screenVertex
  simp only [Bool.and_eq_true, and_assoc]
  constructor
  · rintro ⟨h0, h1, h2, hz⟩
    obtain ⟨s0, e0⟩ := projectAndCheckVisibility_p_of_visible _ _ _ h0
    obtain ⟨s1, e1⟩ := projectAndCheckVisibility_p_of_visible _ _ _ h1
    obtain ⟨s2, e2⟩ := projectAndCheckVisibility_p_of_visible _ _ _ h2
    rw [e0, e1, e2] at hz
    have hz' := (zNonpos_normalVector norm hnorm s0.xyz s1.xyz s2.xyz).mp hz
    exact ⟨h0, h1, h2, s0, s1, s2, e0, e1, e2, hz'.1, hz'.2⟩
  · rintro ⟨h0, h1, h2, s0, s1, s2, e0, e1, e2, hc, hz⟩
    refine ⟨h0, h1, h2, ?_⟩
    rw [e0, e1, e2]
    exact (zNonpos_normalVector norm hnorm s0.xyz s1.xyz s2.xyz).mpr ⟨hc, hz⟩

/-- The rational square root of a positive number is positive. -/
theorem rat_sqrt_pos (q : ℚ) (hq : 0 < q) : 0 < Rat.sqrt q := by
  unfold Rat.sqrt
  rw [Rat.mkRat_eq_div]
  have hn : 0 < Int.sqrt q.num := by
    unfold Int.sqrt
    have h1 : 0 < q.num := Rat.num_pos.mpr hq
    have h2 : 0 < q.num.toNat := by omega
    exact_mod_cast Nat.sqrt_pos.mpr h2
  have hd : 0 < Nat.sqrt q.den := Nat.sqrt_pos.mpr q.den_pos
  exact div_pos (by exact_mod_cast hn) (by exact_mod_cast hd)

/-- The sample length is a length. -/
theorem sampleNorm_isLength : IsLength sampleNorm := by
  constructor
  · simp [sampleNorm]
  · intro v hv
    unfold sampleNorm
    apply rat_sqrt_pos
    by_contra h
    push_neg at h
    have hx : v.x = 0 := by nlinarith [mul_self_nonneg v.x, mul_self_nonneg v.y, mul_self_nonneg v.z]
    have hy : v.y = 0 := by nlinarith [mul_self_nonneg v.x, mul_self_nonneg v.y, mul_self_nonneg v.z]
    have hz : v.z = 0 := by nlinarith [mul_self_nonneg v.x, mul_self_nonneg v.y, mul_self_nonneg v.z]
    apply hv
    cases v
    simp_all

/-- C22: in the pass of one camera over a mesh of triangles, for a vertex `i`
of a triangle of the mesh (`i / 3 < _vertexNbr / 3`, the dispatch covering
the triangles), `norm` being a length: the `x` of its accumulator entry
increases by exactly `1` when the three vertices of its triangle are visible
under the margin `0.005` and the normal of the projected triangle has
`z ≤ 0`, and is unchanged otherwise; so it increases by `1` if the one
triangle the vertex belongs to is counted and by `0` if not.  The triangle is
counted exactly when its three vertices are visible and the cross product of
the two edges of the projected triangle from its first vertex is not zero and
has `z ≤ 0`: nothing is added for a triangle with a vertex whose projected `w`
is zero, nor for a projected triangle of zero area. -/
theorem cameraPass_contribution (norm : Vec3 → ℚ) (groups n : Nat) (vertex : Nat → Vec4)
    (mvp : Mat4) (a : Nat → Vec4) (i : Nat)
    (hnorm : IsLength norm) (hi : i / 3 < n / 3) (hgroups : n / 3 ≤ groups * 32 * 32) :
    (((projectAndCheckVisibility (vertex (i / 3 * 3 + 0)) mvp (5 / 1000)).visible = true
          ∧ (projectAndCheckVisibility (vertex (i / 3 * 3 + 1)) mvp (5 / 1000)).visible = true
          ∧ (projectAndCheckVisibility (vertex (i / 3 * 3 + 2)) mvp (5 / 1000)).visible = true
          ∧ zNonpos (projectedNormal norm mvp vertex (i / 3)) = true) →
        (cameraPass norm groups n vertex mvp a i).x = (a i).x + 1)
      ∧ (¬ ((projectAndCheckVisibility (vertex (i / 3 * 3 + 0)) mvp (5 / 1000)).visible = true
          ∧ (projectAndCheckVisibility (vertex (i / 3 * 3 + 1)) mvp (5 / 1000)).visible = true
          ∧ (projectAndCheckVisibility (vertex (i / 3 * 3 + 2)) mvp (5 / 1000)).visible = true
          ∧ zNonpos (projectedNormal norm mvp vertex (i / 3)) = true) →
        (cameraPass norm groups n vertex mvp a i).x = (a i).x)
      ∧ (cameraPass norm groups n vertex mvp a i).x
          = (a i).x + (if triangleCounted norm vertex (i / 3) mvp = true then 1 else 0)
      ∧ (triangleCounted norm vertex (i / 3) mvp = true ↔
          (projectAndCheckVisibility (vertex (i / 3 * 3 + 0)) mvp (5 / 1000)).visible = true
            ∧ (projectAndCheckVisibility (vertex (i / 3 * 3 + 1)) mvp (5 / 1000)).visible = true
            ∧ (projectAndCheckVisibility (vertex (i / 3 * 3 + 2)) mvp (5 / 1000)).visible = true
            ∧ ∃ s0 s1 s2 : Vec4,
                (projectAndCheckVisibility (vertex (i / 3 * 3 + 0)) mvp (5 / 1000)).p = some s0
                  ∧ (projectAndCheckVisibility (vertex (i / 3 * 3 + 1)) mvp (5 / 1000)).p = some s1
                  ∧ (projectAndCheckVisibility (vertex (i / 3 * 3 + 2)) mvp (5 / 1000)).p = some s2
                  ∧ (s1.xyz.sub s0.xyz).cross (s2.xyz.sub s0.xyz) ≠ ⟨0, 0, 0⟩
                  ∧ ((s1.xyz.sub s0.xyz).cross (s2.xyz.sub s0.xyz)).z ≤ 0)
      ∧ (∀ idx : Nat, idx < 3 →
          (mvp.mulVec ⟨(vertex (i / 3 * 3 + idx)).x, (vertex (i / 3 * 3 + idx)).y,
            (vertex (i / 3 * 3 + idx)).z, 1⟩).w = 0 →
          (cameraPass norm groups n vertex mvp a i).x = (a i).x)
      ∧ (∀ s0 s1 s2 : Vec4,
          (projectAndCheckVisibility (vertex (i / 3 * 3 + 0)) mvp (5 / 1000)).p = some s0 →
          (projectAndCheckVisibility (vertex (i / 3 * 3 + 1)) mvp (5 / 1000)).p = some s1 →
          (projectAndCheckVisibility (vertex (i / 3 * 3 + 2)) mvp (5 / 1000)).p = some s2 →
          (s1.xyz.sub s0.xyz).cross (s2.xyz.sub s0.xyz) = ⟨0, 0, 0⟩ →
          (cameraPass norm groups n vertex mvp a i).x = (a i).x) := by
  have hg : i / 3 < groups * 32 * 32 := by omega
  have hcount : triangleCounted norm vertex (i / 3) mvp = true ↔
      ((projectAndCheckVisibility (vertex (i / 3 * 3 + 0)) mvp (5 / 1000)).visible = true
        ∧ (projectAndCheckVisibility (vertex (i / 3 * 3 + 1)) mvp (5 / 1000)).visible = true
        ∧ (projectAndCheckVisibility (vertex (i / 3 * 3 + 2)) mvp (5 / 1000)).visible = true
        ∧ zNonpos (projectedNormal norm mvp vertex (i / 3)) = true) := by
    simp [triangleCounted, vertexVisible, and_assoc]
  have hcross := triangleCounted_iff_cross norm hnorm vertex (i / 3) mvp
  have hnot : triangleCounted norm vertex (i / 3) mvp ≠ true →
      (cameraPass norm groups n vertex mvp a i).x = (a i).x := by
    intro hc
    rw [cameraPass_apply, if_neg (fun h => hc h.2.2)]
  refine ⟨?_, ?_, ?_, hcross, ?_, ?_⟩
  · intro h
    rw [cameraPass_apply, if_pos ⟨hg, hi, hcount.mpr h⟩]
  · intro h
    exact hnot (fun hc => h (hcount.mp hc))
  · rw [cameraPass_apply]
    by_cases hc : triangleCounted norm vertex (i / 3) mvp = true
    · rw [if_pos ⟨hg, hi, hc⟩, if_pos hc]
    · rw [if_neg (fun h => hc h.2.2), if_neg hc, add_zero]
  · intro idx hidx hw
    apply hnot
    intro hc
    have hv := hcount.mp hc
    have hfalse := projectAndCheckVisibility_w_zero (vertex (i / 3 * 3 + idx)) mvp (5 / 1000) hw
    have : idx = 0 ∨ idx = 1 ∨ idx = 2 := by omega
    rcases this with h | h | h <;> subst h
    · rw [hv.1] at hfalse
      exact absurd hfalse (by decide)
    · rw [hv.2.1] at hfalse
      exact absurd hfalse (by decide)
    · rw [hv.2.2.1] at hfalse
      exact absurd hfalse (by decide)
  · intro s0 s1 s2 e0 e1 e2 hz
    apply hnot
    intro hc
    obtain ⟨_, _, _, t0, t1, t2, f0, f1, f2, hne, _⟩ := hcross.mp hc
    rw [e0] at f0
    rw [e1] at f1
    rw [e2] at f2
    cases f0
    cases f1
    cases f2
    exact hne hz

theorem sampleMesh_normal :
    zNonpos (projectedNormal sampleNorm Mat4.identity sampleMesh (1 / 3)) = true := by
  have e0 : (projectAndCheckVisibility (sampleMesh (1 / 3 * 3 + 0)) Mat4.identity (5 / 1000)).p
      = some ⟨0, 0, 1 / 2, 1⟩ := by
    norm_num [projectAndCheckVisibility, sampleMesh, Mat4.mulVec, Mat4.identity, Vec4.dot]
  have e1 : (projectAndCheckVisibility (sampleMesh (1 / 3 * 3 + 1)) Mat4.identity (5 / 1000)).p
      = some ⟨1 / 2, 0, 1 / 2, 1⟩ := by
    norm_num [projectAndCheckVisibility, sampleMesh, Mat4.mulVec, Mat4.identity, Vec4.dot]
  have e2 : (projectAndCheckVisibility (sampleMesh (1 / 3 * 3 + 2)) Mat4.identity (5 / 1000)).p
      = some ⟨0, -1 / 2, 1 / 2, 1⟩ := by
    norm_num [projectAndCheckVisibility, sampleMesh, Mat4.mulVec, Mat4.identity, Vec4.dot]
  unfold projectedNormal screenVertex
  rw [e0, e1, e2]
  exact (zNonpos_normalVector sampleNorm sampleNorm_isLength _ _ _).mpr
    ⟨by norm_num [Vec4.xyz, Vec3.sub, Vec3.cross], by norm_num [Vec4.xyz, Vec3.sub, Vec3.cross]⟩

/-- Instance of C22: the second vertex of the sample mesh under the identity
camera, its triangle being visible and front-facing. -/
theorem cameraPass_contribution_witness :
    (cameraPass sampleNorm 1 3 sampleMesh Mat4.identity (fun _ => ⟨0, 0, 0, 0⟩) 1).x
      = (⟨0, 0, 0, 0⟩ : Vec4).x + 1 :=
  (cameraPass_contribution sampleNorm 1 3 sampleMesh Mat4.identity (fun _ => ⟨0, 0, 0, 0⟩) 1
    sampleNorm_isLength (by decide) (by decide)).1
    ⟨by norm_num [projectAndCheckVisibility, sampleMesh, Mat4.mulVec, Mat4.identity, Vec4.dot,
        abs_le],
      by norm_num [projectAndCheckVisibility, sampleMesh, Mat4.mulVec, Mat4.identity, Vec4.dot,
        abs_le],
      by norm_num [projectAndCheckVisibility, sampleMesh, Mat4.mulVec, Mat4.identity, Vec4.dot,
        abs_le],
      sampleMesh_normal⟩

/-- The entry `i` of a vertex of a triangle of the mesh after the passes of
several cameras: `x` has increased by the number of cameras that count its
triangle, the rest is unchanged. -/
theorem cameraPasses_inside (norm : Vec3 → ℚ) (groups n : Nat) (vertex : Nat → Vec4)
    (mvps : List Mat4) (i : Nat) (h1 : i / 3 < groups * 32 * 32) (h2 : i / 3 < n / 3) :
    ∀ a : Nat → Vec4, cameraPasses norm groups n vertex mvps a i =
      { a i with x := (a i).x +
          ((mvps.countP (fun mvp => triangleCounted norm vertex (i / 3) mvp) : Nat) : ℚ) } := by
  unfold cameraPasses
  induction mvps with
  | nil =>
    intro a
    simp
  | cons mvp rest ih =>
    intro a
    rw [List.foldl_cons, ih, cameraPass_apply, List.countP_cons]
    by_cases h3 : triangleCounted norm vertex (i / 3) mvp = true
    · rw [if_pos ⟨h1, h2, h3⟩, if_pos h3]
      show (⟨_, _, _, _⟩ : Vec4) = ⟨_, _, _, _⟩
      congr 1
      push_cast
      ring
    · rw [if_neg (fun h => h3 h.2.2), if_neg h3]
      simp

/-- The other entries are not changed by the passes of the cameras. -/
theorem cameraPasses_outside (norm : Vec3 → ℚ) (groups n : Nat) (vertex : Nat → Vec4)
    (mvps : List Mat4) (i : Nat) (h : ¬ (i / 3 < groups * 32 * 32 ∧ i / 3 < n / 3)) :
    ∀ a : Nat → Vec4, cameraPasses norm groups n vertex mvps a i = a i := by
  unfold cameraPasses
  induction mvps with
  | nil =>
    intro a
    rfl
  | cons mvp rest ih =>
    intro a
    rw [List.foldl_cons, ih, cameraPass_apply, if_neg (fun hc => h ⟨hc.1, hc.2.1⟩)]

/-- A triangle with a vertex that is not visible is not counted. -/
theorem triangleCounted_of_not_visible (norm : Vec3 → ℚ) (vertex : Nat → Vec4) (mvp : Mat4)
    (i : Nat) (h : (projectAndCheckVisibility (vertex i) mvp (5 / 1000)).visible = false) :
    triangleCounted norm vertex (i / 3) mvp = false := by
  have hi : i = i / 3 * 3 + 0 ∨ i = i / 3 * 3 + 1 ∨ i = i / 3 * 3 + 2 := by omega
  have hv : vertexVisible mvp vertex (i / 3) 0 = false ∨ vertexVisible mvp vertex (i / 3) 1 = false
      ∨ vertexVisible mvp vertex (i / 3) 2 = false := by
    unfold vertexVisible
    rcases hi with h0 | h1 | h2
    · exact Or.inl (h0 ▸ h)
    · exact Or.inr (Or.inl (h1 ▸ h))
    · exact Or.inr (Or.inr (h2 ▸ h))
  unfold triangleCounted
  rcases hv with h0 | h1 | h2
  · simp [h0]
  · simp [h1]
  · simp [h2]

/-- C23 as stated fails: with `_vertexNbr = 4` the vertex `3` belongs to no
triangle of three consecutive vertices; it is visible under none of the two
cameras, and after the full pass the `x` of its accumulator entry is what it
was before, `7`, which is neither `0` nor at most the number of cameras. -/
theorem fullPass_counterexample :
    (3 : Nat) < 4
      ∧ (projectAndCheckVisibility (sampleMesh 3) Mat4.identity (5 / 1000)).visible = false
      ∧ (projectAndCheckVisibility (sampleMesh 3) sampleHalfCamera (5 / 1000)).visible = false
      ∧ (fullPass sampleNorm 1 4 sampleMesh [Mat4.identity, sampleHalfCamera]
          (fun _ => ⟨7, 7, 7, 7⟩) 3).x = 7
      ∧ (fullPass sampleNorm 1 4 sampleMesh [Mat4.identity, sampleHalfCamera]
          (fun _ => ⟨7, 7, 7, 7⟩) 3).x ≠ 0
      ∧ ¬ ((fullPass sampleNorm 1 4 sampleMesh [Mat4.identity, sampleHalfCamera]
          (fun _ => ⟨7, 7, 7, 7⟩) 3).x
            ≤ (([Mat4.identity, sampleHalfCamera] : List Mat4).length : ℚ)) := by
  have h : fullPass sampleNorm 1 4 sampleMesh [Mat4.identity, sampleHalfCamera]
      (fun _ => ⟨7, 7, 7, 7⟩) 3 = ⟨7, 7, 7, 7⟩ := by
    unfold fullPass
    rw [cameraPasses_outside sampleNorm 1 4 sampleMesh _ 3 (by decide), resetPass_apply,
      if_neg (by decide)]
  refine ⟨by decide, ?_, ?_, ?_, ?_, ?_⟩
  · norm_num [projectAndCheckVisibility, sampleMesh, Mat4.mulVec, Mat4.identity, Vec4.dot,
      abs_le]
  · norm_num [projectAndCheckVisibility, sampleMesh, Mat4.mulVec, sampleHalfCamera, Vec4.dot,
      abs_le]
  · rw [h]
  · rw [h]
    norm_num
  · rw [h]
    norm_num

/-- C23, amended: after a full pass (the reset, then the passes of the `N`
cameras `mvps`, the dispatches covering the triangles), `norm` being a length,
for every vertex `i` below `3 * (_vertexNbr / 3)`, that is every vertex of a
triangle of three consecutive vertices: the `x` of its accumulator entry is
the number of cameras for which its triangle is counted as visible, a number
between `0` and `N`; and it is `0` when the vertex is visible under none of
the cameras.  A triangle is counted for a camera exactly when its three
vertices are visible and the cross product of the two edges of the projected
triangle from its first vertex is not zero and has `z ≤ 0`.  The entries of
the vertices from `3 * (_vertexNbr / 3)` on keep the content they had before
the pass. -/
theorem fullPass_contribution (norm : Vec3 → ℚ) (groups n : Nat) (vertex : Nat → Vec4)
    (mvps : List Mat4) (a : Nat → Vec4) (i : Nat)
    (hnorm : IsLength norm) (hi : i < 3 * (n / 3)) (hgroups : n / 3 ≤ groups * 32 * 32) :
    (fullPass norm groups n vertex mvps a i).x
        = ((mvps.countP (fun mvp => triangleCounted norm vertex (i / 3) mvp) : Nat) : ℚ)
      ∧ 0 ≤ (fullPass norm groups n vertex mvps a i).x
      ∧ (fullPass norm groups n vertex mvps a i).x ≤ (mvps.length : ℚ)
      ∧ ((∀ mvp ∈ mvps, (projectAndCheckVisibility (vertex i) mvp (5 / 1000)).visible = false) →
          (fullPass norm groups n vertex mvps a i).x = 0)
      ∧ (∀ mvp : Mat4, triangleCounted norm vertex (i / 3) mvp = true ↔
          (projectAndCheckVisibility (vertex (i / 3 * 3 + 0)) mvp (5 / 1000)).visible = true
            ∧ (projectAndCheckVisibility (vertex (i / 3 * 3 + 1)) mvp (5 / 1000)).visible = true
            ∧ (projectAndCheckVisibility (vertex (i / 3 * 3 + 2)) mvp (5 / 1000)).visible = true
            ∧ ∃ s0 s1 s2 : Vec4,
                (projectAndCheckVisibility (vertex (i / 3 * 3 + 0)) mvp (5 / 1000)).p = some s0
                  ∧ (projectAndCheckVisibility (vertex (i / 3 * 3 + 1)) mvp (5 / 1000)).p = some s1
                  ∧ (projectAndCheckVisibility (vertex (i / 3 * 3 + 2)) mvp (5 / 1000)).p = some s2
                  ∧ (s1.xyz.sub s0.xyz).cross (s2.xyz.sub s0.xyz) ≠ ⟨0, 0, 0⟩
                  ∧ ((s1.xyz.sub s0.xyz).cross (s2.xyz.sub s0.xyz)).z ≤ 0)
      ∧ (∀ j : Nat, 3 * (n / 3) ≤ j → fullPass norm groups n vertex mvps a j = a j) := by
  have hi3 : i / 3 < n / 3 := by omega
  have hg : i / 3 < groups * 32 * 32 := by omega
  have hx : (fullPass norm groups n vertex mvps a i).x
      = ((mvps.countP (fun mvp => triangleCounted norm vertex (i / 3) mvp) : Nat) : ℚ) := by
    unfold fullPass
    rw [cameraPasses_inside norm groups n vertex mvps i hg hi3, resetPass_apply, if_pos ⟨hg, hi3⟩]
    simp
  refine ⟨hx, ?_, ?_, ?_, fun mvp => triangleCounted_iff_cross norm hnorm vertex (i / 3) mvp, ?_⟩
  · rw [hx]
    exact Nat.cast_nonneg _
  · rw [hx]
    exact_mod_cast List.countP_le_length _
  · intro hnone
    rw [hx]
    have : mvps.countP (fun mvp => triangleCounted norm vertex (i / 3) mvp) = 0 := by
      rw [List.countP_eq_zero]
      intro mvp hm
      rw [triangleCounted_of_not_visible norm vertex mvp i (hnone mvp hm)]
      simp
    rw [this]
    rfl
  · intro j hj
    unfold fullPass
    rw [cameraPasses_outside norm groups n vertex mvps j (fun h => by omega), resetPass_apply,
      if_neg (fun h => by omega)]

/-- Instance of the amended C23: the sample mesh and two cameras. -/
theorem fullPass_contribution_witness :
    (fullPass sampleNorm 1 3 sampleMesh [Mat4.identity, sampleHalfCamera]
        (fun _ => ⟨7, 7, 7, 7⟩) 1).x
        = ((([Mat4.identity, sampleHalfCamera] : List Mat4).countP
            (fun mvp => triangleCounted sampleNorm sampleMesh (1 / 3) mvp) : Nat) : ℚ)
      ∧ (fullPass sampleNorm 1 3 sampleMesh [Mat4.identity, sampleHalfCamera]
        (fun _ => ⟨7, 7, 7, 7⟩) 1).x ≤ (([Mat4.identity, sampleHalfCamera] : List Mat4).length : ℚ) :=
  have key := fullPass_contribution sampleNorm 1 3 sampleMesh [Mat4.identity, sampleHalfCamera]
    (fun _ => ⟨7, 7, 7, 7⟩) 1 sampleNorm_isLength (by decide) (by decide)
  ⟨key.1, key.2.2.1⟩

/-- Two camera passes commute. -/
theorem cameraPass_comm (norm : Vec3 → ℚ) (groups n : Nat) (vertex : Nat → Vec4)
    (m1 m2 : Mat4) (a : Nat → Vec4) :
    cameraPass norm groups n vertex m2 (cameraPass norm groups n vertex m1 a)
      = cameraPass norm groups n vertex m1 (cameraPass norm groups n vertex m2 a) := by
  funext i
  rw [cameraPass_apply, cameraPass_apply, cameraPass_apply, cameraPass_apply]
  by_cases h1 : i / 3 < groups * 32 * 32 ∧ i / 3 < n / 3
      ∧ triangleCounted norm vertex (i / 3) m1 = true
  · by_cases h2 : i / 3 < groups * 32 * 32 ∧ i / 3 < n / 3
        ∧ triangleCounted norm vertex (i / 3) m2 = true
    · simp only [if_pos h1, if_pos h2]
    · simp only [if_pos h1, if_neg h2]
  · by_cases h2 : i / 3 < groups * 32 * 32 ∧ i / 3 < n / 3
        ∧ triangleCounted norm vertex (i / 3) m2 = true
    · simp only [if_neg h1, if_pos h2]
    · simp only [if_neg h1, if_neg h2]

/-- C24: for a fixed mesh, the accumulator obtained by running the passes of
the cameras `l` in order equals the one obtained by running them in the order
of any permutation `l'` of `l`; in particular two passes commute. -/
theorem cameraPasses_perm (norm : Vec3 → ℚ) (groups n : Nat) (vertex : Nat → Vec4)
    (l l' : List Mat4) (h : l.Perm l') (a : Nat → Vec4) :
    cameraPasses norm groups n vertex l a = cameraPasses norm groups n vertex l' a
      ∧ ∀ m1 m2 : Mat4, cameraPasses norm groups n vertex [m1, m2] a
          = cameraPasses norm groups n vertex [m2, m1] a := by
  refine ⟨?_, ?_⟩
  · unfold cameraPasses
    exact h.foldl_eq' (fun x _ y _ z => cameraPass_comm norm groups n vertex x y z) a
  · intro m1 m2
    exact cameraPass_comm norm groups n vertex m1 m2 a

/-- Instance of C24: two cameras on the sample mesh, in the two orders. -/
theorem cameraPasses_perm_witness :
    cameraPasses sampleNorm 1 3 sampleMesh [Mat4.identity, sampleHalfCamera]
        (fun _ => ⟨0, 0, 0, 0⟩)
      = cameraPasses sampleNorm 1 3 sampleMesh [sampleHalfCamera, Mat4.identity]
        (fun _ => ⟨0, 0, 0, 0⟩) :=
  (cameraPasses_perm sampleNorm 1 3 sampleMesh [Mat4.identity, sampleHalfCamera]
    [sampleHalfCamera, Mat4.identity] (List.Perm.swap _ _ _) (fun _ => ⟨0, 0, 0, 0⟩)).1

/-- C25 as stated fails: with `_vertexNbr = 4` the only invocation that
resets is `globalID = 0`, which zeroes the entries `0`, `1`, `2`; the entry of
the vertex `3` keeps its value. -/
theorem resetPass_counterexample :
    (3 : Nat) < 4
      ∧ resetPass 1 4 (fun _ => ⟨1, 1, 0, 0⟩) 3 = ⟨1, 1, 0, 0⟩
      ∧ resetPass 1 4 (fun _ => ⟨1, 1, 0, 0⟩) 3 ≠ ⟨0, 0, 0, 0⟩ := by
  have h : resetPass 1 4 (fun _ => ⟨1, 1, 0, 0⟩) 3 = ⟨1, 1, 0, 0⟩ := by
    rw [resetPass_apply, if_neg (by decide)]
  refine ⟨by decide, h, ?_⟩
  rw [h]
  simp

/-- C25, amended: for every vertex count `_vertexNbr` and every prior content,
after the reset shader has run for all invocations (the dispatch covering the
triangles) the accumulator entry of every vertex with index below
`3 * (_vertexNbr / 3)` is zero, which is every vertex below `_vertexNbr` when
`_vertexNbr` is a multiple of 3; every other entry keeps its value. -/
theorem resetPass_zero (groups n : Nat) (a : Nat → Vec4) (hgroups : n / 3 ≤ groups * 32 * 32) :
    (∀ i, i < 3 * (n / 3) → resetPass groups n a i = ⟨0, 0, 0, 0⟩)
      ∧ (n % 3 = 0 → ∀ i, i < n → resetPass groups n a i = ⟨0, 0, 0, 0⟩)
      ∧ (∀ i, 3 * (n / 3) ≤ i → resetPass groups n a i = a i) := by
  refine ⟨?_, ?_, ?_⟩
  · intro i hi
    rw [resetPass_apply, if_pos ⟨by omega, by omega⟩]
  · intro hn i hi
    rw [resetPass_apply, if_pos ⟨by omega, by omega⟩]
  · intro i hi
    rw [resetPass_apply, if_neg (fun h => by omega)]

/-- Instance of the amended C25: six vertices, one work group. -/
theorem resetPass_zero_witness :
    6 / 3 ≤ 1 * 32 * 32
      ∧ resetPass 1 6 (fun _ => ⟨1, 1, 0, 0⟩) 5 = ⟨0, 0, 0, 0⟩
      ∧ resetPass 1 6 (fun _ => ⟨1, 1, 0, 0⟩) 6 = ⟨1, 1, 0, 0⟩ :=
  ⟨by decide,
    (resetPass_zero 1 6 (fun _ => ⟨1, 1, 0, 0⟩) (by decide)).1 5 (by decide),
    (resetPass_zero 1 6 (fun _ => ⟨1, 1, 0, 0⟩) (by decide)).2.2 6 (by decide)⟩

/-- C29: in the cutting branch of the geometry shader (one or two of the
three vertices inside), exactly two of the three edges have their ends on
opposite sides, so the arrays have five written slots (the new points are in
the slots 3 and 4); `cutCase` lies in `0..5`; every index
`cutCase * 9 + t * 3 + v` (with `t, v < 3`) is within the 54 entries of
`cutTable`; every entry of the table is at most `4`, so every `currentIndex`
is a written slot of the arrays. -/
theorem cut_indices_in_range (undef : Nat → XVec2) (mvp : Mat4) (geom_in : Nat → GeomVertex)
    (h : verticesInside mvp geom_in = 1 ∨ verticesInside mvp geom_in = 2) :
    ((List.range 3).filter
        (fun i => decide (side mvp geom_in i ≠ side mvp geom_in ((i + 1) % 3)))).length = 2
      ∧ (cutVertices undef mvp geom_in).length = 5
      ∧ 0 ≤ cutCase mvp geom_in ∧ cutCase mvp geom_in ≤ 5
      ∧ cutTable.length = 54
      ∧ (∀ e ∈ cutTable, e ≤ 4)
      ∧ (∀ t v : Nat, t < 3 → v < 3 →
          0 ≤ cutCase mvp geom_in * 9 + t * 3 + v
            ∧ (cutCase mvp geom_in * 9 + t * 3 + v).toNat < cutTable.length
            ∧ currentIndex mvp geom_in t v < (cutVertices undef mvp geom_in).length) := by
  unfold verticesInside at h
  unfold cutVertices cutCase currentIndex cutCase
  simp only [range_three, List.foldl] at h ⊢
  have htable : ∀ e ∈ cutTable, e ≤ 4 := by decide
  cases h0 : side mvp geom_in 0 <;> cases h1 : side mvp geom_in 1 <;>
    cases h2 : side mvp geom_in 2 <;> simp [h0, h1, h2] at h
  all_goals
    refine ⟨by simp [List.filter, h0, h1, h2], by simp [h0, h1, h2], by simp [h0, h1, h2],
      by simp [h0, h1, h2], rfl, htable, ?_⟩
    intro t v ht hv
    interval_cases t <;> interval_cases v <;> simp [h0, h1, h2, cutTable]

theorem sampleTriangle_side :
    side Mat4.identity sampleTriangle 0 = true ∧ side Mat4.identity sampleTriangle 1 = false
      ∧ side Mat4.identity sampleTriangle 2 = true := by
  refine ⟨?_, ?_, ?_⟩ <;>
    norm_num [side, projectAndCheckVisibility, sampleTriangle, Mat4.mulVec, Mat4.identity,
      Vec4.dot, abs_le]

theorem sampleTriangle_verticesInside : verticesInside Mat4.identity sampleTriangle = 2 := by
  obtain ⟨h0, h1, h2⟩ := sampleTriangle_side
  simp [verticesInside, range_three, h0, h1, h2]

/-- Instance of C29: the sample triangle, with two vertices inside. -/
theorem cut_indices_in_range_witness :
    (cutVertices (fun _ => ⟨XFloat.fin 0, XFloat.fin 0⟩) Mat4.identity sampleTriangle).length = 5
      ∧ 0 ≤ cutCase Mat4.identity sampleTriangle ∧ cutCase Mat4.identity sampleTriangle ≤ 5 :=
  have key := cut_indices_in_range (fun _ => ⟨XFloat.fin 0, XFloat.fin 0⟩) Mat4.identity
    sampleTriangle (Or.inr sampleTriangle_verticesInside)
  ⟨key.2.1, key.2.2.1, key.2.2.2.1⟩

theorem sign_eq_zero_iff (x : ℚ) : sign x = 0 ↔ x = 0 := by
  unfold sign
  rcases lt_trichotomy x 0 with h | h | h
  · simp [h, not_lt.mpr h.le, h.ne]
  · simp [h]
  · simp [h, h.ne']

/-- C30 fails on the code: after a tick that received no button, the
callback delivers the four buttons `1, 0, 0, 0`; `_joyButtonsPrevious` is then
empty, and the next `processJoystickState` reads `_joyButtonsPrevious[0]`.
The same happens when these four buttons are the first ever delivered. -/
theorem previousReads_out_of_range :
    (runJoystickEvents sampleExternals [JoystickEvent.tick, JoystickEvent.buttons [1, 0, 0, 0]]
        (sampleJoystickWorld [] [])).view._joyButtonsPrevious.length = 0
      ∧ previousReads sampleExternals
          (runJoystickEvents sampleExternals
            [JoystickEvent.tick, JoystickEvent.buttons [1, 0, 0, 0]]
            (sampleJoystickWorld [] [])) = [0]
      ∧ (runJoystickEvents sampleExternals [JoystickEvent.buttons [1, 0, 0, 0]]
        (sampleJoystickWorld [] [])).view._joyButtonsPrevious.length = 0
      ∧ previousReads sampleExternals
          (runJoystickEvents sampleExternals [JoystickEvent.buttons [1, 0, 0, 0]]
            (sampleJoystickWorld [] [])) = [0] := by
  decide

end Splash
